import Mathlib

/-! Morris Sim rules engine (`morris.c`, `morris.h`, `tables.h`).

A shallow embedding of the game-state functions of Morris Sim, together with
theorems about placing, moving and removing pieces.

The embedding follows the `USE_PACKED` build, whose lookup tables are the ones
written out in `tables.h`: the board is `MASK_SIZE = 8` bytes, four 2-bit cells
per byte.  Every `guchar` is a natural number below 256 and every truncation
to 8 bits is an explicit `% 256`.  `set_board_pos` has two bodies in the
source, selected by `HAVE_X86_ASM`; the flag is the first argument of
`set_board_pos` and of the three mutators that call it.  The theorems on
what a successful mutator writes are stated for the `HAVE_X86_ASM` body, the
rotation of the mask; the theorems on refused calls hold for both bodies.

A read outside an array (a board index of 32 or more, a `NULL` slot of a
choice array, `player_pieces[-1]`) has no defined result in C; the embedding
returns `none` there.
-/

namespace Morris

/-! ## `morris.h` -/

def NUM_PLAYERS : Nat := 2

def EMPTY : Nat := 0
def PLAYER1 : Nat := 1
def PLAYER2 : Nat := 2

def BOARD_SIZE : Nat := 24
def TOTAL_MILLS : Nat := 20

/-- The size of the mill masks in bytes (`USE_PACKED`). -/
def MASK_SIZE : Nat := 8

/-- The packed board `BoardQuad board[MASK_SIZE]`, one `guchar` per element. -/
abbrev Board := List Nat

/-- The `struct GameState_tag` of `morris.h`. -/
structure GameState where
  cur_player : Nat
  setup_rounds_left : Nat
  remove_state : Bool
  player_pieces : List Nat
  board : Board
deriving DecidableEq, Repr

/-! ## `tables.h` -/

def adjacent_places_canonical : List (List Nat) :=
  [
    [0, 1],
    [1, 2],
    [2, 14],
    [14, 23],
    [23, 22],
    [22, 21],
    [21, 9],
    [9, 0],
    [3, 4],
    [4, 5],
    [5, 13],
    [13, 20],
    [20, 19],
    [19, 18],
    [18, 10],
    [10, 3],
    [6, 7],
    [7, 8],
    [8, 12],
    [12, 17],
    [17, 16],
    [16, 15],
    [15, 11],
    [11, 6],
    [0, 3],
    [3, 6],
    [1, 4],
    [4, 7],
    [2, 5],
    [5, 8],
    [14, 13],
    [13, 12],
    [23, 20],
    [20, 17],
    [22, 19],
    [19, 16],
    [21, 18],
    [18, 15],
    [9, 10],
    [10, 11]
  ]

def adjacent_places : List Nat :=
  [
     1,  3,  9, 99,
     0,  2,  4, 99,
     1,  5, 14, 99,
     0,  4,  6, 10,
     1,  3,  5,  7,
     2,  4,  8, 13,
     3,  7, 11, 99,
     4,  6,  8, 99,
     5,  7, 12, 99,
     0, 10, 21, 99,
     3,  9, 11, 18,
     6, 10, 15, 99,
     8, 13, 17, 99,
     5, 12, 14, 20,
     2, 13, 23, 99,
    11, 16, 18, 99,
    15, 17, 19, 99,
    12, 16, 20, 99,
    10, 15, 19, 21,
    16, 18, 20, 22,
    13, 17, 19, 23,
     9, 18, 22, 99,
    19, 21, 23, 99,
    14, 20, 22, 99
  ]

def null_mask : Board :=
  [
    0x00, 0x00, 0x00, 0x00, 0x00, 0x00, 0x00, 0x00
  ]

def saturated_mask : Board :=
  [
    0xFF, 0xFF, 0xFF, 0xFF, 0xFF, 0xFF, 0x00, 0x00
  ]

def p1_mask : Board :=
  [
    0x55, 0x55, 0x55, 0x55, 0x55, 0x55, 0x00, 0x00
  ]

def p2_mask : Board :=
  [
    0xAA, 0xAA, 0xAA, 0xAA, 0xAA, 0xAA, 0x00, 0x00
  ]

def mill_masks : List Board :=
  [
    [0x3F, 0x00, 0x00, 0x00, 0x00, 0x00, 0x00, 0x00],
    [0x30, 0x00, 0x00, 0x30, 0x00, 0xC0, 0x00, 0x00],
    [0x00, 0x00, 0x00, 0x00, 0x00, 0xFC, 0x00, 0x00],
    [0x03, 0x00, 0x0C, 0x00, 0x00, 0x0C, 0x00, 0x00],
    [0xC0, 0x0F, 0x00, 0x00, 0x00, 0x00, 0x00, 0x00],
    [0x00, 0x0C, 0x00, 0x0C, 0x00, 0x03, 0x00, 0x00],
    [0x00, 0x00, 0x00, 0x00, 0xF0, 0x03, 0x00, 0x00],
    [0xC0, 0x00, 0x30, 0x00, 0x30, 0x00, 0x00, 0x00],
    [0x00, 0xF0, 0x03, 0x00, 0x00, 0x00, 0x00, 0x00],
    [0x00, 0x00, 0x03, 0x03, 0x0C, 0x00, 0x00, 0x00],
    [0x00, 0x00, 0x00, 0xC0, 0x0F, 0x00, 0x00, 0x00],
    [0x00, 0x30, 0xC0, 0xC0, 0x00, 0x00, 0x00, 0x00],
    [0xC3, 0x30, 0x00, 0x00, 0x00, 0x00, 0x00, 0x00],
    [0x0C, 0xC3, 0x00, 0x00, 0x00, 0x00, 0x00, 0x00],
    [0x30, 0x0C, 0x03, 0x00, 0x00, 0x00, 0x00, 0x00],
    [0x00, 0x00, 0x00, 0x3F, 0x00, 0x00, 0x00, 0x00],
    [0x00, 0x00, 0x00, 0x00, 0x0C, 0xC3, 0x00, 0x00],
    [0x00, 0x00, 0x00, 0x00, 0xC3, 0x30, 0x00, 0x00],
    [0x00, 0x00, 0x00, 0xC0, 0x30, 0x0C, 0x00, 0x00],
    [0x00, 0x00, 0xFC, 0x00, 0x00, 0x00, 0x00, 0x00]
  ]

def p1_mill_masks : List Board :=
  [
    [0x15, 0x00, 0x00, 0x00, 0x00, 0x00, 0x00, 0x00],
    [0x10, 0x00, 0x00, 0x10, 0x00, 0x40, 0x00, 0x00],
    [0x00, 0x00, 0x00, 0x00, 0x00, 0x54, 0x00, 0x00],
    [0x01, 0x00, 0x04, 0x00, 0x00, 0x04, 0x00, 0x00],
    [0x40, 0x05, 0x00, 0x00, 0x00, 0x00, 0x00, 0x00],
    [0x00, 0x04, 0x00, 0x04, 0x00, 0x01, 0x00, 0x00],
    [0x00, 0x00, 0x00, 0x00, 0x50, 0x01, 0x00, 0x00],
    [0x40, 0x00, 0x10, 0x00, 0x10, 0x00, 0x00, 0x00],
    [0x00, 0x50, 0x01, 0x00, 0x00, 0x00, 0x00, 0x00],
    [0x00, 0x00, 0x01, 0x01, 0x04, 0x00, 0x00, 0x00],
    [0x00, 0x00, 0x00, 0x40, 0x05, 0x00, 0x00, 0x00],
    [0x00, 0x10, 0x40, 0x40, 0x00, 0x00, 0x00, 0x00],
    [0x41, 0x10, 0x00, 0x00, 0x00, 0x00, 0x00, 0x00],
    [0x04, 0x41, 0x00, 0x00, 0x00, 0x00, 0x00, 0x00],
    [0x10, 0x04, 0x01, 0x00, 0x00, 0x00, 0x00, 0x00],
    [0x00, 0x00, 0x00, 0x15, 0x00, 0x00, 0x00, 0x00],
    [0x00, 0x00, 0x00, 0x00, 0x04, 0x41, 0x00, 0x00],
    [0x00, 0x00, 0x00, 0x00, 0x41, 0x10, 0x00, 0x00],
    [0x00, 0x00, 0x00, 0x40, 0x10, 0x04, 0x00, 0x00],
    [0x00, 0x00, 0x54, 0x00, 0x00, 0x00, 0x00, 0x00]
  ]

def p2_mill_masks : List Board :=
  [
    [0x2A, 0x00, 0x00, 0x00, 0x00, 0x00, 0x00, 0x00],
    [0x20, 0x00, 0x00, 0x20, 0x00, 0x80, 0x00, 0x00],
    [0x00, 0x00, 0x00, 0x00, 0x00, 0xA8, 0x00, 0x00],
    [0x02, 0x00, 0x08, 0x00, 0x00, 0x08, 0x00, 0x00],
    [0x80, 0x0A, 0x00, 0x00, 0x00, 0x00, 0x00, 0x00],
    [0x00, 0x08, 0x00, 0x08, 0x00, 0x02, 0x00, 0x00],
    [0x00, 0x00, 0x00, 0x00, 0xA0, 0x02, 0x00, 0x00],
    [0x80, 0x00, 0x20, 0x00, 0x20, 0x00, 0x00, 0x00],
    [0x00, 0xA0, 0x02, 0x00, 0x00, 0x00, 0x00, 0x00],
    [0x00, 0x00, 0x02, 0x02, 0x08, 0x00, 0x00, 0x00],
    [0x00, 0x00, 0x00, 0x80, 0x0A, 0x00, 0x00, 0x00],
    [0x00, 0x20, 0x80, 0x80, 0x00, 0x00, 0x00, 0x00],
    [0x82, 0x20, 0x00, 0x00, 0x00, 0x00, 0x00, 0x00],
    [0x08, 0x82, 0x00, 0x00, 0x00, 0x00, 0x00, 0x00],
    [0x20, 0x08, 0x02, 0x00, 0x00, 0x00, 0x00, 0x00],
    [0x00, 0x00, 0x00, 0x2A, 0x00, 0x00, 0x00, 0x00],
    [0x00, 0x00, 0x00, 0x00, 0x08, 0x82, 0x00, 0x00],
    [0x00, 0x00, 0x00, 0x00, 0x82, 0x20, 0x00, 0x00],
    [0x00, 0x00, 0x00, 0x80, 0x20, 0x08, 0x00, 0x00],
    [0x00, 0x00, 0xA8, 0x00, 0x00, 0x00, 0x00, 0x00]
  ]

def mill_from_pos : List Nat :=
  [
     0,  3, 12,
     0, 13, 13,
     0,  1, 14,
     4,  7, 12,
     4, 13, 13,
     4,  5, 14,
     8, 11, 12,
     8, 13, 13,
     8,  9, 14,
     3, 19, 19,
     7, 19, 19,
    11, 19, 19,
     9, 15, 15,
     5, 15, 15,
     1, 15, 15,
    10, 11, 18,
    10, 17, 17,
     9, 10, 16,
     6,  7, 18,
     6, 17, 17,
     5,  6, 16,
     2,  3, 18,
     2, 17, 17,
     1,  2, 16
  ]
/-- The choice arrays of `tables.h`; slot 0 is `NULL`. -/
def plyr_mill_choices : List (Option (List Board)) :=
  [none, some p1_mill_masks, some p2_mill_masks]

def plyr_mask_choices : List (Option Board) :=
  [none, some p1_mask, some p2_mask]

def opp_plyr_mill_choices : List (Option (List Board)) :=
  [none, some p2_mill_masks, some p1_mill_masks]

def opp_plyr_mask_choices : List (Option Board) :=
  [none, some p2_mask, some p1_mask]

/-! ## `morris.c`: SIMD wrappers (`USE_PACKED`) -/

/-- Byte-wise `board1 & board2` on the 8-byte vectors. -/
def simd_and (board1 board2 : Board) : Board :=
  List.zipWith (fun x y => x &&& y) board1 board2

/-- Byte-wise `board1 | board2`. -/
def simd_or (board1 board2 : Board) : Board :=
  List.zipWith (fun x y => x ||| y) board1 board2

/-- Byte-wise `~board`, each byte complemented within 8 bits. -/
def simd_not (board : Board) : Board :=
  board.map (fun x => (x ^^^ 0xFF) % 256)

/-! ## `morris.c`: board referencing and setting (`USE_PACKED`) -/

/-- Get the contents of a game board position. -/
def board_ref (board : Board) (index : Nat) : Option Nat := do
  let quad_ref ← board[index / 4]?
  let bitpos := (index % 4) * 2
  let mask := (0x03 <<< bitpos) % 256
  let quantum := quad_ref &&& mask
  pure (quantum >>> bitpos)

/-- The x86 instruction `rolb`: rotate an 8-bit value left. -/
def rolb (count value : Nat) : Nat :=
  ((value <<< (count % 8)) ||| (value >>> (8 - count % 8))) % 256

/-- The clear mask of `set_board_pos`: `0xfc` rotated left by `bitpos` with
`HAVE_X86_ASM`, and otherwise the `switch (bitpos)` of the source, which
leaves `0xfc` when no case matches. -/
def clear_mask (have_x86_asm : Bool) (bitpos : Nat) : Nat :=
  if have_x86_asm then rolb bitpos 0xFC
  else match bitpos with
    | 0 => 0b11111100
    | 1 => 0b11110011
    | 2 => 0b11001111
    | 3 => 0b00111111
    | _ => 0xFC

/-- Set the contents of a game board position. -/
def set_board_pos (have_x86_asm : Bool) (board : Board) (index value : Nat) :
    Option Board := do
  let bitpos := (index % 4) * 2
  let pack_value := (value <<< bitpos) % 256
  let mask := clear_mask have_x86_asm bitpos
  let quad ← board[index / 4]?
  pure (board.set (index / 4) ((quad &&& mask) ||| pack_value))

/-! ## `morris.c`: the rules -/

/-- Gets the opponent of the current player. -/
def get_opponent (state : GameState) : Nat :=
  if state.cur_player = PLAYER1 then PLAYER2 else PLAYER1

/-- The `for` loop of `are_adjacent`; `i` is a `guchar`, so `i++` wraps at
256.  The first argument bounds the number of iterations. -/
def are_adjacent_loop (pos1 pos2 : Nat) : Nat → Nat → Option Bool
  | 0, _ => none
  | fuel + 1, i =>
    if i < pos1 * 4 + 4 then
      match adjacent_places[i]? with
      | none => none
      | some a =>
        if pos2 = a then some true
        else are_adjacent_loop pos1 pos2 fuel ((i + 1) % 256)
    else some false

/-- Tests whether two positions are adjacent to each other.  The table has 96
entries, so the loop has returned or left the table after 97 reads. -/
def are_adjacent (pos1 pos2 : Nat) : Option Bool :=
  are_adjacent_loop pos1 pos2 (BOARD_SIZE * 4 + 1) ((pos1 * 4) % 256)

/-- Tests whether placing a piece at a certain position is valid. -/
def is_valid_place (state : GameState) (pos : Nat) : Option Bool := do
  let c ← board_ref state.board pos
  if c = EMPTY then pure true else pure false

/-- Tests whether moving a piece from one position to another is valid.  The
three tests are evaluated left to right, as `&&` does. -/
def is_valid_move (state : GameState) (src dest : Nat) : Option Bool := do
  let adj ← are_adjacent src dest
  if adj then
    let s ← board_ref state.board src
    if s = state.cur_player then
      let d ← board_ref state.board dest
      if d = EMPTY then pure true else pure false
    else pure false
  else pure false

/-- One iteration of the mill loops: accumulate `mask` when the board has
the current mill. -/
def tag_mill (board cur_mills_mask mask : Board) : Board :=
  let test_board := simd_and board mask
  if test_board = mask then simd_or cur_mills_mask mask else cur_mills_mask

/-- Checks if a piece can be removed by testing it against mill masks. -/
def is_valid_remove (state : GameState) (pos : Nat) : Option Bool := do
  let player ← board_ref state.board pos
  if player = EMPTY ∨ player = state.cur_player then pure false
  else
    let plyr_mill_masks ← (opp_plyr_mill_choices[state.cur_player]?).join
    let plyr_mask ← (opp_plyr_mask_choices[state.cur_player]?).join
    let cur_mills_mask ← (List.range TOTAL_MILLS).foldlM
      (fun cur i => do
        let mask ← plyr_mill_masks[i]?
        pure (tag_mill state.board cur mask))
      (List.replicate MASK_SIZE 0)
    let test_board := simd_and (simd_not cur_mills_mask) state.board
    let test_board := simd_and test_board plyr_mask
    if test_board = null_mask then pure true
    else
      let c ← board_ref cur_mills_mask pos
      if c ≠ 0 then pure false else pure true

/-- Determines if a piece just placed or moved formed a mill. -/
def is_mill_formed (state : GameState) (pos : Nat) : Option Bool := do
  let c ← board_ref state.board pos
  if c ≠ state.cur_player then pure false
  else
    let plyr_mill_masks ← (plyr_mill_choices[state.cur_player]?).join
    let _plyr_mask ← (plyr_mask_choices[state.cur_player]?).join
    let cur_mills_mask ← (List.range 3).foldlM
      (fun cur i => do
        let m ← mill_from_pos[pos * 3 + i]?
        let plyr_mill_mask ← plyr_mill_masks[m]?
        pure (tag_mill state.board cur plyr_mill_mask))
      (List.replicate MASK_SIZE 0)
    let r ← board_ref cur_mills_mask pos
    if r ≠ 0 then pure true else pure false

/-- Change the current player to the next player. -/
def next_player (state : GameState) : GameState :=
  let cur := (state.cur_player + 1) % 256
  { state with cur_player := if cur > NUM_PLAYERS then 1 else cur }

/-- The statement `state->player_pieces[player-1] += delta` on 8-bit
counters; `player - 1` is an `int`, so player 0 indexes slot -1. -/
def bump_pieces (state : GameState) (player delta : Nat) : Option GameState :=
  if player = 0 then none
  else do
    let n ← state.player_pieces[player - 1]?
    pure { state with
      player_pieces := state.player_pieces.set (player - 1) ((n + delta) % 256) }

/-- Either `state->remove_state = true` or `next_player (state)`. -/
def finish_turn (state : GameState) (mill : Bool) : GameState :=
  if mill then { state with remove_state := true } else next_player state

/-- Places a new piece during gameplay. -/
def place_piece (have_x86_asm : Bool) (state : GameState) (pos : Nat) :
    Option (Bool × GameState) := do
  let ok ← is_valid_place state pos
  if !ok then pure (false, state)
  else
    let board ← set_board_pos have_x86_asm state.board pos state.cur_player
    let state := { state with board := board }
    let state ← bump_pieces state state.cur_player 1
    let mill ← is_mill_formed state pos
    pure (true, finish_turn state mill)

/-- Moves a piece during gameplay. -/
def move_piece (have_x86_asm : Bool) (state : GameState) (src dest : Nat) :
    Option (Bool × GameState) := do
  let ok ← is_valid_move state src dest
  if !ok then pure (false, state)
  else
    let board ← set_board_pos have_x86_asm state.board src EMPTY
    let board ← set_board_pos have_x86_asm board dest state.cur_player
    let state := { state with board := board }
    let mill ← is_mill_formed state dest
    pure (true, finish_turn state mill)

/-- Removes a piece during gameplay. -/
def remove_piece (have_x86_asm : Bool) (state : GameState) (pos : Nat) :
    Option (Bool × GameState) := do
  let ok ← is_valid_remove state pos
  if !ok then pure (false, state)
  else
    let player ← board_ref state.board pos
    let board ← set_board_pos have_x86_asm state.board pos EMPTY
    let state := { state with board := board }
    let state ← bump_pieces state player 255
    let state := { state with remove_state := false }
    pure (true, next_player state)

/-- Get the winner of the game. -/
def get_winner (state : GameState) : Option Nat := do
  let n0 ← state.player_pieces[0]?
  if n0 = 2 then pure PLAYER2
  else
    let n1 ← state.player_pieces[1]?
    if n1 = 2 then pure PLAYER1 else pure EMPTY

/-- Initialize a new game: the two `memset` calls zero `NUM_PLAYERS` counters
and `MASK_SIZE` board bytes. -/
def init_game_state (state : GameState) : GameState :=
  { state with
    cur_player := PLAYER1
    setup_rounds_left := 11
    remove_state := false
    player_pieces := List.replicate NUM_PLAYERS 0 ++ state.player_pieces.drop NUM_PLAYERS
    board := List.replicate MASK_SIZE 0 ++ state.board.drop MASK_SIZE }

/-! ## Vocabulary of the statements -/

/-- Cell `k` of a packed byte, the arithmetic of `board_ref` on one byte. -/
def quad_cell (quad k : Nat) : Nat :=
  (quad &&& ((0x03 <<< (k * 2)) % 256)) >>> (k * 2)

/-- The content of cell `i`, with 0 where `board_ref` has no result. -/
def cell (b : Board) (i : Nat) : Nat :=
  quad_cell (b.getD (i / 4) 0) (i % 4)

/-- A board as C types it: `MASK_SIZE` bytes. -/
def Board.typed (b : Board) : Prop :=
  b.length = MASK_SIZE ∧ ∀ x ∈ b, x < 256

instance (b : Board) : Decidable b.typed := by
  unfold Board.typed; infer_instance

/-- A game state as C types it: `guchar` fields, two piece counters and an
8-byte board. -/
def GameState.typed (s : GameState) : Prop :=
  s.cur_player < 256 ∧ s.setup_rounds_left < 256 ∧
  s.player_pieces.length = NUM_PLAYERS ∧ (∀ x ∈ s.player_pieces, x < 256) ∧
  s.board.typed

instance (s : GameState) : Decidable s.typed := by
  unfold GameState.typed; infer_instance

/-- A well-formed state: the current player is `PLAYER1` or `PLAYER2` and
each of the cells 0..23 holds `EMPTY`, `PLAYER1` or `PLAYER2`. -/
def GameState.well_formed (s : GameState) : Prop :=
  s.typed ∧ (s.cur_player = PLAYER1 ∨ s.cur_player = PLAYER2) ∧
  ∀ i, i < BOARD_SIZE →
    board_ref s.board i = some EMPTY ∨ board_ref s.board i = some PLAYER1 ∨
    board_ref s.board i = some PLAYER2

instance (s : GameState) : Decidable s.well_formed := by
  unfold GameState.well_formed; infer_instance

/-- The player who is not `p`, for `p` one of the two players. -/
def other_player (p : Nat) : Nat :=
  if p = PLAYER1 then PLAYER2 else PLAYER1

/-- Mill number `m` of the table `mill_masks` covers position `pos`. -/
def mill_contains (m pos : Nat) : Bool :=
  match mill_masks[m]? with
  | none => false
  | some mask =>
    match board_ref mask pos with
    | none => false
    | some c => c != 0

/-- All cells of mill `m` on board `b` hold player `p`: the mill is formed. -/
def mill_formed_by (b : Board) (p m : Nat) : Prop :=
  ∀ j, j < BOARD_SIZE → mill_contains m j = true → board_ref b j = some p

instance (b : Board) (p m : Nat) : Decidable (mill_formed_by b p m) := by
  unfold mill_formed_by; infer_instance

/-- Position `pos` lies in a formed mill of player `p`. -/
def in_formed_mill (b : Board) (p pos : Nat) : Prop :=
  ∃ m, m < TOTAL_MILLS ∧ mill_contains m pos = true ∧ mill_formed_by b p m

instance (b : Board) (p pos : Nat) : Decidable (in_formed_mill b p pos) := by
  unfold in_formed_mill; infer_instance

/-- The mill masks of player `p`, as the choice arrays select them. -/
def mill_table (p : Nat) : List Board :=
  if p = PLAYER1 then p1_mill_masks else p2_mill_masks

/-! ## States used as concrete inputs -/

/-- The state of a new game, as `init_game_state` leaves it. -/
def opening_state : GameState :=
  { cur_player := 1, setup_rounds_left := 11, remove_state := false,
    player_pieces := [0, 0], board := [0, 0, 0, 0, 0, 0, 0, 0] }

/-- An empty board with player 1 to move and the counter of player 1 at 255. -/
def full_counter_state : GameState :=
  { cur_player := 1, setup_rounds_left := 11, remove_state := false,
    player_pieces := [255, 0], board := [0, 0, 0, 0, 0, 0, 0, 0] }

/-- Player 1 has placed at cell 0; player 2 is to move. -/
def after_first_place : GameState :=
  { cur_player := 2, setup_rounds_left := 11, remove_state := false,
    player_pieces := [1, 0], board := [0x01, 0, 0, 0, 0, 0, 0, 0] }

/-- Player 1 on cells 0 and 1, player 2 on cells 3 and 4; player 1 to move. -/
def two_in_a_row : GameState :=
  { cur_player := 1, setup_rounds_left := 11, remove_state := false,
    player_pieces := [2, 2], board := [0x85, 0x02, 0, 0, 0, 0, 0, 0] }

/-- Player 1 on cells 0, 1 and 5, player 2 on cells 3, 4 and 9; player 1 to
move. -/
def closing_move_state : GameState :=
  { cur_player := 1, setup_rounds_left := 0, remove_state := false,
    player_pieces := [3, 3], board := [0x85, 0x06, 0x08, 0, 0, 0, 0, 0] }

/-- The state `closing_move_state` after player 1 has moved from 5 to 2. -/
def after_closing_move : GameState :=
  { cur_player := 1, setup_rounds_left := 0, remove_state := true,
    player_pieces := [3, 3], board := [0x95, 0x02, 0x08, 0, 0, 0, 0, 0] }

/-- The state `after_closing_move` after player 1 has removed the piece of
player 2 on cell 3. -/
def after_removal : GameState :=
  { cur_player := 2, setup_rounds_left := 0, remove_state := false,
    player_pieces := [3, 2], board := [0x15, 0x02, 0x08, 0, 0, 0, 0, 0] }

/-- Player 2 has a piece on cell 0 while its counter is 0; player 1 is to
move. -/
def empty_counter_state : GameState :=
  { cur_player := 1, setup_rounds_left := 11, remove_state := false,
    player_pieces := [0, 0], board := [0x02, 0, 0, 0, 0, 0, 0, 0] }

/-- Player 1 on cells 0, 1 and 2 (a mill), player 2 on cells 3, 4 and 5 (a
mill) and on cell 9; player 1 owes a removal. -/
def milled_and_free : GameState :=
  { cur_player := 1, setup_rounds_left := 7, remove_state := true,
    player_pieces := [3, 4], board := [0x95, 0x0A, 0x08, 0, 0, 0, 0, 0] }

/-! ## Sequences of calls -/

/-- A call of one of the three mutators, with its arguments. -/
inductive Call where
  | place (pos : Nat)
  | move (src dest : Nat)
  | remove (pos : Nat)
deriving DecidableEq, Repr

/-- The result of one call: the returned flag and the state it leaves. -/
def apply_call (have_x86_asm : Bool) (s : GameState) : Call → Option (Bool × GameState)
  | .place pos => place_piece have_x86_asm s pos
  | .move src dest => move_piece have_x86_asm s src dest
  | .remove pos => remove_piece have_x86_asm s pos

/-- The state after a sequence of calls, successful or failed, each applied to
the state the previous one has left. -/
def run_calls (have_x86_asm : Bool) (s : GameState) : List Call → Option GameState
  | [] => some s
  | c :: cs =>
    match apply_call have_x86_asm s c with
    | none => none
    | some r => run_calls have_x86_asm r.2 cs

/-- All positions of the call are board positions. -/
def Call.in_range : Call → Prop
  | .place pos => pos < BOARD_SIZE
  | .move src dest => src < BOARD_SIZE ∧ dest < BOARD_SIZE
  | .remove pos => pos < BOARD_SIZE

instance (c : Call) : Decidable c.in_range := by
  cases c <;> unfold Call.in_range <;> infer_instance

/-- The cell a placement or a move writes the piece of the mover to. -/
def Call.target : Call → Option Nat
  | .place pos => some pos
  | .move _ dest => some dest
  | .remove _ => none

/-- The number of positions 0..23 whose cell holds `p`. -/
def count_cells (b : Board) (p : Nat) : Nat :=
  (List.range BOARD_SIZE).countP (fun i => decide (board_ref b i = some p))

/-- The call returned true and the state it left satisfies `P`. -/
def succeeds (r : Option (Bool × GameState)) (P : GameState → Prop) : Prop :=
  ∃ s, r = some (true, s) ∧ P s

instance (r : Option (Bool × GameState)) (P : GameState → Prop) [∀ s, Decidable (P s)] :
    Decidable (succeeds r P) :=
  match r with
  | none => isFalse (by rintro ⟨s, h, _⟩; cases h)
  | some (false, _) => isFalse (by rintro ⟨s, h, _⟩; cases h)
  | some (true, s) =>
    if h : P s then isTrue ⟨s, rfl, h⟩
    else isFalse (by rintro ⟨s2, h2, h3⟩; cases h2; exact h h3)

/-- The invariant of play: the state is well-formed, the eight padding cells
24..31 of the packed board are zero, and each counter is the number of cells
of its player. -/
def GameState.consistent (s : GameState) : Prop :=
  s.well_formed ∧ (∀ j, 24 ≤ j → j < 32 → cell s.board j = 0) ∧
  s.player_pieces = [count_cells s.board PLAYER1, count_cells s.board PLAYER2]

instance (s : GameState) : Decidable s.consistent := by
  unfold GameState.consistent; infer_instance

/-- Whether a removal is owed after call `c` has taken state `s` to `s2` with
result `ok`, when `owed` tells whether one was owed before the call: a
successful placement or move that formed a mill makes a removal owed, a
successful removal settles it, and any other call changes nothing. -/
def owed_after (owed : Bool) (s : GameState) (c : Call) (ok : Bool) (s2 : GameState) : Bool :=
  if ok then
    match c.target with
    | none => false
    | some pos => if in_formed_mill s2.board s.cur_player pos then true else owed
  else owed

/-- The run of `run_calls` that also tracks whether a removal is owed. -/
def run_owed (have_x86_asm : Bool) (s : GameState) (owed : Bool) :
    List Call → Option (GameState × Bool)
  | [] => some (s, owed)
  | c :: cs =>
    match apply_call have_x86_asm s c with
    | none => none
    | some r => run_owed have_x86_asm r.2 (owed_after owed s c r.1 r.2) cs

/-- The scenario of a quick mill, played from state `s`: player 1 places at
0, 1 and 2, player 2 in between at `y1` and `y2`; the fifth placement closes
the mill 0-1-2 and player 1 then removes the piece on `y1`. -/
def quick_mill_scenario (s : GameState) (y1 y2 : Nat) : Prop :=
  succeeds (place_piece true s 0) (fun s1 => s1.remove_state = false ∧
  succeeds (place_piece true s1 y1) (fun s2 => s2.remove_state = false ∧
  succeeds (place_piece true s2 1) (fun s3 => s3.remove_state = false ∧
  succeeds (place_piece true s3 y2) (fun s4 => s4.remove_state = false ∧
  succeeds (place_piece true s4 2) (fun s5 => s5.remove_state = true ∧
    s5.cur_player = PLAYER1 ∧
  succeeds (remove_piece true s5 y1) (fun s6 => board_ref s6.board y1 = some EMPTY ∧
    s6.remove_state = false ∧ s6.cur_player = PLAYER2 ∧ s6.player_pieces = [3, 1]))))))

/-- The state after the five placements at 0, 3, 1, 4 and 2: player 1 has
closed the mill 0-1-2 and owes a removal. -/
def after_quick_mill : GameState :=
  { cur_player := 1, setup_rounds_left := 11, remove_state := true,
    player_pieces := [3, 2], board := [0x95, 0x02, 0, 0, 0, 0, 0, 0] }

/-- The state `after_quick_mill` after player 1 has removed the piece on
cell 3. -/
def after_quick_removal : GameState :=
  { cur_player := 2, setup_rounds_left := 11, remove_state := false,
    player_pieces := [3, 1], board := [0x15, 0x02, 0, 0, 0, 0, 0, 0] }

/-- The state `after_quick_mill` after player 1 has placed at cell 9 instead
of removing a piece. -/
def after_second_place : GameState :=
  { cur_player := 2, setup_rounds_left := 11, remove_state := true,
    player_pieces := [4, 2], board := [0x95, 0x02, 0x04, 0, 0, 0, 0, 0] }

/-- The state after the placements at 0, 3 and 1: player 1 has two pieces. -/
def after_three_places : GameState :=
  { cur_player := 2, setup_rounds_left := 11, remove_state := false,
    player_pieces := [2, 1], board := [0x85, 0, 0, 0, 0, 0, 0, 0] }

/-- Player 1 on cells 0 and 2, player 2 on cells 3, 4 and 9; player 1 to
move. -/
def two_against_three : GameState :=
  { cur_player := 1, setup_rounds_left := 11, remove_state := false,
    player_pieces := [2, 3], board := [0x91, 0x02, 0x08, 0, 0, 0, 0, 0] }

/-- The state `two_against_three` after the piece on cell 9 has been
removed. -/
def two_against_two : GameState :=
  { cur_player := 2, setup_rounds_left := 11, remove_state := false,
    player_pieces := [2, 2], board := [0x91, 0x02, 0, 0, 0, 0, 0, 0] }

/-- A state whose fields hold arbitrary earlier contents. -/
def used_state : GameState :=
  { cur_player := 2, setup_rounds_left := 3, remove_state := true,
    player_pieces := [7, 200], board := [0x95, 0x0A, 0x08, 0xFF, 0x12, 0x34, 0x56, 0x78] }

/-- Late in a game: player 1 on cells 0, 1 and 2, player 2 on cells 3 and 4;
player 2 to move. -/
def two_against_two_late : GameState :=
  { cur_player := 2, setup_rounds_left := 0, remove_state := false,
    player_pieces := [3, 2], board := [0x95, 0x02, 0, 0, 0, 0, 0, 0] }


/-! ## The tables against the board diagram -/

/-- The 20 straight lines of three cells drawn in the board diagram at the
head of `tables.h`, listed in the order of the table `mill_masks`: the four
sides of the outer, middle and inner square, the three columns of the
crossings 0-3-6, 1-4-7 and 2-5-8, then 12-13-14, the crossings 17-20-23,
16-19-22 and 15-18-21, and 9-10-11. -/
def diagram_lines : List (List Nat) :=
  [[0, 1, 2], [2, 14, 23], [21, 22, 23], [0, 9, 21],
   [3, 4, 5], [5, 13, 20], [18, 19, 20], [3, 10, 18],
   [6, 7, 8], [8, 12, 17], [15, 16, 17], [6, 11, 15],
   [0, 3, 6], [1, 4, 7], [2, 5, 8], [12, 13, 14],
   [17, 20, 23], [16, 19, 22], [15, 18, 21], [9, 10, 11]]

/-- The four slots `adjacent_places[4 * pos .. 4 * pos + 3]` of a position. -/
def adjacent_row (pos : Nat) : List Nat :=
  (List.range 4).filterMap (fun i => adjacent_places[pos * 4 + i]?)

/-- Player 1 on cells 0 and 2, player 2 on cells 3 and 4, both counters at 2;
player 1 owes a removal. -/
def both_at_two : GameState :=
  { cur_player := 1, setup_rounds_left := 0, remove_state := true,
    player_pieces := [2, 2], board := [0x91, 0x02, 0, 0, 0, 0, 0, 0] }

/-- The state `both_at_two` after player 1 has removed the piece on cell 3. -/
def after_floor_removal : GameState :=
  { cur_player := 2, setup_rounds_left := 0, remove_state := false,
    player_pieces := [2, 1], board := [0x11, 0x02, 0, 0, 0, 0, 0, 0] }

/-- The state `s` with `n` in the field `setup_rounds_left`. -/
def GameState.with_setup (s : GameState) (n : Nat) : GameState :=
  { s with setup_rounds_left := n }

/-- The result `r` of a mutator with `n` in the field `setup_rounds_left` of
its state. -/
def result_with_setup (n : Nat) (r : Bool × GameState) : Bool × GameState :=
  (r.1, r.2.with_setup n)

/-- The call `c`, applied to `s`, is a successful removal that leaves the
counter of the player whose piece is removed at exactly 2. -/
def reduces_to_two (s : GameState) (c : Call) : Bool :=
  match c with
  | .remove pos =>
    match board_ref s.board pos, remove_piece true s pos with
    | some player, some (true, s2) => decide (s2.player_pieces[player - 1]? = some 2)
    | _, _ => false
  | _ => false

/-- No call of the sequence, run from `s`, is a successful removal that
leaves the counter of the player whose piece is removed at exactly 2. -/
def no_reduction_to_two (s : GameState) : List Call → Bool
  | [] => true
  | c :: cs =>
    !reduces_to_two s c &&
      match apply_call true s c with
      | none => true
      | some r => no_reduction_to_two r.2 cs

/-- Player 1 on cells 0, 1 and 9, player 2 on cells 3, 4 and 10; player 1 to
move. -/
def three_against_three : GameState :=
  { cur_player := 1, setup_rounds_left := 11, remove_state := false,
    player_pieces := [3, 3], board := [0x85, 0x02, 0x24, 0, 0, 0, 0, 0] }

/-- The state `three_against_three` after player 1 has placed at cell 2 and
closed the mill 0-1-2. -/
def four_against_three : GameState :=
  { cur_player := 1, setup_rounds_left := 11, remove_state := true,
    player_pieces := [4, 3], board := [0x95, 0x02, 0x24, 0, 0, 0, 0, 0] }

/-- Player 1 on cells 1 and 7, player 2 on cells 9 and 10; player 1 to
move. -/
def one_and_seven : GameState :=
  { cur_player := 1, setup_rounds_left := 0, remove_state := false,
    player_pieces := [2, 2], board := [0x04, 0x40, 0x28, 0, 0, 0, 0, 0] }

/-- What the body of `set_board_pos` without `HAVE_X86_ASM` leaves after the
placements at 0, 3 and 2 of a new game. -/
def portable_three_places : GameState :=
  { cur_player := 2, setup_rounds_left := 11, remove_state := false,
    player_pieces := [2, 1], board := [0x90, 0, 0, 0, 0, 0, 0, 0] }

/-- What the body of `set_board_pos` without `HAVE_X86_ASM` leaves after the
placements at 0, 3, 1, 4 and 2 of a new game. -/
def portable_five_places : GameState :=
  { cur_player := 2, setup_rounds_left := 11, remove_state := false,
    player_pieces := [3, 2], board := [0x94, 0x02, 0, 0, 0, 0, 0, 0] }
/-! ## Bytes and cells -/

theorem quad_cell_lt (x k : Nat) (hk : k < 4) : quad_cell x k < 4 := by
  have key : ∀ m s : Nat, m >>> s < 4 → (x &&& m) >>> s < 4 := by
    intro m s h
    have h1 : x &&& m ≤ m := Nat.and_le_right
    have h2 : (x &&& m) >>> s ≤ m >>> s := by
      rw [Nat.shiftRight_eq_div_pow, Nat.shiftRight_eq_div_pow]
      exact Nat.div_le_div_right h1
    omega
  unfold quad_cell
  interval_cases k <;> exact key _ _ (by decide)

set_option maxRecDepth 100000 in
theorem quad_cell_rebuild : ∀ x, x < 256 →
    x = quad_cell x 0 + 4 * quad_cell x 1 + 16 * quad_cell x 2 + 64 * quad_cell x 3 := by
  decide

theorem quad_cell_ext (x y : Nat) (hx : x < 256) (hy : y < 256)
    (h : ∀ k, k < 4 → quad_cell x k = quad_cell y k) : x = y := by
  rw [quad_cell_rebuild x hx, quad_cell_rebuild y hy,
    h 0 (by decide), h 1 (by decide), h 2 (by decide), h 3 (by decide)]

theorem quad_cell_and (x y k : Nat) (hk : k < 4) :
    quad_cell (x &&& y) k = quad_cell x k &&& quad_cell y k := by
  unfold quad_cell
  interval_cases k <;>
  · apply Nat.eq_of_testBit_eq
    intro i
    simp only [Nat.testBit_shiftRight, Nat.testBit_and]
    cases Nat.testBit x _ <;> cases Nat.testBit y _ <;> simp

theorem quad_cell_or (x y k : Nat) (hk : k < 4) :
    quad_cell (x ||| y) k = quad_cell x k ||| quad_cell y k := by
  unfold quad_cell
  interval_cases k <;>
  · apply Nat.eq_of_testBit_eq
    intro i
    simp only [Nat.testBit_shiftRight, Nat.testBit_and, Nat.testBit_or]
    cases Nat.testBit x _ <;> cases Nat.testBit y _ <;> simp

set_option maxRecDepth 100000 in
theorem quad_cell_not : ∀ x, x < 256 → ∀ k, k < 4 →
    quad_cell ((x ^^^ 0xFF) % 256) k = 3 - quad_cell x k := by
  decide

set_option maxRecDepth 100000 in
theorem quad_cell_set : ∀ q, q < 256 → ∀ k, k < 4 → ∀ v, v < 4 → ∀ j, j < 4 →
    quad_cell ((q &&& clear_mask true (k * 2)) ||| ((v <<< (k * 2)) % 256)) j
      = if j = k then v else quad_cell q j := by
  decide

set_option maxRecDepth 100000 in
theorem quad_set_lt : ∀ k, k < 4 → ∀ v, v < 4 →
    clear_mask true (k * 2) < 256 ∧ (v <<< (k * 2)) % 256 < 256 := by
  decide

/-! ## Boards as 32 cells -/

theorem typed_byte_lt {b : Board} (hb : b.typed) (j : Nat) : b.getD j 0 < 256 := by
  rw [List.getD_eq_getElem?_getD]
  cases h : b[j]? with
  | none => simp
  | some q =>
    obtain ⟨hj, rfl⟩ := List.getElem?_eq_some.mp h
    simpa using hb.2 _ (List.getElem_mem hj)

theorem board_ref_eq_cell {b : Board} (hl : b.length = MASK_SIZE) {i : Nat} (hi : i < 32) :
    board_ref b i = some (cell b i) := by
  have hj : i / 4 < b.length := by rw [hl]; unfold MASK_SIZE; omega
  unfold board_ref cell quad_cell
  simp [List.getElem?_eq_getElem hj]

theorem cell_lt (b : Board) (i : Nat) : cell b i < 4 :=
  quad_cell_lt _ _ (Nat.mod_lt _ (by decide))

theorem simd_and_length {a b : Board} (ha : a.length = MASK_SIZE) (hb : b.length = MASK_SIZE) :
    (simd_and a b).length = MASK_SIZE := by
  simp [simd_and, ha, hb]

theorem simd_or_length {a b : Board} (ha : a.length = MASK_SIZE) (hb : b.length = MASK_SIZE) :
    (simd_or a b).length = MASK_SIZE := by
  simp [simd_or, ha, hb]

theorem simd_not_length {a : Board} (ha : a.length = MASK_SIZE) :
    (simd_not a).length = MASK_SIZE := by
  simp [simd_not, ha]

theorem simd_and_getD {a b : Board} (ha : a.length = MASK_SIZE) (hb : b.length = MASK_SIZE)
    {j : Nat} (hj : j < MASK_SIZE) :
    (simd_and a b).getD j 0 = a.getD j 0 &&& b.getD j 0 := by
  have h1 : j < a.length := by omega
  have h2 : j < b.length := by omega
  simp [simd_and, List.getElem?_zipWith, List.getElem?_eq_getElem h1,
    List.getElem?_eq_getElem h2]

theorem simd_or_getD {a b : Board} (ha : a.length = MASK_SIZE) (hb : b.length = MASK_SIZE)
    {j : Nat} (hj : j < MASK_SIZE) :
    (simd_or a b).getD j 0 = a.getD j 0 ||| b.getD j 0 := by
  have h1 : j < a.length := by omega
  have h2 : j < b.length := by omega
  simp [simd_or, List.getElem?_zipWith, List.getElem?_eq_getElem h1,
    List.getElem?_eq_getElem h2]

theorem simd_not_getD {a : Board} (ha : a.length = MASK_SIZE) {j : Nat} (hj : j < MASK_SIZE) :
    (simd_not a).getD j 0 = (a.getD j 0 ^^^ 0xFF) % 256 := by
  have h1 : j < a.length := by omega
  simp [simd_not, List.getElem?_eq_getElem h1]

theorem simd_and_typed_right {a b : Board} (ha : a.length = MASK_SIZE) (hb : b.typed) :
    (simd_and a b).typed := by
  refine ⟨simd_and_length ha hb.1, ?_⟩
  intro x hx
  obtain ⟨j, hj, rfl⟩ := List.getElem_of_mem hx
  have hj8 : j < MASK_SIZE := by rw [← simd_and_length ha hb.1]; exact hj
  have h := simd_and_getD ha hb.1 hj8
  rw [List.getD_eq_getElem?_getD, List.getElem?_eq_getElem hj] at h
  simp only [Option.getD_some] at h
  rw [h]
  exact Nat.lt_of_le_of_lt Nat.and_le_right (typed_byte_lt hb j)

theorem simd_or_typed {a b : Board} (ha : a.typed) (hb : b.typed) : (simd_or a b).typed := by
  refine ⟨simd_or_length ha.1 hb.1, ?_⟩
  intro x hx
  obtain ⟨j, hj, rfl⟩ := List.getElem_of_mem hx
  have hj8 : j < MASK_SIZE := by rw [← simd_or_length ha.1 hb.1]; exact hj
  have h := simd_or_getD ha.1 hb.1 hj8
  rw [List.getD_eq_getElem?_getD, List.getElem?_eq_getElem hj] at h
  simp only [Option.getD_some] at h
  rw [h]
  exact Nat.or_lt_two_pow (n := 8) (typed_byte_lt ha j) (typed_byte_lt hb j)

theorem cell_and {a b : Board} (ha : a.length = MASK_SIZE) (hb : b.length = MASK_SIZE)
    {i : Nat} (hi : i < 32) : cell (simd_and a b) i = cell a i &&& cell b i := by
  have hj : i / 4 < MASK_SIZE := by unfold MASK_SIZE; omega
  unfold cell
  rw [simd_and_getD ha hb hj, quad_cell_and _ _ _ (Nat.mod_lt _ (by decide))]

theorem cell_or {a b : Board} (ha : a.length = MASK_SIZE) (hb : b.length = MASK_SIZE)
    {i : Nat} (hi : i < 32) : cell (simd_or a b) i = cell a i ||| cell b i := by
  have hj : i / 4 < MASK_SIZE := by unfold MASK_SIZE; omega
  unfold cell
  rw [simd_or_getD ha hb hj, quad_cell_or _ _ _ (Nat.mod_lt _ (by decide))]

theorem cell_not {a : Board} (ha : a.typed) {i : Nat} (hi : i < 32) :
    cell (simd_not a) i = 3 - cell a i := by
  have hj : i / 4 < MASK_SIZE := by unfold MASK_SIZE; omega
  unfold cell
  rw [simd_not_getD ha.1 hj,
    quad_cell_not _ (typed_byte_lt ha _) _ (Nat.mod_lt _ (by decide))]

theorem board_ext {a b : Board} (ha : a.typed) (hb : b.typed)
    (h : ∀ i, i < 32 → cell a i = cell b i) : a = b := by
  apply List.ext_getElem (by rw [ha.1, hb.1])
  intro j h1 h2
  have hj : j < 8 := by have := ha.1; unfold MASK_SIZE at this; omega
  have e1 : a.getD j 0 = a[j] := by simp [List.getElem?_eq_getElem h1]
  have e2 : b.getD j 0 = b[j] := by simp [List.getElem?_eq_getElem h2]
  rw [← e1, ← e2]
  apply quad_cell_ext _ _ (typed_byte_lt ha j) (typed_byte_lt hb j)
  intro k hk
  have := h (4 * j + k) (by omega)
  unfold cell at this
  have d : (4 * j + k) / 4 = j := by omega
  have m : (4 * j + k) % 4 = k := by omega
  rwa [d, m] at this

theorem board_eq_iff {a b : Board} (ha : a.typed) (hb : b.typed) :
    a = b ↔ ∀ i, i < 32 → cell a i = cell b i :=
  ⟨fun h _ _ => by rw [h], board_ext ha hb⟩

/-! ## `set_board_pos` with `HAVE_X86_ASM` -/

theorem set_board_pos_cells {b : Board} (hb : b.typed) {i v : Nat} (hi : i < 32) (hv : v < 4) :
    ∃ b2, set_board_pos true b i v = some b2 ∧ b2.typed ∧
      ∀ j, j < 32 → cell b2 j = if j = i then v else cell b j := by
  have hlen : i / 4 < b.length := by rw [hb.1]; unfold MASK_SIZE; omega
  have hk : i % 4 < 4 := Nat.mod_lt _ (by decide)
  have hq : b[i / 4] < 256 := hb.2 _ (List.getElem_mem hlen)
  have hnew : (b[i / 4] &&& clear_mask true (i % 4 * 2)) ||| ((v <<< (i % 4 * 2)) % 256) < 256 := by
    have h := quad_set_lt _ hk _ hv
    exact Nat.or_lt_two_pow (n := 8)
      (Nat.lt_of_le_of_lt Nat.and_le_right h.1) h.2
  refine ⟨_, by simp [set_board_pos, List.getElem?_eq_getElem hlen]; rfl, ⟨?_, ?_⟩, ?_⟩
  · simp [hb.1]
  · intro x hx
    rcases List.mem_or_eq_of_mem_set hx with h | h
    · exact hb.2 _ h
    · rw [h]; exact hnew
  · intro j hj
    unfold cell
    by_cases hji : j / 4 = i / 4
    · have e : (b.set (i / 4) ((b[i / 4] &&& clear_mask true (i % 4 * 2)) |||
          ((v <<< (i % 4 * 2)) % 256))).getD (j / 4) 0
          = (b[i / 4] &&& clear_mask true (i % 4 * 2)) ||| ((v <<< (i % 4 * 2)) % 256) := by
        rw [hji]; simp [List.getElem?_set_self hlen]
      have e2 : b.getD (j / 4) 0 = b[i / 4] := by
        rw [hji]; simp [List.getElem?_eq_getElem hlen]
      rw [e, e2, quad_cell_set _ hq _ hk _ hv _ (Nat.mod_lt _ (by decide))]
      by_cases hm : j % 4 = i % 4
      · have : j = i := by omega
        simp [hm, this]
      · have : j ≠ i := fun h => hm (by rw [h])
        simp [hm, this]
    · have hne : j ≠ i := fun h => hji (by rw [h])
      have e : (b.set (i / 4) ((b[i / 4] &&& clear_mask true (i % 4 * 2)) |||
          ((v <<< (i % 4 * 2)) % 256))).getD (j / 4) 0 = b.getD (j / 4) 0 := by
        simp [List.getElem?_set_ne (Ne.symm hji)]
      rw [e]; simp [hne]

/-! ## The tables -/

theorem mill_contains_lt : ∀ m, m < 20 → ∀ i, i < 32 → mill_contains m i = true → i < 24 := by
  decide

theorem p1_mill_masks_cells : ∀ m, m < 20 → ∀ i, i < 32 →
    cell (p1_mill_masks.getD m []) i = if mill_contains m i then 1 else 0 := by
  decide

theorem p2_mill_masks_cells : ∀ m, m < 20 → ∀ i, i < 32 →
    cell (p2_mill_masks.getD m []) i = if mill_contains m i then 2 else 0 := by
  decide

theorem p1_mill_masks_typed : ∀ m, m < 20 → (p1_mill_masks.getD m []).typed := by
  decide

theorem p2_mill_masks_typed : ∀ m, m < 20 → (p2_mill_masks.getD m []).typed := by
  decide

theorem p1_mask_cells : ∀ i, i < 32 → cell p1_mask i = if i < 24 then 1 else 0 := by
  decide

theorem p2_mask_cells : ∀ i, i < 32 → cell p2_mask i = if i < 24 then 2 else 0 := by
  decide

theorem mill_from_pos_lookup : ∀ pos, pos < 24 → ∀ i, i < 3 →
    mill_from_pos[pos * 3 + i]? = some (mill_from_pos.getD (pos * 3 + i) 0) ∧
    mill_from_pos.getD (pos * 3 + i) 0 < 20 := by
  decide

theorem mill_from_pos_complete : ∀ pos, pos < 24 → ∀ m, m < 20 →
    mill_contains m pos =
      (decide (m = mill_from_pos.getD (pos * 3 + 0) 0) ||
       decide (m = mill_from_pos.getD (pos * 3 + 1) 0) ||
       decide (m = mill_from_pos.getD (pos * 3 + 2) 0)) := by
  decide

theorem mill_table_spec {p : Nat} (hp : p = 1 ∨ p = 2) {m : Nat} (hm : m < 20) :
    (mill_table p)[m]? = some ((mill_table p).getD m []) ∧
    ((mill_table p).getD m []).typed ∧
    ∀ i, i < 32 → cell ((mill_table p).getD m []) i = if mill_contains m i then p else 0 := by
  have hl : (mill_table p).length = 20 := by
    rcases hp with rfl | rfl <;> rfl
  refine ⟨by simp [List.getElem?_eq_getElem (hl ▸ hm)], ?_, ?_⟩
  · rcases hp with rfl | rfl
    · exact p1_mill_masks_typed m hm
    · exact p2_mill_masks_typed m hm
  · rcases hp with rfl | rfl
    · exact p1_mill_masks_cells m hm
    · exact p2_mill_masks_cells m hm

theorem cell_and_player : ∀ c, c < 3 → ∀ p, p = 1 ∨ p = 2 → (c &&& p = p ↔ c = p) := by
  intro c hc p hp
  rcases hp with rfl | rfl <;> interval_cases c <;> decide

/-- The byte-wise mill test of the two loops is the test on the three cells. -/
theorem mill_test_iff {b : Board} (hb : b.typed) (hc : ∀ i, i < 24 → cell b i < 3)
    {p : Nat} (hp : p = 1 ∨ p = 2) {m : Nat} (hm : m < 20) :
    simd_and b ((mill_table p).getD m []) = (mill_table p).getD m [] ↔ mill_formed_by b p m := by
  obtain ⟨_, ht, hcells⟩ := mill_table_spec hp hm
  rw [board_eq_iff (simd_and_typed_right hb.1 ht) ht]
  unfold mill_formed_by BOARD_SIZE
  constructor
  · intro h j hj hcon
    have := h j (by omega)
    rw [cell_and hb.1 ht.1 (by omega), hcells j (by omega), if_pos hcon] at this
    rw [board_ref_eq_cell hb.1 (by omega), (cell_and_player _ (hc j hj) p hp).mp this]
  · intro h i hi
    rw [cell_and hb.1 ht.1 hi, hcells i hi]
    by_cases hcon : mill_contains m i = true
    · have hi24 := mill_contains_lt m hm i hi hcon
      have := h i hi24 hcon
      rw [board_ref_eq_cell hb.1 hi] at this
      rw [if_pos hcon, Option.some.inj this, Nat.and_self]
    · rw [if_neg hcon, Nat.and_zero]

theorem or_player (a c : Bool) (p : Nat) :
    ((if a then p else 0) ||| (if c then p else 0)) = if (a || c) then p else 0 := by
  cases a <;> cases c <;> simp

/-- The cells of the accumulated mill mask after the loop has visited the
mills `ms`. -/
theorem tag_fold_cells {b : Board} (hb : b.typed) (hc : ∀ i, i < 24 → cell b i < 3)
    {p : Nat} (hp : p = 1 ∨ p = 2) :
    ∀ (ms : List Nat), (∀ m ∈ ms, m < 20) → ∀ (cur : Board) (f : Nat → Bool), cur.typed →
      (∀ j, j < 32 → cell cur j = if f j then p else 0) →
      (ms.foldl (fun cur m => tag_mill b cur ((mill_table p).getD m [])) cur).typed ∧
      ∀ j, j < 32 →
        cell (ms.foldl (fun cur m => tag_mill b cur ((mill_table p).getD m [])) cur) j
          = if (f j || ms.any (fun m => decide (mill_formed_by b p m) && mill_contains m j))
            then p else 0 := by
  intro ms
  induction ms with
  | nil => intro _ cur f hcur hf; simpa using ⟨hcur, hf⟩
  | cons m ms ih =>
    intro hms cur f hcur hf
    have hm : m < 20 := hms m (List.mem_cons_self _ _)
    obtain ⟨_, ht, hcells⟩ := mill_table_spec hp hm
    rw [List.foldl_cons]
    have step : (tag_mill b cur ((mill_table p).getD m [])).typed ∧ ∀ j, j < 32 →
        cell (tag_mill b cur ((mill_table p).getD m [])) j
          = if (f j || (decide (mill_formed_by b p m) && mill_contains m j)) then p else 0 := by
      unfold tag_mill
      simp only [mill_test_iff hb hc hp hm]
      by_cases hf2 : mill_formed_by b p m
      · rw [if_pos hf2]
        refine ⟨simd_or_typed hcur ht, fun j hj => ?_⟩
        rw [cell_or hcur.1 ht.1 hj, hf j hj, hcells j hj, or_player]
        simp [hf2]
      · rw [if_neg hf2]
        refine ⟨hcur, fun j hj => ?_⟩
        rw [hf j hj]; simp [hf2]
    obtain ⟨h1, h2⟩ := ih (fun x hx => hms x (List.mem_cons_of_mem _ hx)) _ _ step.1 step.2
    refine ⟨h1, fun j hj => ?_⟩
    rw [h2 j hj]
    simp [Bool.or_assoc]

theorem zero_board_cells : Board.typed (List.replicate MASK_SIZE 0) ∧
    ∀ j, j < 32 → cell (List.replicate MASK_SIZE 0) j = 0 := by
  decide

/-! ## The two mill loops -/

theorem foldlM_eq_foldl {α β : Type} (step : β → α → Option β) (f : β → α → β) :
    ∀ (l : List α) (init : β), (∀ cur a, a ∈ l → step cur a = some (f cur a)) →
      l.foldlM step init = some (l.foldl f init) := by
  intro l
  induction l with
  | nil => intro init _; rfl
  | cons a l ih =>
    intro init h
    rw [List.foldlM_cons, h init a (List.mem_cons_self _ _)]
    exact ih _ (fun cur x hx => h cur x (List.mem_cons_of_mem _ hx))

theorem well_formed_cells {s : GameState} (hs : s.well_formed) :
    ∀ i, i < 24 → cell s.board i < 3 := by
  intro i hi
  have h := hs.2.2 i hi
  rw [board_ref_eq_cell hs.1.2.2.2.2.1 (by omega)] at h
  unfold EMPTY PLAYER1 PLAYER2 at h
  rcases h with h | h | h <;> · have := Option.some.inj h; omega

theorem choices_spec {p : Nat} (hp : p = 1 ∨ p = 2) :
    (plyr_mill_choices[p]?).join = some (mill_table p) ∧
    (opp_plyr_mill_choices[p]?).join = some (mill_table (other_player p)) ∧
    (∃ m, (plyr_mask_choices[p]?).join = some m) ∧
    (∃ m, (opp_plyr_mask_choices[p]?).join = some m ∧ m.typed ∧
      ∀ i, i < 32 → cell m i = if i < 24 then other_player p else 0) := by
  rcases hp with rfl | rfl
  · exact ⟨rfl, rfl, ⟨_, rfl⟩, ⟨_, rfl, by decide, p2_mask_cells⟩⟩
  · exact ⟨rfl, rfl, ⟨_, rfl⟩, ⟨_, rfl, by decide, p1_mask_cells⟩⟩

/-- What `is_mill_formed` computes. -/
theorem is_mill_formed_eq {s : GameState} (hb : s.board.typed)
    (hc : ∀ i, i < 24 → cell s.board i < 3) (hp : s.cur_player = 1 ∨ s.cur_player = 2)
    {pos : Nat} (hpos : pos < 24) :
    is_mill_formed s pos = some (decide (board_ref s.board pos = some s.cur_player ∧
      in_formed_mill s.board s.cur_player pos)) := by
  have hpos32 : pos < 32 := by omega
  obtain ⟨hch, -, ⟨pm, hpm⟩, -⟩ := choices_spec hp
  unfold is_mill_formed
  rw [board_ref_eq_cell hb.1 hpos32]
  by_cases hown : cell s.board pos = s.cur_player
  swap
  · have : ¬ (some (cell s.board pos) = some s.cur_player) := fun h => hown (Option.some.inj h)
    simp [hown, this]
  have hfold := foldlM_eq_foldl
    (fun cur i => do
        let m ← mill_from_pos[pos * 3 + i]?
        let plyr_mill_mask ← (mill_table s.cur_player)[m]?
        pure (tag_mill s.board cur plyr_mill_mask))
    (fun cur i => tag_mill s.board cur
      ((mill_table s.cur_player).getD (mill_from_pos.getD (pos * 3 + i) 0) []))
    (List.range 3) (List.replicate MASK_SIZE 0) (by
      intro cur i hi
      have hi3 : i < 3 := List.mem_range.mp hi
      obtain ⟨e1, e2⟩ := mill_from_pos_lookup pos hpos i hi3
      obtain ⟨e3, -, -⟩ := mill_table_spec hp e2
      simp only [e1, e3, Option.bind_eq_bind, Option.some_bind, Option.pure_def])
  have hms : ∀ m ∈ (List.range 3).map (fun i => mill_from_pos.getD (pos * 3 + i) 0), m < 20 := by
    intro m hm
    obtain ⟨i, hi, rfl⟩ := List.mem_map.mp hm
    exact (mill_from_pos_lookup pos hpos i (List.mem_range.mp hi)).2
  obtain ⟨ht, hcells⟩ := tag_fold_cells hb hc hp _ hms _ (fun _ => false)
    zero_board_cells.1 (by intro j hj; simpa using zero_board_cells.2 j hj)
  rw [List.foldl_map] at ht hcells
  simp only [Option.bind_eq_bind, Option.pure_def] at hfold
  simp only [hch, hpm, hfold, hown, Option.bind_eq_bind, Option.some_bind, Option.pure_def,
    ne_eq, not_true_eq_false, if_false]
  rw [board_ref_eq_cell ht.1 hpos32, hcells pos hpos32]
  simp only [Option.some_bind, Bool.false_or]
  have hiff : ((List.range 3).map (fun i => mill_from_pos.getD (pos * 3 + i) 0)).any
      (fun m => decide (mill_formed_by s.board s.cur_player m) && mill_contains m pos) = true
      ↔ in_formed_mill s.board s.cur_player pos := by
    rw [List.any_eq_true]
    unfold in_formed_mill TOTAL_MILLS
    constructor
    · rintro ⟨m, hm, h⟩
      simp only [Bool.and_eq_true, decide_eq_true_eq] at h
      exact ⟨m, hms m hm, h.2, h.1⟩
    · rintro ⟨m, hm, hcon, hf⟩
      refine ⟨m, ?_, by simp [hcon, hf]⟩
      have := mill_from_pos_complete pos hpos m hm
      rw [hcon] at this
      simp only [Bool.true_eq, Bool.or_eq_true, decide_eq_true_eq] at this
      rw [List.mem_map]
      rcases this with (h | h) | h
      · exact ⟨0, by decide, h.symm⟩
      · exact ⟨1, by decide, h.symm⟩
      · exact ⟨2, by decide, h.symm⟩
  by_cases hin : in_formed_mill s.board s.cur_player pos
  · have hp0 : s.cur_player ≠ 0 := by omega
    rw [if_pos (hiff.mpr hin)]
    simp [hin, hp0]
  · rw [if_neg (fun h => hin (hiff.mp h))]
    simp [hin]

theorem other_player_spec {p : Nat} (hp : p = 1 ∨ p = 2) :
    (other_player p = 1 ∨ other_player p = 2) ∧ other_player p ≠ p ∧ other_player p ≠ 0 := by
  rcases hp with rfl | rfl <;> decide

theorem masked_cell_zero : ∀ c, c < 3 → ∀ p, p = 1 ∨ p = 2 → ∀ a : Bool,
    (((3 - (if a then p else 0)) &&& c) &&& p = 0 ↔ (c = p → a = true)) := by
  intro c hc p hp a
  rcases hp with rfl | rfl <;> interval_cases c <;> cases a <;> decide

theorem null_mask_cells : null_mask.typed ∧ ∀ j, j < 32 → cell null_mask j = 0 := by
  decide

theorem any_formed_iff (b : Board) (p j : Nat) :
    (List.range 20).any (fun m => decide (mill_formed_by b p m) && mill_contains m j) = true
      ↔ in_formed_mill b p j := by
  rw [List.any_eq_true]
  unfold in_formed_mill TOTAL_MILLS
  constructor
  · rintro ⟨m, hm, h⟩
    simp only [Bool.and_eq_true, decide_eq_true_eq] at h
    exact ⟨m, List.mem_range.mp hm, h.2, h.1⟩
  · rintro ⟨m, hm, hcon, hf⟩
    exact ⟨m, List.mem_range.mpr hm, by simp [hcon, hf]⟩

/-- What `is_valid_remove` computes. -/
theorem is_valid_remove_eq {s : GameState} (hb : s.board.typed)
    (hc : ∀ i, i < 24 → cell s.board i < 3) (hp : s.cur_player = 1 ∨ s.cur_player = 2)
    {pos : Nat} (hpos : pos < 24) :
    is_valid_remove s pos = some (decide (
      board_ref s.board pos = some (other_player s.cur_player) ∧
      ((∀ j, j < BOARD_SIZE → board_ref s.board j = some (other_player s.cur_player) →
          in_formed_mill s.board (other_player s.cur_player) j) ∨
        ¬ in_formed_mill s.board (other_player s.cur_player) pos))) := by
  have hpos32 : pos < 32 := by omega
  obtain ⟨-, hch, -, ⟨pm, hpm, hpmt, hpmc⟩⟩ := choices_spec hp
  obtain ⟨hop, hne, hne0⟩ := other_player_spec hp
  unfold is_valid_remove
  rw [board_ref_eq_cell hb.1 hpos32]
  by_cases hopp : cell s.board pos = other_player s.cur_player
  swap
  · have h1 : ¬ (some (cell s.board pos) = some (other_player s.cur_player)) :=
      fun h => hopp (Option.some.inj h)
    have h2 : cell s.board pos = EMPTY ∨ cell s.board pos = s.cur_player := by
      have := hc pos hpos
      unfold EMPTY
      unfold other_player PLAYER1 PLAYER2 at hopp
      rcases hp with h | h <;> rw [h] at hopp ⊢ <;> simp at hopp <;> omega
    simp [h1, h2]
  have hnot : ¬ (cell s.board pos = EMPTY ∨ cell s.board pos = s.cur_player) := by
    rw [hopp]; unfold EMPTY; intro h; rcases h with h | h
    · exact hne0 h
    · exact hne h
  have hfold := foldlM_eq_foldl
    (fun cur i => do
        let mask ← (mill_table (other_player s.cur_player))[i]?
        pure (tag_mill s.board cur mask))
    (fun cur i => tag_mill s.board cur ((mill_table (other_player s.cur_player)).getD i []))
    (List.range TOTAL_MILLS) (List.replicate MASK_SIZE 0) (by
      intro cur i hi
      have hi20 : i < 20 := List.mem_range.mp hi
      obtain ⟨e3, -, -⟩ := mill_table_spec hop hi20
      simp only [e3, Option.bind_eq_bind, Option.some_bind, Option.pure_def])
  obtain ⟨ht, hcells⟩ := tag_fold_cells hb hc hop (List.range 20)
    (fun m hm => List.mem_range.mp hm) _ (fun _ => false)
    zero_board_cells.1 (by intro j hj; simpa using zero_board_cells.2 j hj)
  simp only [Option.bind_eq_bind, Option.pure_def] at hfold
  simp only [hch, hpm, hfold, hnot, Option.bind_eq_bind, Option.some_bind, Option.pure_def,
    if_false]
  unfold TOTAL_MILLS
  rw [board_ref_eq_cell ht.1 hpos32, hcells pos hpos32]
  simp only [Option.some_bind, Bool.false_or]
  have hnl := simd_not_length ht.1
  have hl1 := simd_and_length hnl hb.1
  have hall : simd_and (simd_and (simd_not ((List.range 20).foldl
        (fun cur m => tag_mill s.board cur ((mill_table (other_player s.cur_player)).getD m []))
        (List.replicate MASK_SIZE 0))) s.board) pm = null_mask
      ↔ ∀ j, j < BOARD_SIZE → board_ref s.board j = some (other_player s.cur_player) →
          in_formed_mill s.board (other_player s.cur_player) j := by
    rw [board_eq_iff (simd_and_typed_right hl1 hpmt) null_mask_cells.1]
    have hcell : ∀ i, i < 32 → cell (simd_and (simd_and (simd_not ((List.range 20).foldl
        (fun cur m => tag_mill s.board cur ((mill_table (other_player s.cur_player)).getD m []))
        (List.replicate MASK_SIZE 0))) s.board) pm) i
        = ((3 - (if (List.range 20).any (fun m =>
            decide (mill_formed_by s.board (other_player s.cur_player) m) && mill_contains m i)
            then other_player s.cur_player else 0)) &&& cell s.board i) &&& cell pm i := by
      intro i hi
      rw [cell_and hl1 hpmt.1 hi, cell_and hnl hb.1 hi, cell_not ht hi, hcells i hi]
      simp only [Bool.false_or]
    unfold BOARD_SIZE
    constructor
    · intro h j hj hj2
      have h1 := h j (by omega)
      rw [hcell j (by omega), hpmc j (by omega), if_pos hj, null_mask_cells.2 j (by omega),
        masked_cell_zero _ (hc j hj) _ hop] at h1
      rw [board_ref_eq_cell hb.1 (by omega)] at hj2
      exact (any_formed_iff _ _ _).mp (h1 (Option.some.inj hj2))
    · intro h i hi
      rw [hcell i hi, hpmc i hi, null_mask_cells.2 i hi]
      by_cases hi24 : i < 24
      · rw [if_pos hi24, masked_cell_zero _ (hc i hi24) _ hop]
        intro hci
        apply (any_formed_iff _ _ _).mpr
        apply h i hi24
        rw [board_ref_eq_cell hb.1 hi, hci]
      · rw [if_neg hi24, Nat.and_zero]
  by_cases hA : ∀ j, j < BOARD_SIZE → board_ref s.board j = some (other_player s.cur_player) →
          in_formed_mill s.board (other_player s.cur_player) j
  · rw [if_pos (hall.mpr hA)]
    have hor : (∀ j, j < BOARD_SIZE → board_ref s.board j = some (other_player s.cur_player) →
          in_formed_mill s.board (other_player s.cur_player) j) ∨
        ¬ in_formed_mill s.board (other_player s.cur_player) pos := Or.inl hA
    simp only [hopp, hor, and_self, decide_True]
  · rw [if_neg (fun h => hA (hall.mp h))]
    by_cases hin : in_formed_mill s.board (other_player s.cur_player) pos
    · rw [if_pos ((any_formed_iff _ _ _).mpr hin)]
      simp [hA, hin, hne0]
    · rw [if_neg (fun h => hin ((any_formed_iff _ _ _).mp h))]
      simp [hA, hin, hopp]

/-! ## The three mutators -/

theorem well_formed_pieces {s : GameState} (hs : s.well_formed) {p : Nat} (hp : p = 1 ∨ p = 2) :
    ∃ n, s.player_pieces[p - 1]? = some n := by
  have hl : s.player_pieces.length = 2 := hs.1.2.2.1
  have : p - 1 < s.player_pieces.length := by omega
  exact ⟨_, List.getElem?_eq_getElem this⟩

theorem well_formed_player {s : GameState} (hs : s.well_formed) :
    s.cur_player = 1 ∨ s.cur_player = 2 := hs.2.1

/-- The run of `place_piece` on an empty cell. -/
theorem place_piece_run {s : GameState} (hs : s.well_formed) {pos : Nat} (hpos : pos < 24)
    (he : board_ref s.board pos = some EMPTY) :
    ∃ b2 n, b2.typed ∧
      (∀ j, j < 32 → cell b2 j = if j = pos then s.cur_player else cell s.board j) ∧
      s.player_pieces[s.cur_player - 1]? = some n ∧
      place_piece true s pos = some (true, finish_turn
        { s with board := b2,
                 player_pieces := s.player_pieces.set (s.cur_player - 1) ((n + 1) % 256) }
        (decide (in_formed_mill b2 s.cur_player pos))) := by
  have hp := well_formed_player hs
  have hb : s.board.typed := hs.1.2.2.2.2
  obtain ⟨b2, hset, hb2, hcells⟩ := set_board_pos_cells hb (show pos < 32 by omega)
    (show s.cur_player < 4 by omega)
  obtain ⟨n, hn⟩ := well_formed_pieces hs hp
  have hc2 : ∀ i, i < 24 → cell b2 i < 3 := by
    intro i hi
    rw [hcells i (by omega)]
    split
    · omega
    · exact well_formed_cells hs i hi
  have hp0 : s.cur_player ≠ 0 := by omega
  have hown : board_ref b2 pos = some s.cur_player := by
    rw [board_ref_eq_cell hb2.1 (by omega), hcells pos (by omega), if_pos rfl]
  have hmill := is_mill_formed_eq
    (s := { s with board := b2,
                   player_pieces := s.player_pieces.set (s.cur_player - 1) ((n + 1) % 256) })
    hb2 hc2 hp hpos
  simp only [hown, true_and] at hmill
  refine ⟨b2, n, hb2, hcells, hn, ?_⟩
  simp [place_piece, is_valid_place, he, hset, bump_pieces, hp0, hn, hmill]

theorem finish_turn_board (s : GameState) (mill : Bool) : (finish_turn s mill).board = s.board := by
  cases mill <;> rfl

theorem finish_turn_pieces (s : GameState) (mill : Bool) :
    (finish_turn s mill).player_pieces = s.player_pieces := by
  cases mill <;> rfl

theorem next_player_cur {s : GameState} (hp : s.cur_player = 1 ∨ s.cur_player = 2) :
    (next_player s).cur_player = other_player s.cur_player := by
  rcases hp with h | h <;> simp [next_player, other_player, h, NUM_PLAYERS, PLAYER1, PLAYER2]

theorem finish_turn_false_cur (s : GameState) (hp : s.cur_player = 1 ∨ s.cur_player = 2) :
    (finish_turn s false).cur_player = other_player s.cur_player :=
  next_player_cur hp

set_option maxRecDepth 100000 in
theorem are_adjacent_defined : ∀ a, a < 24 → ∀ b, b < 24 →
    are_adjacent a b = some true ∨ are_adjacent a b = some false := by
  decide

/-- What `is_valid_move` computes. -/
theorem is_valid_move_eq {s : GameState} (hl : s.board.length = MASK_SIZE) {src dest : Nat}
    (hsrc : src < 24) (hdest : dest < 24) :
    is_valid_move s src dest = some (decide (are_adjacent src dest = some true ∧
      board_ref s.board src = some s.cur_player ∧ board_ref s.board dest = some EMPTY)) := by
  unfold is_valid_move
  rw [board_ref_eq_cell hl (show src < 32 by omega), board_ref_eq_cell hl (show dest < 32 by omega)]
  rcases are_adjacent_defined src hsrc dest hdest with h | h
  · by_cases h1 : cell s.board src = s.cur_player
    · by_cases h2 : cell s.board dest = EMPTY
      · simp [h, h1, h2]
      · simp [h, h1, h2]
    · simp [h, h1]
  · simp [h]

theorem tag_fold_length (b : Board) (f : Nat → Board) :
    ∀ (l : List Nat) (init : Board), init.length = MASK_SIZE →
      (∀ i, i ∈ l → (f i).length = MASK_SIZE) →
      (l.foldl (fun cur i => tag_mill b cur (f i)) init).length = MASK_SIZE := by
  intro l
  induction l with
  | nil => intro init h _; exact h
  | cons a l ih =>
    intro init h hf
    rw [List.foldl_cons]
    apply ih _ _ (fun i hi => hf i (List.mem_cons_of_mem _ hi))
    by_cases h2 : simd_and b (f a) = f a
    · simp only [tag_mill, h2, if_true]
      exact simd_or_length h (hf a (List.mem_cons_self _ _))
    · simp only [tag_mill, h2, if_false]
      exact h

/-- `is_mill_formed` returns on every 8-byte board when a player is to move. -/
theorem is_mill_formed_defined {s : GameState} (hl : s.board.length = MASK_SIZE)
    (hp : s.cur_player = 1 ∨ s.cur_player = 2) {pos : Nat} (hpos : pos < 24) :
    ∃ r, is_mill_formed s pos = some r := by
  have hpos32 : pos < 32 := by omega
  obtain ⟨hch, -, ⟨pm, hpm⟩, -⟩ := choices_spec hp
  unfold is_mill_formed
  rw [board_ref_eq_cell hl hpos32]
  by_cases hown : cell s.board pos = s.cur_player
  swap
  · exact ⟨false, by simp [hown]⟩
  have hfold := foldlM_eq_foldl
    (fun cur i => do
        let m ← mill_from_pos[pos * 3 + i]?
        let plyr_mill_mask ← (mill_table s.cur_player)[m]?
        pure (tag_mill s.board cur plyr_mill_mask))
    (fun cur i => tag_mill s.board cur
      ((mill_table s.cur_player).getD (mill_from_pos.getD (pos * 3 + i) 0) []))
    (List.range 3) (List.replicate MASK_SIZE 0) (by
      intro cur i hi
      have hi3 : i < 3 := List.mem_range.mp hi
      obtain ⟨e1, e2⟩ := mill_from_pos_lookup pos hpos i hi3
      obtain ⟨e3, -, -⟩ := mill_table_spec hp e2
      simp only [e1, e3, Option.bind_eq_bind, Option.some_bind, Option.pure_def])
  have hlen := tag_fold_length s.board
    (fun i => (mill_table s.cur_player).getD (mill_from_pos.getD (pos * 3 + i) 0) [])
    (List.range 3) (List.replicate MASK_SIZE 0) zero_board_cells.1.1 (by
      intro i hi
      have hi3 : i < 3 := List.mem_range.mp hi
      obtain ⟨-, e2⟩ := mill_from_pos_lookup pos hpos i hi3
      exact (mill_table_spec hp e2).2.1.1)
  simp only [Option.bind_eq_bind, Option.pure_def] at hfold
  simp only [hch, hpm, hfold, hown, Option.bind_eq_bind, Option.some_bind, Option.pure_def,
    ne_eq, not_true_eq_false, if_false]
  rw [board_ref_eq_cell hlen hpos32]
  simp only [Option.some_bind]
  split
  · exact ⟨_, rfl⟩
  · exact ⟨_, rfl⟩

theorem set_board_pos_defined (have_x86_asm : Bool) {b : Board} (hl : b.length = MASK_SIZE)
    {i : Nat} (hi : i < 32) (v : Nat) :
    ∃ b2, set_board_pos have_x86_asm b i v = some b2 ∧ b2.length = MASK_SIZE := by
  have hlen : i / 4 < b.length := by rw [hl]; unfold MASK_SIZE; omega
  exact ⟨_, by simp [set_board_pos, List.getElem?_eq_getElem hlen]; rfl, by simp [hl]⟩

/-- The run of `move_piece` on a valid move. -/
theorem move_piece_run {s : GameState} (hs : s.well_formed) {src dest : Nat}
    (hsrc : src < 24) (hdest : dest < 24) (hadj : are_adjacent src dest = some true)
    (hown : board_ref s.board src = some s.cur_player)
    (hemp : board_ref s.board dest = some EMPTY) :
    ∃ b2, b2.typed ∧
      (∀ j, j < 32 → cell b2 j =
        if j = dest then s.cur_player else if j = src then EMPTY else cell s.board j) ∧
      move_piece true s src dest = some (true, finish_turn { s with board := b2 }
        (decide (in_formed_mill b2 s.cur_player dest))) := by
  have hp := well_formed_player hs
  have hb : s.board.typed := hs.1.2.2.2.2
  obtain ⟨b1, hset1, hb1, hcells1⟩ := set_board_pos_cells hb (show src < 32 by omega)
    (show EMPTY < 4 by decide)
  obtain ⟨b2, hset2, hb2, hcells2⟩ := set_board_pos_cells hb1 (show dest < 32 by omega)
    (show s.cur_player < 4 by omega)
  have hcells : ∀ j, j < 32 → cell b2 j =
      if j = dest then s.cur_player else if j = src then EMPTY else cell s.board j := by
    intro j hj
    rw [hcells2 j hj, hcells1 j hj]
  have hc2 : ∀ i, i < 24 → cell b2 i < 3 := by
    intro i hi
    rw [hcells i (by omega)]
    split
    · omega
    · split
      · decide
      · exact well_formed_cells hs i hi
  have hown2 : board_ref b2 dest = some s.cur_player := by
    rw [board_ref_eq_cell hb2.1 (by omega), hcells dest (by omega), if_pos rfl]
  have hmill := is_mill_formed_eq (s := { s with board := b2 }) hb2 hc2 hp hdest
  simp only [hown2, true_and] at hmill
  have hvalid := is_valid_move_eq (s := s) hb.1 hsrc hdest
  simp only [hadj, hown, hemp, and_self, decide_True] at hvalid
  refine ⟨b2, hb2, hcells, ?_⟩
  simp [move_piece, hvalid, hset1, hset2, hmill]

/-- The run of `remove_piece` on a well-formed state. -/
theorem remove_piece_run {s : GameState} (hs : s.well_formed) {pos : Nat} (hpos : pos < 24) :
    (¬ (board_ref s.board pos = some (other_player s.cur_player) ∧
        ((∀ j, j < BOARD_SIZE → board_ref s.board j = some (other_player s.cur_player) →
            in_formed_mill s.board (other_player s.cur_player) j) ∨
          ¬ in_formed_mill s.board (other_player s.cur_player) pos)) →
      ∀ have_x86_asm, remove_piece have_x86_asm s pos = some (false, s)) ∧
    ((board_ref s.board pos = some (other_player s.cur_player) ∧
        ((∀ j, j < BOARD_SIZE → board_ref s.board j = some (other_player s.cur_player) →
            in_formed_mill s.board (other_player s.cur_player) j) ∨
          ¬ in_formed_mill s.board (other_player s.cur_player) pos)) →
      ∃ b2 n, b2.typed ∧
        (∀ j, j < 32 → cell b2 j = if j = pos then EMPTY else cell s.board j) ∧
        s.player_pieces[other_player s.cur_player - 1]? = some n ∧
        remove_piece true s pos = some (true, next_player
          { s with board := b2,
                   player_pieces :=
                     s.player_pieces.set (other_player s.cur_player - 1) ((n + 255) % 256),
                   remove_state := false })) := by
  have hp := well_formed_player hs
  have hb : s.board.typed := hs.1.2.2.2.2
  have hvalid := is_valid_remove_eq hb (well_formed_cells hs) hp hpos
  obtain ⟨hop, -, hne0⟩ := other_player_spec hp
  constructor
  · intro h asm
    rw [decide_eq_false h] at hvalid
    simp [remove_piece, hvalid]
  · intro h
    rw [decide_eq_true h] at hvalid
    obtain ⟨b2, hset, hb2, hcells⟩ := set_board_pos_cells hb (show pos < 32 by omega)
      (show EMPTY < 4 by decide)
    obtain ⟨n, hn⟩ := well_formed_pieces hs hop
    refine ⟨b2, n, hb2, hcells, hn, ?_⟩
    simp [remove_piece, hvalid, h.1, hset, bump_pieces, hne0, hn]

/-! ## Placing a piece -/

/-- C1, counterexample: a well-formed state whose current player has the
counter 255 and an empty cell 0; `place_piece` succeeds and the counter
becomes 0, which is not one larger than 255. -/
theorem C1_counter_wraps :
    full_counter_state.well_formed ∧
    board_ref full_counter_state.board 0 = some EMPTY ∧
    full_counter_state.player_pieces[full_counter_state.cur_player - 1]? = some 255 ∧
    ∃ s2, place_piece true full_counter_state 0 = some (true, s2) ∧
      s2.player_pieces[full_counter_state.cur_player - 1]? = some 0 := by
  refine ⟨by decide, by decide, by decide,
    ⟨2, 11, false, [0, 0], [1, 0, 0, 0, 0, 0, 0, 0]⟩, by decide, by decide⟩

/-- C1, amended: on a well-formed state and an empty cell `pos < 24`,
`place_piece` returns true; afterwards cell `pos` holds the player who was
`cur_player`, the counter of that player is one larger modulo 256, the counter
of the other player is unchanged and every cell other than `pos` is unchanged. -/
theorem C1_place_piece_effect (s : GameState) (pos : Nat) (hs : s.well_formed)
    (hpos : pos < BOARD_SIZE) (he : board_ref s.board pos = some EMPTY) :
    ∃ s2, place_piece true s pos = some (true, s2) ∧
      board_ref s2.board pos = some s.cur_player ∧
      (∃ n, s.player_pieces[s.cur_player - 1]? = some n ∧
        s2.player_pieces[s.cur_player - 1]? = some ((n + 1) % 256)) ∧
      s2.player_pieces[other_player s.cur_player - 1]?
        = s.player_pieces[other_player s.cur_player - 1]? ∧
      ∀ j, j < BOARD_SIZE → j ≠ pos → board_ref s2.board j = board_ref s.board j := by
  obtain ⟨b2, n, hb2, hcells, hn, hrun⟩ := place_piece_run hs hpos he
  have hp := well_formed_player hs
  have hb : s.board.typed := hs.1.2.2.2.2
  have hlen : s.cur_player - 1 < s.player_pieces.length := by
    have := hs.1.2.2.1; unfold NUM_PLAYERS at this; omega
  refine ⟨_, hrun, ?_, ⟨n, hn, ?_⟩, ?_, ?_⟩
  · rw [finish_turn_board, board_ref_eq_cell hb2.1 (by unfold BOARD_SIZE at hpos; omega),
      hcells pos (by unfold BOARD_SIZE at hpos; omega), if_pos rfl]
  · rw [finish_turn_pieces]
    simp [List.getElem?_set_self hlen]
  · rw [finish_turn_pieces]
    have hne : s.cur_player - 1 ≠ other_player s.cur_player - 1 := by
      rcases hp with h | h <;> rw [h] <;> decide
    simp [List.getElem?_set_ne hne]
  · intro j hj hne
    unfold BOARD_SIZE at hj
    rw [finish_turn_board, board_ref_eq_cell hb2.1 (by omega), board_ref_eq_cell hb.1 (by omega),
      hcells j (by omega), if_neg hne]

/-- C1, witness: the first placement of a game, at position 0. -/
theorem C1_place_piece_effect_witness :
    ∃ s2, place_piece true opening_state 0 = some (true, s2) ∧
      board_ref s2.board 0 = some opening_state.cur_player ∧
      (∃ n, opening_state.player_pieces[opening_state.cur_player - 1]? = some n ∧
        s2.player_pieces[opening_state.cur_player - 1]? = some ((n + 1) % 256)) ∧
      s2.player_pieces[other_player opening_state.cur_player - 1]?
        = opening_state.player_pieces[other_player opening_state.cur_player - 1]? ∧
      ∀ j, j < BOARD_SIZE → j ≠ 0 → board_ref s2.board j = board_ref opening_state.board j :=
  C1_place_piece_effect opening_state 0 (by decide) (by decide) (by decide)

/-- C2: on a state with an 8-byte board, for `pos < 24` whose cell is not
`EMPTY`, `place_piece` returns false and the state it leaves is the input
state, in either build of `set_board_pos`. -/
theorem C2_place_occupied_unchanged (have_x86_asm : Bool) (s : GameState) (pos : Nat)
    (hl : s.board.length = MASK_SIZE) (hpos : pos < BOARD_SIZE)
    (hocc : board_ref s.board pos ≠ some EMPTY) :
    place_piece have_x86_asm s pos = some (false, s) := by
  unfold BOARD_SIZE at hpos
  rw [board_ref_eq_cell hl (by omega)] at hocc
  have hne : cell s.board pos ≠ EMPTY := fun h => hocc (by rw [h])
  simp [place_piece, is_valid_place, board_ref_eq_cell hl (show pos < 32 by omega), hne]

/-- C2, witness: player 2 tries the cell that player 1 has just taken. -/
theorem C2_place_occupied_unchanged_witness :
    place_piece true after_first_place 0 = some (false, after_first_place) :=
  C2_place_occupied_unchanged true after_first_place 0 (by decide) (by decide) (by decide)

/-- With `HAVE_X86_ASM`, after `place_piece` on an empty cell `pos` of a
well-formed state with current player `p`: if some mill of the table contains `pos` and has its
other cells equal to `p`, then `remove_state` is true and `cur_player` is still
`p`; otherwise `remove_state` keeps its value and `cur_player` is the other
player. -/
theorem place_piece_mill_x86 (s : GameState) (pos : Nat) (hs : s.well_formed)
    (hpos : pos < BOARD_SIZE) (he : board_ref s.board pos = some EMPTY) :
    ∃ s2, place_piece true s pos = some (true, s2) ∧
      ((∃ m, m < TOTAL_MILLS ∧ mill_contains m pos = true ∧
          ∀ j, j < BOARD_SIZE → j ≠ pos → mill_contains m j = true →
            board_ref s.board j = some s.cur_player) →
        s2.remove_state = true ∧ s2.cur_player = s.cur_player) ∧
      (¬ (∃ m, m < TOTAL_MILLS ∧ mill_contains m pos = true ∧
          ∀ j, j < BOARD_SIZE → j ≠ pos → mill_contains m j = true →
            board_ref s.board j = some s.cur_player) →
        s2.remove_state = s.remove_state ∧ s2.cur_player = other_player s.cur_player) := by
  obtain ⟨b2, n, hb2, hcells, hn, hrun⟩ := place_piece_run hs hpos he
  have hp := well_formed_player hs
  have hb : s.board.typed := hs.1.2.2.2.2
  have hiff : in_formed_mill b2 s.cur_player pos ↔
      ∃ m, m < TOTAL_MILLS ∧ mill_contains m pos = true ∧
          ∀ j, j < BOARD_SIZE → j ≠ pos → mill_contains m j = true →
            board_ref s.board j = some s.cur_player := by
    unfold in_formed_mill mill_formed_by BOARD_SIZE
    constructor
    · rintro ⟨m, hm, hcon, hall⟩
      refine ⟨m, hm, hcon, fun j hj hne hcj => ?_⟩
      have := hall j hj hcj
      rwa [board_ref_eq_cell hb2.1 (by omega), hcells j (by omega), if_neg hne,
        ← board_ref_eq_cell hb.1 (by omega)] at this
    · rintro ⟨m, hm, hcon, hall⟩
      refine ⟨m, hm, hcon, fun j hj hcj => ?_⟩
      rw [board_ref_eq_cell hb2.1 (by omega), hcells j (by omega)]
      by_cases hjp : j = pos
      · rw [if_pos hjp]
      · rw [if_neg hjp, ← board_ref_eq_cell hb.1 (by omega)]
        exact hall j hj hjp hcj
  refine ⟨_, hrun, ?_, ?_⟩
  · intro h
    rw [decide_eq_true (hiff.mpr h)]
    exact ⟨rfl, rfl⟩
  · intro h
    rw [decide_eq_false (fun h2 => h (hiff.mp h2))]
    exact ⟨rfl, finish_turn_false_cur _ hp⟩

/-- With `HAVE_X86_ASM`, player 1 holds cells 0 and 1 and places at cell 2,
which closes the mill 0-1-2. -/
theorem place_piece_mill_x86_witness :
    ∃ s2, place_piece true two_in_a_row 2 = some (true, s2) ∧
      ((∃ m, m < TOTAL_MILLS ∧ mill_contains m 2 = true ∧
          ∀ j, j < BOARD_SIZE → j ≠ 2 → mill_contains m j = true →
            board_ref two_in_a_row.board j = some two_in_a_row.cur_player) →
        s2.remove_state = true ∧ s2.cur_player = two_in_a_row.cur_player) ∧
      (¬ (∃ m, m < TOTAL_MILLS ∧ mill_contains m 2 = true ∧
          ∀ j, j < BOARD_SIZE → j ≠ 2 → mill_contains m j = true →
            board_ref two_in_a_row.board j = some two_in_a_row.cur_player) →
        s2.remove_state = two_in_a_row.remove_state ∧
        s2.cur_player = other_player two_in_a_row.cur_player) :=
  place_piece_mill_x86 two_in_a_row 2 (by decide) (by decide) (by decide)

/-- C3, failing input: without `HAVE_X86_ASM`, in the well-formed state
`two_in_a_row` player 1 is to move, cell 2 is empty and mill 0 contains cell 2
and has its other cells, 0 and 1, equal to player 1; `place_piece` at 2
returns true but empties cell 0, so it leaves `remove_state` false and
`cur_player = PLAYER2`.  With `HAVE_X86_ASM` the same call sets `remove_state`
and keeps the turn. -/
theorem C3_portable_place_misses_mill :
    two_in_a_row.well_formed ∧ two_in_a_row.cur_player = PLAYER1 ∧
    board_ref two_in_a_row.board 2 = some EMPTY ∧
    (∃ m, m < TOTAL_MILLS ∧ mill_contains m 2 = true ∧
      ∀ j, j < BOARD_SIZE → j ≠ 2 → mill_contains m j = true →
        board_ref two_in_a_row.board j = some two_in_a_row.cur_player) ∧
    place_piece false two_in_a_row 2 = some (true,
      { cur_player := 2, setup_rounds_left := 11, remove_state := false,
        player_pieces := [3, 2], board := [0x94, 0x02, 0, 0, 0, 0, 0, 0] }) ∧
    board_ref [0x94, 0x02, 0, 0, 0, 0, 0, 0] 0 = some EMPTY ∧
    place_piece true two_in_a_row 2 = some (true,
      { cur_player := 1, setup_rounds_left := 11, remove_state := true,
        player_pieces := [3, 2], board := [0x95, 0x02, 0, 0, 0, 0, 0, 0] }) := by
  decide
/-! ## Moving a piece -/

/-- With `HAVE_X86_ASM`, on a well-formed state, for adjacent `src, dest < 24`
with cell `src` holding `cur_player` and cell `dest` `EMPTY`, `move_piece` returns true;
afterwards cell `src` is `EMPTY`, cell `dest` holds the mover, every other
cell is unchanged and both piece counters are unchanged. -/
theorem move_piece_effect_x86 (s : GameState) (src dest : Nat) (hs : s.well_formed)
    (hsrc : src < BOARD_SIZE) (hdest : dest < BOARD_SIZE)
    (hadj : are_adjacent src dest = some true)
    (hown : board_ref s.board src = some s.cur_player)
    (hemp : board_ref s.board dest = some EMPTY) :
    ∃ s2, move_piece true s src dest = some (true, s2) ∧
      board_ref s2.board src = some EMPTY ∧
      board_ref s2.board dest = some s.cur_player ∧
      (∀ j, j < BOARD_SIZE → j ≠ src → j ≠ dest → board_ref s2.board j = board_ref s.board j) ∧
      s2.player_pieces = s.player_pieces := by
  unfold BOARD_SIZE at *
  obtain ⟨b2, hb2, hcells, hrun⟩ := move_piece_run hs hsrc hdest hadj hown hemp
  have hp := well_formed_player hs
  have hb : s.board.typed := hs.1.2.2.2.2
  have hne : src ≠ dest := by
    intro h
    rw [h, hemp] at hown
    have := Option.some.inj hown
    unfold EMPTY at this
    omega
  refine ⟨_, hrun, ?_, ?_, ?_, ?_⟩
  · rw [finish_turn_board, board_ref_eq_cell hb2.1 (by omega), hcells src (by omega),
      if_neg hne, if_pos rfl]
  · rw [finish_turn_board, board_ref_eq_cell hb2.1 (by omega), hcells dest (by omega),
      if_pos rfl]
  · intro j hj h1 h2
    rw [finish_turn_board, board_ref_eq_cell hb2.1 (by omega), board_ref_eq_cell hb.1 (by omega),
      hcells j (by omega), if_neg h2, if_neg h1]
  · rw [finish_turn_pieces]

/-- With `HAVE_X86_ASM`, player 1 moves the piece on cell 1 to the empty cell
2. -/
theorem move_piece_effect_x86_witness :
    ∃ s2, move_piece true two_in_a_row 1 2 = some (true, s2) ∧
      board_ref s2.board 1 = some EMPTY ∧
      board_ref s2.board 2 = some two_in_a_row.cur_player ∧
      (∀ j, j < BOARD_SIZE → j ≠ 1 → j ≠ 2 →
        board_ref s2.board j = board_ref two_in_a_row.board j) ∧
      s2.player_pieces = two_in_a_row.player_pieces :=
  move_piece_effect_x86 two_in_a_row 1 2 (by decide) (by decide) (by decide) (by decide)
    (by decide) (by decide)

/-- C4, failing input: without `HAVE_X86_ASM`, in the well-formed state
`two_in_a_row` the cells 1 and 2 are adjacent, cell 1 holds the current
player and cell 2 is empty; `move_piece` from 1 to 2 returns true, but
afterwards cell 1 still holds `PLAYER1` and cell 0, which held `PLAYER1`, is
`EMPTY`.  With `HAVE_X86_ASM` the board byte is 0x91 instead of 0x94. -/
theorem C4_portable_move_keeps_src :
    two_in_a_row.well_formed ∧ are_adjacent 1 2 = some true ∧
    board_ref two_in_a_row.board 1 = some two_in_a_row.cur_player ∧
    board_ref two_in_a_row.board 2 = some EMPTY ∧
    board_ref two_in_a_row.board 0 = some PLAYER1 ∧
    move_piece false two_in_a_row 1 2 = some (true,
      { cur_player := 2, setup_rounds_left := 11, remove_state := false,
        player_pieces := [2, 2], board := [0x94, 0x02, 0, 0, 0, 0, 0, 0] }) ∧
    board_ref [0x94, 0x02, 0, 0, 0, 0, 0, 0] 1 = some PLAYER1 ∧
    board_ref [0x94, 0x02, 0, 0, 0, 0, 0, 0] 0 = some EMPTY ∧
    move_piece true two_in_a_row 1 2 = some (true,
      { cur_player := 2, setup_rounds_left := 11, remove_state := false,
        player_pieces := [2, 2], board := [0x91, 0x02, 0, 0, 0, 0, 0, 0] }) := by
  decide

/-- C5: on a well-formed state and `src, dest < 24`, `move_piece` returns, in
either build of `set_board_pos`; it returns false exactly when `src` and
`dest` are not adjacent, or cell `src` does not hold `cur_player`, or cell
`dest` is not `EMPTY`; and when it returns false the state is the input
state. -/
theorem C5_move_piece_refusal (have_x86_asm : Bool) (s : GameState) (src dest : Nat)
    (hs : s.well_formed) (hsrc : src < BOARD_SIZE) (hdest : dest < BOARD_SIZE) :
    ∃ ok s2, move_piece have_x86_asm s src dest = some (ok, s2) ∧
      (ok = false ↔ (are_adjacent src dest = some false ∨
        board_ref s.board src ≠ some s.cur_player ∨
        board_ref s.board dest ≠ some EMPTY)) ∧
      (ok = false → s2 = s) := by
  unfold BOARD_SIZE at *
  have hp := well_formed_player hs
  have hb : s.board.typed := hs.1.2.2.2.2
  have hvalid := is_valid_move_eq (s := s) hb.1 hsrc hdest
  by_cases hv : are_adjacent src dest = some true ∧
      board_ref s.board src = some s.cur_player ∧ board_ref s.board dest = some EMPTY
  · rw [decide_eq_true hv] at hvalid
    obtain ⟨b1, hset1, hl1⟩ := set_board_pos_defined have_x86_asm hb.1 (show src < 32 by omega) EMPTY
    obtain ⟨b2, hset2, hl2⟩ := set_board_pos_defined have_x86_asm hl1 (show dest < 32 by omega)
      s.cur_player
    obtain ⟨r, hr⟩ := is_mill_formed_defined (s := { s with board := b2 }) hl2 hp hdest
    refine ⟨true, finish_turn { s with board := b2 } r,
      by simp [move_piece, hvalid, hset1, hset2, hr], ?_, by simp⟩
    simp [hv.1, hv.2.1, hv.2.2]
  · rw [decide_eq_false hv] at hvalid
    refine ⟨false, s, by simp [move_piece, hvalid], ?_, fun _ => rfl⟩
    simp only [true_iff]
    by_contra hcon
    apply hv
    rcases are_adjacent_defined src hsrc dest hdest with h | h
    · refine ⟨h, ?_, ?_⟩
      · by_contra h2; exact hcon (Or.inr (Or.inl h2))
      · by_contra h2; exact hcon (Or.inr (Or.inr h2))
    · exact absurd (Or.inl h) hcon

/-- C5, witness: player 1 tries to move from cell 0 to cell 2, which is not
adjacent to it. -/
theorem C5_move_piece_refusal_witness :
    ∃ ok s2, move_piece true two_in_a_row 0 2 = some (ok, s2) ∧
      (ok = false ↔ (are_adjacent 0 2 = some false ∨
        board_ref two_in_a_row.board 0 ≠ some two_in_a_row.cur_player ∨
        board_ref two_in_a_row.board 2 ≠ some EMPTY)) ∧
      (ok = false → s2 = two_in_a_row) :=
  C5_move_piece_refusal true two_in_a_row 0 2 (by decide) (by decide) (by decide)

/-- With `HAVE_X86_ASM`, after a successful `move_piece (src, dest)` on a
well-formed state with current player `p`: if on the new board some mill containing `dest` has
all its cells equal to `p`, then `remove_state` is true and `cur_player` is
still `p`; otherwise `cur_player` is the other player and `remove_state`
keeps its value.  No mill containing the vacated cell `src` is formed. -/
theorem move_piece_mill_x86 (s s2 : GameState) (src dest : Nat) (hs : s.well_formed)
    (hsrc : src < BOARD_SIZE) (hdest : dest < BOARD_SIZE)
    (hmove : move_piece true s src dest = some (true, s2)) :
    (in_formed_mill s2.board s.cur_player dest →
      s2.remove_state = true ∧ s2.cur_player = s.cur_player) ∧
    (¬ in_formed_mill s2.board s.cur_player dest →
      s2.cur_player = other_player s.cur_player ∧ s2.remove_state = s.remove_state) ∧
    (∀ m, m < TOTAL_MILLS → mill_contains m src = true →
      ¬ mill_formed_by s2.board s.cur_player m) := by
  unfold BOARD_SIZE at *
  have hp := well_formed_player hs
  have hb : s.board.typed := hs.1.2.2.2.2
  have hvalid := is_valid_move_eq (s := s) hb.1 hsrc hdest
  by_cases hv : are_adjacent src dest = some true ∧
      board_ref s.board src = some s.cur_player ∧ board_ref s.board dest = some EMPTY
  swap
  · rw [decide_eq_false hv] at hvalid
    simp [move_piece, hvalid] at hmove
  obtain ⟨b2, hb2, hcells, hrun⟩ := move_piece_run hs hsrc hdest hv.1 hv.2.1 hv.2.2
  rw [hrun] at hmove
  have hs2 : s2 = finish_turn { s with board := b2 }
      (decide (in_formed_mill b2 s.cur_player dest)) := by
    have := Option.some.inj hmove
    exact (Prod.mk.inj this).2.symm
  have hboard : s2.board = b2 := by rw [hs2, finish_turn_board]
  have hne : src ≠ dest := by
    intro h
    have h1 := hv.2.1
    rw [h, hv.2.2] at h1
    have := Option.some.inj h1
    unfold EMPTY at this
    omega
  rw [hboard]
  refine ⟨?_, ?_, ?_⟩
  · intro h
    rw [decide_eq_true h] at hs2
    rw [hs2]
    exact ⟨rfl, rfl⟩
  · intro h
    rw [decide_eq_false h] at hs2
    rw [hs2]
    exact ⟨finish_turn_false_cur _ hp, rfl⟩
  · intro m _ hcon hformed
    have := hformed src hsrc hcon
    rw [board_ref_eq_cell hb2.1 (by omega), hcells src (by omega), if_neg hne, if_pos rfl] at this
    have := Option.some.inj this
    unfold EMPTY at this
    omega

/-- With `HAVE_X86_ASM`, player 1, on cells 0, 1 and 5, moves from 5 to 2 and
closes the mill 0-1-2. -/
theorem move_piece_mill_x86_witness :
    (in_formed_mill after_closing_move.board closing_move_state.cur_player 2 →
      after_closing_move.remove_state = true ∧
      after_closing_move.cur_player = closing_move_state.cur_player) ∧
    (¬ in_formed_mill after_closing_move.board closing_move_state.cur_player 2 →
      after_closing_move.cur_player = other_player closing_move_state.cur_player ∧
      after_closing_move.remove_state = closing_move_state.remove_state) ∧
    (∀ m, m < TOTAL_MILLS → mill_contains m 5 = true →
      ¬ mill_formed_by after_closing_move.board closing_move_state.cur_player m) :=
  move_piece_mill_x86 closing_move_state after_closing_move 5 2 (by decide) (by decide)
    (by decide) (by decide)

/-- C6, failing input: without `HAVE_X86_ASM`, in the well-formed state
`one_and_seven` player 1, on cells 1 and 7, moves from 1 to 4; `move_piece`
returns true, cell 1 is not vacated, and mill 13, which contains the cells 1,
4 and 7 and so needs the cell `src`, is formed on the new board: `remove_state`
is true and `cur_player` is still `PLAYER1`.  With `HAVE_X86_ASM` cell 1 is
emptied, no mill is formed and the turn passes. -/
theorem C6_portable_mill_through_src :
    one_and_seven.well_formed ∧ one_and_seven.cur_player = PLAYER1 ∧
    move_piece false one_and_seven 1 4 = some (true,
      { cur_player := 1, setup_rounds_left := 0, remove_state := true,
        player_pieces := [2, 2], board := [0x04, 0x41, 0x28, 0, 0, 0, 0, 0] }) ∧
    board_ref [0x04, 0x41, 0x28, 0, 0, 0, 0, 0] 1 = some PLAYER1 ∧
    mill_contains 13 1 = true ∧ mill_contains 13 4 = true ∧
    mill_formed_by [0x04, 0x41, 0x28, 0, 0, 0, 0, 0] PLAYER1 13 ∧
    move_piece true one_and_seven 1 4 = some (true,
      { cur_player := 2, setup_rounds_left := 0, remove_state := false,
        player_pieces := [2, 2], board := [0x00, 0x41, 0x28, 0, 0, 0, 0, 0] }) := by
  decide
/-! ## Removing a piece -/

/-- C7, counterexample: a well-formed state in which player 2 has a piece on
cell 0 and the counter 0; player 1 removes it, `remove_piece` returns true
and the counter of player 2 becomes 255, which is not one smaller than 0. -/
theorem C7_counter_wraps :
    empty_counter_state.well_formed ∧
    board_ref empty_counter_state.board 0 = some PLAYER2 ∧
    empty_counter_state.player_pieces[PLAYER2 - 1]? = some 0 ∧
    ∃ s2, remove_piece true empty_counter_state 0 = some (true, s2) ∧
      s2.player_pieces[PLAYER2 - 1]? = some 255 := by
  refine ⟨by decide, by decide, by decide,
    ⟨2, 11, false, [0, 255], [0, 0, 0, 0, 0, 0, 0, 0]⟩, by decide, by decide⟩

/-- C7, amended: when `remove_piece` returns true on a well-formed state and
`pos < 24`, the removed piece belonged to the other player; afterwards cell
`pos` is `EMPTY`, the counter of that player is one smaller modulo 256, the
counter of the current player and every other cell are unchanged, `remove_state` is false
and `cur_player` is the other player. -/
theorem C7_remove_piece_effect (s s2 : GameState) (pos : Nat) (hs : s.well_formed)
    (hpos : pos < BOARD_SIZE) (hrem : remove_piece true s pos = some (true, s2)) :
    board_ref s.board pos = some (other_player s.cur_player) ∧
    board_ref s2.board pos = some EMPTY ∧
    (∃ n, s.player_pieces[other_player s.cur_player - 1]? = some n ∧
      s2.player_pieces[other_player s.cur_player - 1]? = some ((n + 255) % 256)) ∧
    s2.player_pieces[s.cur_player - 1]? = s.player_pieces[s.cur_player - 1]? ∧
    (∀ j, j < BOARD_SIZE → j ≠ pos → board_ref s2.board j = board_ref s.board j) ∧
    s2.remove_state = false ∧
    s2.cur_player = other_player s.cur_player := by
  unfold BOARD_SIZE at hpos
  have hp := well_formed_player hs
  have hb : s.board.typed := hs.1.2.2.2.2
  obtain ⟨hop, -, -⟩ := other_player_spec hp
  obtain ⟨hno, hyes⟩ := remove_piece_run hs hpos
  by_cases hv : board_ref s.board pos = some (other_player s.cur_player) ∧
      ((∀ j, j < BOARD_SIZE → board_ref s.board j = some (other_player s.cur_player) →
          in_formed_mill s.board (other_player s.cur_player) j) ∨
        ¬ in_formed_mill s.board (other_player s.cur_player) pos)
  swap
  · rw [hno hv true] at hrem
    simp at hrem
  obtain ⟨b2, n, hb2, hcells, hn, hrun⟩ := hyes hv
  rw [hrun] at hrem
  have hs2 := (Prod.mk.inj (Option.some.inj hrem)).2
  have hlen : other_player s.cur_player - 1 < s.player_pieces.length := by
    have := hs.1.2.2.1; unfold NUM_PLAYERS at this; omega
  rw [← hs2]
  refine ⟨hv.1, ?_, ⟨n, hn, ?_⟩, ?_, ?_, rfl, next_player_cur hp⟩
  · show board_ref b2 pos = some EMPTY
    rw [board_ref_eq_cell hb2.1 (by omega), hcells pos (by omega), if_pos rfl]
  · show (s.player_pieces.set (other_player s.cur_player - 1) ((n + 255) % 256))[
      other_player s.cur_player - 1]? = some ((n + 255) % 256)
    simp [List.getElem?_set_self hlen]
  · show (s.player_pieces.set (other_player s.cur_player - 1) ((n + 255) % 256))[
      s.cur_player - 1]? = s.player_pieces[s.cur_player - 1]?
    have hne : other_player s.cur_player - 1 ≠ s.cur_player - 1 := by
      rcases hp with h | h <;> rw [h] <;> decide
    simp [List.getElem?_set_ne hne]
  · intro j hj hne
    unfold BOARD_SIZE at hj
    show board_ref b2 j = board_ref s.board j
    rw [board_ref_eq_cell hb2.1 (by omega), board_ref_eq_cell hb.1 (by omega),
      hcells j (by omega), if_neg hne]

/-- C7, witness: after player 1 has closed the mill 0-1-2, the piece of
player 2 on cell 3 is removed. -/
theorem C7_remove_piece_effect_witness :
    board_ref after_closing_move.board 3 = some (other_player after_closing_move.cur_player) ∧
    board_ref after_removal.board 3 = some EMPTY ∧
    (∃ n, after_closing_move.player_pieces[other_player after_closing_move.cur_player - 1]?
        = some n ∧
      after_removal.player_pieces[other_player after_closing_move.cur_player - 1]?
        = some ((n + 255) % 256)) ∧
    after_removal.player_pieces[after_closing_move.cur_player - 1]?
      = after_closing_move.player_pieces[after_closing_move.cur_player - 1]? ∧
    (∀ j, j < BOARD_SIZE → j ≠ 3 →
      board_ref after_removal.board j = board_ref after_closing_move.board j) ∧
    after_removal.remove_state = false ∧
    after_removal.cur_player = other_player after_closing_move.cur_player :=
  C7_remove_piece_effect after_closing_move after_removal 3 (by decide) (by decide) (by decide)

/-- C8: mill-immunity.  On a well-formed state, for `pos < 24` holding a piece
of the opponent, `is_valid_remove` returns true if and only if `pos` lies in
no formed mill of the opponent or every piece of the opponent lies in some
formed mill of the opponent; `remove_piece` returns the same answer. -/
theorem C8_mill_immunity (s : GameState) (pos : Nat) (hs : s.well_formed)
    (hpos : pos < BOARD_SIZE)
    (hopp : board_ref s.board pos = some (other_player s.cur_player)) :
    is_valid_remove s pos = some (decide (
      ¬ in_formed_mill s.board (other_player s.cur_player) pos ∨
      ∀ j, j < BOARD_SIZE → board_ref s.board j = some (other_player s.cur_player) →
        in_formed_mill s.board (other_player s.cur_player) j)) ∧
    ∃ s2, remove_piece true s pos = some (decide (
      ¬ in_formed_mill s.board (other_player s.cur_player) pos ∨
      ∀ j, j < BOARD_SIZE → board_ref s.board j = some (other_player s.cur_player) →
        in_formed_mill s.board (other_player s.cur_player) j), s2) := by
  have hpos24 : pos < 24 := hpos
  have hp := well_formed_player hs
  have hb : s.board.typed := hs.1.2.2.2.2
  have hvalid := is_valid_remove_eq hb (well_formed_cells hs) hp hpos24
  obtain ⟨hno, hyes⟩ := remove_piece_run hs hpos24
  by_cases hv : ¬ in_formed_mill s.board (other_player s.cur_player) pos ∨
      ∀ j, j < BOARD_SIZE → board_ref s.board j = some (other_player s.cur_player) →
        in_formed_mill s.board (other_player s.cur_player) j
  · have hv2 : board_ref s.board pos = some (other_player s.cur_player) ∧
        ((∀ j, j < BOARD_SIZE → board_ref s.board j = some (other_player s.cur_player) →
            in_formed_mill s.board (other_player s.cur_player) j) ∨
          ¬ in_formed_mill s.board (other_player s.cur_player) pos) := ⟨hopp, hv.symm⟩
    rw [decide_eq_true hv2] at hvalid
    obtain ⟨b2, n, -, -, -, hrun⟩ := hyes hv2
    rw [decide_eq_true hv]
    exact ⟨hvalid, _, hrun⟩
  · have hv2 : ¬ (board_ref s.board pos = some (other_player s.cur_player) ∧
        ((∀ j, j < BOARD_SIZE → board_ref s.board j = some (other_player s.cur_player) →
            in_formed_mill s.board (other_player s.cur_player) j) ∨
          ¬ in_formed_mill s.board (other_player s.cur_player) pos)) :=
      fun h => hv h.2.symm
    rw [decide_eq_false hv2] at hvalid
    rw [decide_eq_false hv]
    exact ⟨hvalid, s, hno hv2 true⟩

/-- C8, witness: player 2 has the mill 3-4-5 and a further piece on cell 9;
the milled piece on cell 3 is refused. -/
theorem C8_mill_immunity_witness :
    is_valid_remove milled_and_free 3 = some (decide (
      ¬ in_formed_mill milled_and_free.board (other_player milled_and_free.cur_player) 3 ∨
      ∀ j, j < BOARD_SIZE →
        board_ref milled_and_free.board j = some (other_player milled_and_free.cur_player) →
        in_formed_mill milled_and_free.board (other_player milled_and_free.cur_player) j)) ∧
    ∃ s2, remove_piece true milled_and_free 3 = some (decide (
      ¬ in_formed_mill milled_and_free.board (other_player milled_and_free.cur_player) 3 ∨
      ∀ j, j < BOARD_SIZE →
        board_ref milled_and_free.board j = some (other_player milled_and_free.cur_player) →
        in_formed_mill milled_and_free.board (other_player milled_and_free.cur_player) j), s2) :=
  C8_mill_immunity milled_and_free 3 (by decide) (by decide) (by decide)

/-- C9: for every state and every position whose cell is `EMPTY` or holds a
piece of `cur_player` (so for every such `pos < 24`), `remove_piece` returns
false and the state it leaves is the input state, in either build of
`set_board_pos`. -/
theorem C9_remove_own_or_empty (have_x86_asm : Bool) (s : GameState) (pos : Nat)
    (hcell : board_ref s.board pos = some EMPTY ∨ board_ref s.board pos = some s.cur_player) :
    remove_piece have_x86_asm s pos = some (false, s) := by
  rcases hcell with h | h <;> simp [remove_piece, is_valid_remove, h]

/-- C9, witness: player 1 tries to remove the own piece on cell 0. -/
theorem C9_remove_own_or_empty_witness :
    remove_piece true after_closing_move 0 = some (false, after_closing_move) :=
  C9_remove_own_or_empty true after_closing_move 0 (by decide)

/-- C10, counterexample: `remove_state` is false, player 1 is to move, and the
piece of player 2 on cell 3 is in no mill; `remove_piece` returns true and
takes the piece. -/
theorem C10_remove_without_pending :
    two_in_a_row.well_formed ∧ two_in_a_row.remove_state = false ∧
    remove_piece true two_in_a_row 3 = some (true,
      { cur_player := 2, setup_rounds_left := 11, remove_state := false,
        player_pieces := [2, 1], board := [0x05, 0x02, 0, 0, 0, 0, 0, 0] }) := by
  decide

/-- C10, amended: `remove_piece` does not read `remove_state`.  On a
well-formed state with `remove_state` false and `pos < 24` it returns false,
leaving the state unchanged, when the cell is `EMPTY`, holds a piece of
`cur_player`, or holds a piece of the opponent that the mill-immunity rule
protects; when the cell holds a piece of the opponent that the rule allows, it
returns true and empties the cell, and `remove_state` is still false. -/
theorem C10_remove_ignores_remove_state (s : GameState) (pos : Nat) (hs : s.well_formed)
    (hpos : pos < BOARD_SIZE) (hpending : s.remove_state = false) :
    (¬ (board_ref s.board pos = some (other_player s.cur_player) ∧
        ((∀ j, j < BOARD_SIZE → board_ref s.board j = some (other_player s.cur_player) →
            in_formed_mill s.board (other_player s.cur_player) j) ∨
          ¬ in_formed_mill s.board (other_player s.cur_player) pos)) →
      remove_piece true s pos = some (false, s)) ∧
    ((board_ref s.board pos = some (other_player s.cur_player) ∧
        ((∀ j, j < BOARD_SIZE → board_ref s.board j = some (other_player s.cur_player) →
            in_formed_mill s.board (other_player s.cur_player) j) ∨
          ¬ in_formed_mill s.board (other_player s.cur_player) pos)) →
      ∃ s2, remove_piece true s pos = some (true, s2) ∧
        board_ref s2.board pos = some EMPTY ∧ s2.remove_state = s.remove_state) := by
  unfold BOARD_SIZE at hpos
  obtain ⟨hno, hyes⟩ := remove_piece_run hs hpos
  refine ⟨fun h => hno h true, fun h => ?_⟩
  obtain ⟨b2, n, hb2, hcells, -, hrun⟩ := hyes h
  refine ⟨_, hrun, ?_, hpending.symm⟩
  show board_ref b2 pos = some EMPTY
  rw [board_ref_eq_cell hb2.1 (by omega), hcells pos (by omega), if_pos rfl]

/-- C10, witness: the state of the counterexample, cell 3. -/
theorem C10_remove_ignores_remove_state_witness :
    (¬ (board_ref two_in_a_row.board 3 = some (other_player two_in_a_row.cur_player) ∧
        ((∀ j, j < BOARD_SIZE →
            board_ref two_in_a_row.board j = some (other_player two_in_a_row.cur_player) →
            in_formed_mill two_in_a_row.board (other_player two_in_a_row.cur_player) j) ∨
          ¬ in_formed_mill two_in_a_row.board (other_player two_in_a_row.cur_player) 3)) →
      remove_piece true two_in_a_row 3 = some (false, two_in_a_row)) ∧
    ((board_ref two_in_a_row.board 3 = some (other_player two_in_a_row.cur_player) ∧
        ((∀ j, j < BOARD_SIZE →
            board_ref two_in_a_row.board j = some (other_player two_in_a_row.cur_player) →
            in_formed_mill two_in_a_row.board (other_player two_in_a_row.cur_player) j) ∨
          ¬ in_formed_mill two_in_a_row.board (other_player two_in_a_row.cur_player) 3)) →
      ∃ s2, remove_piece true two_in_a_row 3 = some (true, s2) ∧
        board_ref s2.board 3 = some EMPTY ∧ s2.remove_state = two_in_a_row.remove_state) :=
  C10_remove_ignores_remove_state two_in_a_row 3 (by decide) (by decide) (by decide)

/-! ## The body of `set_board_pos` without `HAVE_X86_ASM` -/

/-- The `switch (bitpos)` of the portable body selects the rotated mask only
for `bitpos = 0`; for the cells 1, 2 and 3 of a byte it clears another cell. -/
theorem clear_mask_portable :
    clear_mask false 0 = clear_mask true 0 ∧ clear_mask false 2 ≠ clear_mask true 2 ∧
    clear_mask false 4 ≠ clear_mask true 4 ∧ clear_mask false 6 ≠ clear_mask true 6 := by
  decide

/-- With the portable body, the placement at cell 2 that closes the mill
0-1-2 in the other build empties cell 0 instead. -/
theorem place_piece_portable_clears_cell :
    place_piece false two_in_a_row 2 = some (true,
      { cur_player := 2, setup_rounds_left := 11, remove_state := false,
        player_pieces := [3, 2], board := [0x94, 0x02, 0, 0, 0, 0, 0, 0] }) := by
  decide

/-! ## Calls seen from their result -/

theorem init_game_state_eq {s0 : GameState} (hp : s0.player_pieces.length = NUM_PLAYERS)
    (hb : s0.board.length = MASK_SIZE) : init_game_state s0 = opening_state := by
  unfold init_game_state opening_state
  rw [List.drop_of_length_le (Nat.le_of_eq hp), List.drop_of_length_le (Nat.le_of_eq hb)]
  rfl

theorem place_piece_false {asm : Bool} {s s2 : GameState} {pos : Nat}
    (h : place_piece asm s pos = some (false, s2)) : s2 = s := by
  unfold place_piece is_valid_place at h
  cases hb : board_ref s.board pos with
  | none => simp [hb] at h
  | some c =>
    by_cases hc : c = EMPTY
    · simp [hb, hc, Option.bind_eq_some] at h
    · simp [hb, hc] at h
      exact h.symm

theorem place_piece_true {asm : Bool} {s s2 : GameState} {pos : Nat}
    (h : place_piece asm s pos = some (true, s2)) : board_ref s.board pos = some EMPTY := by
  unfold place_piece is_valid_place at h
  cases hb : board_ref s.board pos with
  | none => simp [hb] at h
  | some c =>
    by_cases hc : c = EMPTY
    · rw [hc]
    · simp [hb, hc] at h

theorem move_piece_false {asm : Bool} {s s2 : GameState} {src dest : Nat}
    (h : move_piece asm s src dest = some (false, s2)) : s2 = s := by
  unfold move_piece at h
  cases hv : is_valid_move s src dest with
  | none => simp [hv] at h
  | some ok =>
    cases ok
    · simp [hv] at h
      exact h.symm
    · simp [hv, Option.bind_eq_some] at h

theorem move_piece_true {asm : Bool} {s s2 : GameState} {src dest : Nat}
    (h : move_piece asm s src dest = some (true, s2)) :
    are_adjacent src dest = some true ∧ board_ref s.board src = some s.cur_player ∧
    board_ref s.board dest = some EMPTY := by
  unfold move_piece at h
  cases hv : is_valid_move s src dest with
  | none => simp [hv] at h
  | some ok =>
    cases ok
    · simp [hv] at h
    · unfold is_valid_move at hv
      cases ha : are_adjacent src dest with
      | none => simp [ha] at hv
      | some a =>
        cases a
        · simp [ha] at hv
        · cases h1 : board_ref s.board src with
          | none => simp [ha, h1] at hv
          | some c =>
            by_cases hc : c = s.cur_player
            · cases h2 : board_ref s.board dest with
              | none => simp [ha, h1, hc, h2] at hv
              | some d =>
                by_cases hd : d = EMPTY
                · exact ⟨rfl, by rw [hc], by rw [hd]⟩
                · simp [ha, h1, hc, h2, hd] at hv
            · simp [ha, h1, hc] at hv

theorem remove_piece_false {asm : Bool} {s s2 : GameState} {pos : Nat}
    (h : remove_piece asm s pos = some (false, s2)) : s2 = s := by
  unfold remove_piece at h
  cases hv : is_valid_remove s pos with
  | none => simp [hv] at h
  | some ok =>
    cases ok
    · simp [hv] at h
      exact h.symm
    · simp [hv, Option.bind_eq_some] at h

theorem remove_piece_true {asm : Bool} {s s2 : GameState} {pos : Nat}
    (h : remove_piece asm s pos = some (true, s2)) :
    ∃ c, board_ref s.board pos = some c ∧ c ≠ EMPTY ∧ c ≠ s.cur_player := by
  unfold remove_piece at h
  cases hv : is_valid_remove s pos with
  | none => simp [hv] at h
  | some ok =>
    cases ok
    · simp [hv] at h
    · unfold is_valid_remove at hv
      cases h1 : board_ref s.board pos with
      | none => simp [h1] at hv
      | some c =>
        by_cases hc : c = EMPTY ∨ c = s.cur_player
        · simp [h1, hc] at hv
        · exact ⟨c, rfl, fun h => hc (Or.inl h), fun h => hc (Or.inr h)⟩

/-! ## Counting cells -/

theorem countP_range_update (f g : Nat → Bool) (pos : Nat) :
    ∀ n, (∀ j, j < n → j ≠ pos → g j = f j) →
      (List.range n).countP g + (if pos < n ∧ f pos = true then 1 else 0)
        = (List.range n).countP f + (if pos < n ∧ g pos = true then 1 else 0) := by
  intro n
  induction n with
  | zero => intro _; simp
  | succ n ih =>
    intro h
    have ih2 := ih (fun j hj hne => h j (by omega) hne)
    rw [List.range_succ, List.countP_append, List.countP_append, List.countP_singleton,
      List.countP_singleton]
    by_cases hpn : pos = n
    · subst hpn
      have e1 : ¬ (pos < pos ∧ f pos = true) := fun h => by omega
      have e2 : ¬ (pos < pos ∧ g pos = true) := fun h => by omega
      rw [if_neg e1, if_neg e2] at ih2
      by_cases hf : f pos = true <;> by_cases hg : g pos = true <;> simp [hf, hg] <;> omega
    · have hgn : g n = f n := h n (by omega) (fun e => hpn e.symm)
      rw [hgn]
      by_cases hlt : pos < n
      · have hlt2 : pos < n + 1 := by omega
        simp only [hlt, hlt2, true_and] at ih2 ⊢
        omega
      · have hlt2 : ¬ pos < n + 1 := by omega
        simp only [hlt, hlt2, false_and, if_false] at ih2 ⊢
        omega

theorem count_cells_eq {b : Board} (hl : b.length = MASK_SIZE) (p : Nat) :
    count_cells b p = (List.range 24).countP (fun i => decide (cell b i = p)) := by
  unfold count_cells BOARD_SIZE
  apply List.countP_congr
  intro i hi
  have hi24 : i < 24 := List.mem_range.mp hi
  rw [board_ref_eq_cell hl (by omega)]
  simp

theorem count_cells_le (b : Board) (p : Nat) : count_cells b p ≤ 24 := by
  unfold count_cells BOARD_SIZE
  have := List.countP_le_length (p := fun i => decide (board_ref b i = some p))
    (l := List.range 24)
  simpa using this

/-- The count of player `p` after one cell has been overwritten. -/
theorem count_cells_update {b b2 : Board} (hl : b.length = MASK_SIZE)
    (hl2 : b2.length = MASK_SIZE) {pos v : Nat} (hpos : pos < 24)
    (hcells : ∀ j, j < 32 → cell b2 j = if j = pos then v else cell b j) (p : Nat) :
    count_cells b2 p + (if cell b pos = p then 1 else 0)
      = count_cells b p + (if v = p then 1 else 0) := by
  rw [count_cells_eq hl, count_cells_eq hl2]
  have h := countP_range_update (fun i => decide (cell b i = p))
    (fun i => decide (cell b2 i = p)) pos 24 (by
      intro j hj hne
      show decide (cell b2 j = p) = decide (cell b j = p)
      rw [hcells j (by omega), if_neg hne])
  have hv : cell b2 pos = v := by rw [hcells pos (by omega), if_pos rfl]
  simp only [hpos, true_and, decide_eq_true_eq, hv] at h
  exact h

/-! ## Calls outside the board -/

theorem board_ref_some_lt {b : Board} (hl : b.length = MASK_SIZE) {i c : Nat}
    (h : board_ref b i = some c) : i < 32 := by
  by_contra hge
  have hn : b[i / 4]? = none := by
    apply List.getElem?_eq_none
    rw [hl]; unfold MASK_SIZE; omega
  simp [board_ref, hn] at h

theorem is_mill_formed_out_of_range {s : GameState}
    (hp : s.cur_player = 1 ∨ s.cur_player = 2) {pos : Nat} (hpos : 24 ≤ pos)
    (hown : board_ref s.board pos = some s.cur_player) : is_mill_formed s pos = none := by
  obtain ⟨hch, -, ⟨pm, hpm⟩, -⟩ := choices_spec hp
  have hn : mill_from_pos[pos * 3]? = none := by
    apply List.getElem?_eq_none
    have : mill_from_pos.length = 72 := rfl
    omega
  unfold is_mill_formed
  simp only [hown, hch, hpm, show List.range 3 = [0, 1, 2] from rfl, List.foldlM_cons,
    Nat.add_zero, hn, Option.bind_eq_bind, Option.some_bind, Option.none_bind, Option.pure_def,
    ne_eq, not_true_eq_false, if_false]

set_option maxRecDepth 100000 in
theorem adjacent_in_range : ∀ a, a < 24 → ∀ b, b < 32 → are_adjacent a b = some true → b < 24 := by
  decide

theorem consistent_cell_lt {s : GameState} (hs : s.consistent) {i c : Nat}
    (h : board_ref s.board i = some c) (hc : c ≠ 0) : i < 24 := by
  have hl : s.board.length = MASK_SIZE := hs.1.1.2.2.2.2.1
  have hi := board_ref_some_lt hl h
  by_contra hge
  rw [board_ref_eq_cell hl hi, hs.2.1 i (by omega) hi] at h
  exact hc (Option.some.inj h).symm

theorem place_piece_in_range {s s2 : GameState} (hs : s.consistent) {pos : Nat}
    (h : place_piece true s pos = some (true, s2)) : pos < 24 := by
  have he := place_piece_true h
  have hp := well_formed_player hs.1
  have hb : s.board.typed := hs.1.1.2.2.2.2
  have hi := board_ref_some_lt hb.1 he
  by_contra hge
  obtain ⟨b2, hset, hb2, hcells⟩ := set_board_pos_cells hb hi (show s.cur_player < 4 by omega)
  obtain ⟨n, hn⟩ := well_formed_pieces hs.1 hp
  have hown : board_ref b2 pos = some s.cur_player := by
    rw [board_ref_eq_cell hb2.1 hi, hcells pos hi, if_pos rfl]
  have hmill := is_mill_formed_out_of_range
    (s := { s with board := b2,
                   player_pieces := s.player_pieces.set (s.cur_player - 1) ((n + 1) % 256) })
    hp (Nat.le_of_not_lt hge) hown
  have hp0 : s.cur_player ≠ 0 := by omega
  simp [place_piece, is_valid_place, he, hset, bump_pieces, hp0, hn, hmill] at h

theorem move_piece_in_range {s s2 : GameState} (hs : s.consistent) {src dest : Nat}
    (h : move_piece true s src dest = some (true, s2)) : src < 24 ∧ dest < 24 := by
  obtain ⟨hadj, hown, hemp⟩ := move_piece_true h
  have hp := well_formed_player hs.1
  have hsrc : src < 24 := consistent_cell_lt hs hown (by omega)
  exact ⟨hsrc, adjacent_in_range src hsrc dest
    (board_ref_some_lt hs.1.1.2.2.2.2.1 hemp) hadj⟩

theorem remove_piece_in_range {s s2 : GameState} (hs : s.consistent) {pos : Nat}
    (h : remove_piece true s pos = some (true, s2)) : pos < 24 := by
  obtain ⟨c, hc, hne, -⟩ := remove_piece_true h
  exact consistent_cell_lt hs hc hne

/-! ## The invariant of play is kept -/

theorem mk_consistent {s : GameState} (hcur : s.cur_player = 1 ∨ s.cur_player = 2)
    (hsetup : s.setup_rounds_left < 256) (hb : s.board.typed)
    (hc : ∀ i, i < 24 → cell s.board i < 3)
    (hpad : ∀ j, 24 ≤ j → j < 32 → cell s.board j = 0)
    (hcnt : s.player_pieces = [count_cells s.board PLAYER1, count_cells s.board PLAYER2]) :
    s.consistent := by
  refine ⟨⟨⟨by omega, hsetup, by rw [hcnt]; rfl, ?_, hb⟩, hcur, ?_⟩, hpad, hcnt⟩
  · intro x hx
    rw [hcnt] at hx
    have h1 := count_cells_le s.board PLAYER1
    have h2 := count_cells_le s.board PLAYER2
    simp only [List.mem_cons, List.mem_singleton, List.not_mem_nil, or_false] at hx
    rcases hx with rfl | rfl <;> omega
  · intro i hi
    unfold BOARD_SIZE at hi
    rw [board_ref_eq_cell hb.1 (by omega)]
    have := hc i hi
    unfold EMPTY PLAYER1 PLAYER2
    have h3 : cell s.board i = 0 ∨ cell s.board i = 1 ∨ cell s.board i = 2 := by omega
    rcases h3 with h | h | h <;> simp [h]

theorem finish_turn_cur (s : GameState) (mill : Bool)
    (hp : s.cur_player = 1 ∨ s.cur_player = 2) :
    (finish_turn s mill).cur_player = 1 ∨ (finish_turn s mill).cur_player = 2 := by
  cases mill
  · rw [finish_turn_false_cur s hp]
    exact (other_player_spec hp).1
  · exact hp

theorem finish_turn_setup (s : GameState) (mill : Bool) :
    (finish_turn s mill).setup_rounds_left = s.setup_rounds_left := by
  cases mill <;> rfl

theorem consistent_pieces {s : GameState} (hs : s.consistent) :
    s.player_pieces = [count_cells s.board PLAYER1, count_cells s.board PLAYER2] := hs.2.2

theorem place_piece_consistent {s s2 : GameState} (hs : s.consistent) {pos : Nat}
    (h : place_piece true s pos = some (true, s2)) : s2.consistent := by
  have hpos := place_piece_in_range hs h
  have he := place_piece_true h
  have hp := well_formed_player hs.1
  have hb : s.board.typed := hs.1.1.2.2.2.2
  obtain ⟨b2, n, hb2, hcells, hn, hrun⟩ := place_piece_run hs.1 hpos he
  rw [hrun] at h
  have hs2 := (Prod.mk.inj (Option.some.inj h)).2
  have hcell0 : cell s.board pos = 0 := by
    rw [board_ref_eq_cell hb.1 (by omega)] at he
    exact Option.some.inj he
  have hu1 := count_cells_update hb.1 hb2.1 hpos hcells PLAYER1
  have hu2 := count_cells_update hb.1 hb2.1 hpos hcells PLAYER2
  have hl1 := count_cells_le b2 PLAYER1
  have hl2 := count_cells_le b2 PLAYER2
  rw [hcell0] at hu1 hu2
  rw [← hs2]
  apply mk_consistent
  · exact finish_turn_cur _ _ hp
  · rw [finish_turn_setup]; exact hs.1.1.2.1
  · rw [finish_turn_board]; exact hb2
  · rw [finish_turn_board]
    intro i hi
    show cell b2 i < 3
    rw [hcells i (by omega)]
    split
    · omega
    · exact well_formed_cells hs.1 i hi
  · rw [finish_turn_board]
    intro j h1 h2
    show cell b2 j = 0
    rw [hcells j h2, if_neg (by omega)]
    exact hs.2.1 j h1 h2
  · rw [finish_turn_board, finish_turn_pieces]
    show s.player_pieces.set (s.cur_player - 1) ((n + 1) % 256)
      = [count_cells b2 PLAYER1, count_cells b2 PLAYER2]
    rw [consistent_pieces hs] at hn ⊢
    unfold PLAYER1 PLAYER2 at *
    rcases hp with hp | hp
    · rw [hp] at hn hu1 hu2 ⊢
      simp at hn hu1 hu2
      simp
      omega
    · rw [hp] at hn hu1 hu2 ⊢
      simp at hn hu1 hu2
      simp
      omega

theorem move_piece_consistent {s s2 : GameState} (hs : s.consistent) {src dest : Nat}
    (h : move_piece true s src dest = some (true, s2)) : s2.consistent := by
  obtain ⟨hsrc, hdest⟩ := move_piece_in_range hs h
  obtain ⟨hadj, hown, hemp⟩ := move_piece_true h
  have hp := well_formed_player hs.1
  have hb : s.board.typed := hs.1.1.2.2.2.2
  obtain ⟨b2, hb2, hcells, hrun⟩ := move_piece_run hs.1 hsrc hdest hadj hown hemp
  rw [hrun] at h
  have hs2 := (Prod.mk.inj (Option.some.inj h)).2
  obtain ⟨b1, -, hb1, hcells1⟩ := set_board_pos_cells hb (show src < 32 by omega)
    (show EMPTY < 4 by decide)
  have hne : src ≠ dest := by
    intro e
    rw [e, hemp] at hown
    have := Option.some.inj hown
    unfold EMPTY at this
    omega
  have hcells21 : ∀ j, j < 32 → cell b2 j = if j = dest then s.cur_player else cell b1 j := by
    intro j hj
    rw [hcells j hj, hcells1 j hj]
  have hcsrc : cell s.board src = s.cur_player := by
    rw [board_ref_eq_cell hb.1 (by omega)] at hown
    exact Option.some.inj hown
  have hcdest : cell b1 dest = 0 := by
    rw [hcells1 dest (by omega), if_neg (Ne.symm hne)]
    rw [board_ref_eq_cell hb.1 (by omega)] at hemp
    exact Option.some.inj hemp
  have hu1 := count_cells_update hb.1 hb1.1 hsrc hcells1 PLAYER1
  have hu2 := count_cells_update hb.1 hb1.1 hsrc hcells1 PLAYER2
  have hv1 := count_cells_update hb1.1 hb2.1 hdest hcells21 PLAYER1
  have hv2 := count_cells_update hb1.1 hb2.1 hdest hcells21 PLAYER2
  rw [hcsrc] at hu1 hu2
  rw [hcdest] at hv1 hv2
  rw [← hs2]
  apply mk_consistent
  · exact finish_turn_cur _ _ hp
  · rw [finish_turn_setup]; exact hs.1.1.2.1
  · rw [finish_turn_board]; exact hb2
  · rw [finish_turn_board]
    intro i hi
    show cell b2 i < 3
    rw [hcells i (by omega)]
    split
    · omega
    · split
      · decide
      · exact well_formed_cells hs.1 i hi
  · rw [finish_turn_board]
    intro j h1 h2
    show cell b2 j = 0
    rw [hcells j h2, if_neg (by omega), if_neg (by omega)]
    exact hs.2.1 j h1 h2
  · rw [finish_turn_board, finish_turn_pieces]
    show s.player_pieces = [count_cells b2 PLAYER1, count_cells b2 PLAYER2]
    rw [consistent_pieces hs]
    unfold PLAYER1 PLAYER2 EMPTY at *
    rcases hp with hp | hp
    · rw [hp] at hu1 hu2 hv1 hv2
      simp at hu1 hu2 hv1 hv2
      simp
      omega
    · rw [hp] at hu1 hu2 hv1 hv2
      simp at hu1 hu2 hv1 hv2
      simp
      omega

theorem remove_piece_consistent {s s2 : GameState} (hs : s.consistent) {pos : Nat}
    (h : remove_piece true s pos = some (true, s2)) : s2.consistent := by
  have hpos := remove_piece_in_range hs h
  have hp := well_formed_player hs.1
  have hb : s.board.typed := hs.1.1.2.2.2.2
  obtain ⟨hop, hne, hne0⟩ := other_player_spec hp
  obtain ⟨hno, hyes⟩ := remove_piece_run hs.1 hpos
  by_cases hv : board_ref s.board pos = some (other_player s.cur_player) ∧
      ((∀ j, j < BOARD_SIZE → board_ref s.board j = some (other_player s.cur_player) →
          in_formed_mill s.board (other_player s.cur_player) j) ∨
        ¬ in_formed_mill s.board (other_player s.cur_player) pos)
  swap
  · rw [hno hv true] at h
    simp at h
  obtain ⟨b2, n, hb2, hcells, hn, hrun⟩ := hyes hv
  rw [hrun] at h
  have hs2 := (Prod.mk.inj (Option.some.inj h)).2
  have hcpos : cell s.board pos = other_player s.cur_player := by
    have := hv.1
    rw [board_ref_eq_cell hb.1 (by omega)] at this
    exact Option.some.inj this
  have hu1 := count_cells_update hb.1 hb2.1 hpos hcells PLAYER1
  have hu2 := count_cells_update hb.1 hb2.1 hpos hcells PLAYER2
  have hl1 := count_cells_le s.board PLAYER1
  have hl2 := count_cells_le s.board PLAYER2
  rw [hcpos] at hu1 hu2
  rw [← hs2]
  apply mk_consistent
  · show (next_player _).cur_player = 1 ∨ (next_player _).cur_player = 2
    rw [next_player_cur (by exact hp)]
    exact hop
  · exact hs.1.1.2.1
  · exact hb2
  · intro i hi
    show cell b2 i < 3
    rw [hcells i (by omega)]
    split
    · decide
    · exact well_formed_cells hs.1 i hi
  · intro j h1 h2
    show cell b2 j = 0
    rw [hcells j h2, if_neg (by omega)]
    exact hs.2.1 j h1 h2
  · show s.player_pieces.set (other_player s.cur_player - 1) ((n + 255) % 256)
      = [count_cells b2 PLAYER1, count_cells b2 PLAYER2]
    rw [consistent_pieces hs] at hn ⊢
    unfold other_player PLAYER1 PLAYER2 EMPTY at *
    rcases hp with hp | hp
    · rw [hp] at hn hu1 hu2 ⊢
      simp at hn hu1 hu2
      simp
      omega
    · rw [hp] at hn hu1 hu2 ⊢
      simp at hn hu1 hu2
      simp
      omega

/-- One call, whatever its arguments and its result, keeps the invariant. -/
theorem apply_call_consistent {s s2 : GameState} (hs : s.consistent) {c : Call} {ok : Bool}
    (h : apply_call true s c = some (ok, s2)) : s2.consistent := by
  cases c with
  | place pos =>
    cases ok
    · rw [place_piece_false h]; exact hs
    · exact place_piece_consistent hs h
  | move src dest =>
    cases ok
    · rw [move_piece_false h]; exact hs
    · exact move_piece_consistent hs h
  | remove pos =>
    cases ok
    · rw [remove_piece_false h]; exact hs
    · exact remove_piece_consistent hs h

theorem run_calls_consistent : ∀ (calls : List Call) (s s2 : GameState), s.consistent →
    run_calls true s calls = some s2 → s2.consistent := by
  intro calls
  induction calls with
  | nil =>
    intro s s2 hs h
    simp only [run_calls, Option.some.injEq] at h
    rw [← h]; exact hs
  | cons c cs ih =>
    intro s s2 hs h
    unfold run_calls at h
    cases hc : apply_call true s c with
    | none => simp [hc] at h
    | some r =>
      rw [hc] at h
      obtain ⟨ok, s1⟩ := r
      exact ih s1 s2 (apply_call_consistent hs hc) h

theorem opening_state_consistent : opening_state.consistent := by
  decide

/-- Every state that a sequence of calls reaches from the state of a new game
satisfies the invariant of play. -/
theorem reached_consistent {calls : List Call} {s : GameState}
    (h : run_calls true opening_state calls = some s) : s.consistent :=
  run_calls_consistent calls _ _ opening_state_consistent h

/-! ## Calls on the states of play -/

theorem finish_turn_remove_state (s : GameState) (mill : Bool) :
    (finish_turn s mill).remove_state = if mill then true else s.remove_state := by
  cases mill <;> rfl

/-- A successful placement or move: the mill test on the new board decides
between `remove_state = true` and the turn of the other player. -/
theorem write_call_step {s s2 : GameState} (hs : s.consistent) {c : Call} {pos : Nat}
    (ht : c.target = some pos) (h : apply_call true s c = some (true, s2)) :
    (in_formed_mill s2.board s.cur_player pos →
      s2.remove_state = true ∧ s2.cur_player = s.cur_player) ∧
    (¬ in_formed_mill s2.board s.cur_player pos →
      s2.remove_state = s.remove_state ∧ s2.cur_player = other_player s.cur_player) := by
  have hp := well_formed_player hs.1
  have key : ∀ (st : GameState), st.cur_player = s.cur_player →
      st.remove_state = s.remove_state →
      s2 = finish_turn st (decide (in_formed_mill st.board s.cur_player pos)) →
      (in_formed_mill s2.board s.cur_player pos →
        s2.remove_state = true ∧ s2.cur_player = s.cur_player) ∧
      (¬ in_formed_mill s2.board s.cur_player pos →
        s2.remove_state = s.remove_state ∧ s2.cur_player = other_player s.cur_player) := by
    intro st hcur hrem hs2
    have hboard : s2.board = st.board := by rw [hs2, finish_turn_board]
    rw [hboard]
    constructor
    · intro hm
      rw [decide_eq_true hm] at hs2
      rw [hs2]
      exact ⟨rfl, hcur⟩
    · intro hm
      rw [decide_eq_false hm] at hs2
      rw [hs2]
      refine ⟨hrem, ?_⟩
      rw [finish_turn_false_cur st (by rw [hcur]; exact hp), hcur]
  cases c with
  | place p =>
    have hpp : p = pos := Option.some.inj ht
    subst hpp
    have h2 : place_piece true s p = some (true, s2) := h
    obtain ⟨b2, n, -, -, -, hrun⟩ := place_piece_run hs.1 (place_piece_in_range hs h2)
      (place_piece_true h2)
    rw [hrun] at h2
    exact key { s with board := b2
                       player_pieces := s.player_pieces.set (s.cur_player - 1) ((n + 1) % 256) }
      rfl rfl (Prod.mk.inj (Option.some.inj h2)).2.symm
  | move src dest =>
    have hpp : dest = pos := Option.some.inj ht
    subst hpp
    have h2 : move_piece true s src dest = some (true, s2) := h
    obtain ⟨hsrc, hdest⟩ := move_piece_in_range hs h2
    obtain ⟨hadj, hown, hemp⟩ := move_piece_true h2
    obtain ⟨b2, -, -, hrun⟩ := move_piece_run hs.1 hsrc hdest hadj hown hemp
    rw [hrun] at h2
    exact key { s with board := b2 } rfl rfl (Prod.mk.inj (Option.some.inj h2)).2.symm
  | remove p => cases ht

/-- A successful removal clears `remove_state` and passes the turn. -/
theorem remove_call_step {s s2 : GameState} (hs : s.consistent) {pos : Nat}
    (h : remove_piece true s pos = some (true, s2)) :
    s2.remove_state = false ∧ s2.cur_player = other_player s.cur_player ∧
    board_ref s.board pos = some (other_player s.cur_player) ∧
    ∃ n, s.player_pieces[other_player s.cur_player - 1]? = some n ∧
      s2.player_pieces = s.player_pieces.set (other_player s.cur_player - 1) ((n + 255) % 256) := by
  have hpos := remove_piece_in_range hs h
  have hp := well_formed_player hs.1
  obtain ⟨hno, hyes⟩ := remove_piece_run hs.1 hpos
  by_cases hv : board_ref s.board pos = some (other_player s.cur_player) ∧
      ((∀ j, j < BOARD_SIZE → board_ref s.board j = some (other_player s.cur_player) →
          in_formed_mill s.board (other_player s.cur_player) j) ∨
        ¬ in_formed_mill s.board (other_player s.cur_player) pos)
  swap
  · rw [hno hv true] at h
    simp at h
  obtain ⟨b2, n, -, -, hn, hrun⟩ := hyes hv
  rw [hrun] at h
  have hs2 := (Prod.mk.inj (Option.some.inj h)).2
  rw [← hs2]
  exact ⟨rfl, next_player_cur hp, hv.1, n, hn, rfl⟩

theorem apply_call_false {s s2 : GameState} {c : Call} {asm : Bool}
    (h : apply_call asm s c = some (false, s2)) : s2 = s := by
  cases c with
  | place pos => exact place_piece_false h
  | move src dest => exact move_piece_false h
  | remove pos => exact remove_piece_false h

/-- A call whose positions are on the board returns. -/
theorem apply_call_defined {s : GameState} (hs : s.consistent) {c : Call} (hc : c.in_range) :
    ∃ ok s2, apply_call true s c = some (ok, s2) := by
  have hb : s.board.typed := hs.1.1.2.2.2.2
  cases c with
  | place pos =>
    have hpos : pos < 24 := hc
    by_cases he : board_ref s.board pos = some EMPTY
    · obtain ⟨b2, n, -, -, -, hrun⟩ := place_piece_run hs.1 hpos he
      exact ⟨true, _, hrun⟩
    · refine ⟨false, s, ?_⟩
      rw [board_ref_eq_cell hb.1 (by omega)] at he
      have hne : cell s.board pos ≠ EMPTY := fun h => he (by rw [h])
      simp [apply_call, place_piece, is_valid_place,
        board_ref_eq_cell hb.1 (show pos < 32 by omega), hne]
  | move src dest =>
    have hsrc : src < 24 := hc.1
    have hdest : dest < 24 := hc.2
    have hvalid := is_valid_move_eq (s := s) hb.1 hsrc hdest
    by_cases hv : are_adjacent src dest = some true ∧
        board_ref s.board src = some s.cur_player ∧ board_ref s.board dest = some EMPTY
    · obtain ⟨b2, -, -, hrun⟩ := move_piece_run hs.1 hsrc hdest hv.1 hv.2.1 hv.2.2
      exact ⟨true, _, hrun⟩
    · rw [decide_eq_false hv] at hvalid
      exact ⟨false, s, by simp [apply_call, move_piece, hvalid]⟩
  | remove pos =>
    have hpos : pos < 24 := hc
    obtain ⟨hno, hyes⟩ := remove_piece_run hs.1 hpos
    by_cases hv : board_ref s.board pos = some (other_player s.cur_player) ∧
        ((∀ j, j < BOARD_SIZE → board_ref s.board j = some (other_player s.cur_player) →
            in_formed_mill s.board (other_player s.cur_player) j) ∨
          ¬ in_formed_mill s.board (other_player s.cur_player) pos)
    · obtain ⟨b2, n, -, -, -, hrun⟩ := hyes hv
      exact ⟨true, _, hrun⟩
    · exact ⟨false, s, hno hv true⟩

theorem run_calls_defined : ∀ (calls : List Call) (s : GameState), s.consistent →
    (∀ c, c ∈ calls → c.in_range) → ∃ s2, run_calls true s calls = some s2 := by
  intro calls
  induction calls with
  | nil => intro s _ _; exact ⟨s, rfl⟩
  | cons c cs ih =>
    intro s hs hr
    obtain ⟨ok, s1, h1⟩ := apply_call_defined hs (hr c (List.mem_cons_self _ _))
    obtain ⟨s2, h2⟩ := ih s1 (apply_call_consistent hs h1)
      (fun x hx => hr x (List.mem_cons_of_mem _ hx))
    exact ⟨s2, by simp [run_calls, h1, h2]⟩

theorem run_owed_state : ∀ (calls : List Call) (s s2 : GameState) (owed owed2 : Bool),
    s.consistent → s.remove_state = owed →
    run_owed true s owed calls = some (s2, owed2) →
    s2.consistent ∧ s2.remove_state = owed2 := by
  intro calls
  induction calls with
  | nil =>
    intro s s2 owed owed2 hs ho h
    simp only [run_owed, Option.some.injEq, Prod.mk.injEq] at h
    rw [← h.1, ← h.2]
    exact ⟨hs, ho⟩
  | cons c cs ih =>
    intro s s2 owed owed2 hs ho h
    unfold run_owed at h
    cases hc : apply_call true s c with
    | none => simp [hc] at h
    | some r =>
      rw [hc] at h
      obtain ⟨ok, s1⟩ := r
      refine ih s1 s2 _ owed2 (apply_call_consistent hs hc) ?_ h
      show s1.remove_state = owed_after owed s c ok s1
      unfold owed_after
      cases ok
      · rw [apply_call_false hc]
        simpa using ho
      · cases ht : c.target with
        | none =>
          cases c with
          | place p => cases ht
          | move a b => cases ht
          | remove p => simpa using (remove_call_step hs hc).1
        | some pos =>
          have hstep := write_call_step hs ht hc
          by_cases hm : in_formed_mill s1.board s.cur_player pos
          · simpa [hm] using (hstep.1 hm).1
          · simp only [hm, if_false, if_true]
            rw [(hstep.2 hm).1, ho]

/-! ## A mill needs three pieces -/

theorem mill_cells_length : ∀ m, m < 20 →
    ((List.range 24).filter (fun j => mill_contains m j)).length = 3 := by
  decide

theorem mill_needs_three {b : Board} {p m : Nat} (hm : m < 20) (hf : mill_formed_by b p m) :
    3 ≤ count_cells b p := by
  unfold count_cells BOARD_SIZE
  have hsub : List.Sublist ((List.range 24).filter (fun j => mill_contains m j))
      (List.range 24) := List.filter_sublist _
  have hle := hsub.countP_le (fun i => decide (board_ref b i = some p))
  have hall : ((List.range 24).filter (fun j => mill_contains m j)).countP
      (fun i => decide (board_ref b i = some p))
      = ((List.range 24).filter (fun j => mill_contains m j)).length := by
    rw [List.countP_eq_length]
    intro j hj
    obtain ⟨hj1, hj2⟩ := List.mem_filter.mp hj
    simpa using hf j (List.mem_range.mp hj1) hj2
  rw [hall, mill_cells_length m hm] at hle
  exact hle

theorem no_mill_under_three {b : Board} {p pos : Nat} (h : count_cells b p < 3) :
    ¬ in_formed_mill b p pos := by
  rintro ⟨m, hm, -, hf⟩
  have := mill_needs_three hm hf
  omega

/-- A placement on an empty cell of a state of play: the call succeeds, the
invariant is kept, and the cells and the cell counts change as stated. -/
theorem place_piece_play {s : GameState} (hs : s.consistent) {pos : Nat} (hpos : pos < 24)
    (he : board_ref s.board pos = some EMPTY) :
    ∃ s2, place_piece true s pos = some (true, s2) ∧ s2.consistent ∧
      (∀ j, j < 24 → board_ref s2.board j
        = if j = pos then some s.cur_player else board_ref s.board j) ∧
      (∀ p, p ≠ 0 → count_cells s2.board p
        = count_cells s.board p + if s.cur_player = p then 1 else 0) := by
  have hb : s.board.typed := hs.1.1.2.2.2.2
  obtain ⟨b2, n, hb2, hcells, hn, hrun⟩ := place_piece_run hs.1 hpos he
  have hcons := place_piece_consistent hs hrun
  refine ⟨_, hrun, hcons, ?_, ?_⟩
  · intro j hj
    rw [finish_turn_board]
    show board_ref b2 j = _
    rw [board_ref_eq_cell hb2.1 (by omega), board_ref_eq_cell hb.1 (by omega),
      hcells j (by omega)]
    split <;> rfl
  · intro p hp0
    rw [finish_turn_board]
    show count_cells b2 p = _
    have hu := count_cells_update hb.1 hb2.1 hpos hcells p
    have hcell0 : cell s.board pos = 0 := by
      rw [board_ref_eq_cell hb.1 (by omega)] at he
      exact Option.some.inj he
    rw [hcell0, if_neg (Ne.symm hp0)] at hu
    omega

/-- A placement by a player who has fewer than two pieces on the board forms
no mill: `remove_state` keeps its value and the turn passes. -/
theorem place_piece_quiet {s : GameState} (hs : s.consistent) {pos : Nat} (hpos : pos < 24)
    (he : board_ref s.board pos = some EMPTY)
    (hfew : count_cells s.board s.cur_player < 2) :
    ∃ s2, place_piece true s pos = some (true, s2) ∧ s2.consistent ∧
      (∀ j, j < 24 → board_ref s2.board j
        = if j = pos then some s.cur_player else board_ref s.board j) ∧
      (∀ p, p ≠ 0 → count_cells s2.board p
        = count_cells s.board p + if s.cur_player = p then 1 else 0) ∧
      s2.remove_state = s.remove_state ∧ s2.cur_player = other_player s.cur_player := by
  obtain ⟨s2, hrun, hcons, hcells, hcount⟩ := place_piece_play hs hpos he
  have hp := well_formed_player hs.1
  have hstep := write_call_step hs (c := Call.place pos) rfl hrun
  have hno : ¬ in_formed_mill s2.board s.cur_player pos := by
    apply no_mill_under_three
    rw [hcount s.cur_player (by omega), if_pos rfl]
    omega
  exact ⟨s2, hrun, hcons, hcells, hcount, hstep.2 hno⟩

theorem first_mill_cells : ∀ j, j < 24 → mill_contains 0 j = true → j = 0 ∨ j = 1 ∨ j = 2 := by
  decide

theorem opening_state_empty : ∀ j, j < 24 → board_ref opening_state.board j = some EMPTY := by
  decide

/-- The scenario of a quick mill from the state of a new game, for every
pair of answers of player 2. -/
theorem quick_mill_scenario_all (y1 y2 : Nat) (h1b : y1 < 24) (h2b : y2 < 24) (h1 : 3 ≤ y1)
    (h2 : 3 ≤ y2) (hne : y1 ≠ y2) : quick_mill_scenario opening_state y1 y2 := by
  have hcur0 : opening_state.cur_player = 1 := rfl
  have hrs0 : opening_state.remove_state = false := rfl
  have k01 : count_cells opening_state.board 1 = 0 := by decide
  have k02 : count_cells opening_state.board 2 = 0 := by decide
  have e12 : other_player 1 = 2 := rfl
  have e21 : other_player 2 = 1 := rfl
  -- place 0
  obtain ⟨s1, r1, hs1, hc1, hk1, hrs1, hcur1⟩ := place_piece_quiet opening_state_consistent
    (show 0 < 24 by decide) (opening_state_empty 0 (by decide)) (by rw [hcur0, k01]; decide)
  rw [hcur0] at hc1 hk1
  rw [hcur0, e12] at hcur1
  rw [hrs0] at hrs1
  have k11 : count_cells s1.board 1 = 1 := by rw [hk1 1 (by decide), k01]; rfl
  have k12 : count_cells s1.board 2 = 0 := by rw [hk1 2 (by decide), k02]; rfl
  -- place y1
  have he1 : board_ref s1.board y1 = some EMPTY := by
    rw [hc1 y1 h1b, if_neg (by omega)]; exact opening_state_empty y1 h1b
  obtain ⟨s2, r2, hs2, hc2, hk2, hrs2, hcur2⟩ := place_piece_quiet hs1 h1b he1
    (by rw [hcur1, k12]; decide)
  rw [hcur1] at hc2 hk2
  rw [hcur1, e21] at hcur2
  rw [hrs1] at hrs2
  have k21 : count_cells s2.board 1 = 1 := by rw [hk2 1 (by decide), k11]; rfl
  have k22 : count_cells s2.board 2 = 1 := by rw [hk2 2 (by decide), k12]; rfl
  -- place 1
  have he2 : board_ref s2.board 1 = some EMPTY := by
    rw [hc2 1 (by decide), if_neg (by omega), hc1 1 (by decide), if_neg (by decide)]
    exact opening_state_empty 1 (by decide)
  obtain ⟨s3, r3, hs3, hc3, hk3, hrs3, hcur3⟩ := place_piece_quiet hs2 (show 1 < 24 by decide)
    he2 (by rw [hcur2, k21]; decide)
  rw [hcur2] at hc3 hk3
  rw [hcur2, e12] at hcur3
  rw [hrs2] at hrs3
  have k31 : count_cells s3.board 1 = 2 := by rw [hk3 1 (by decide), k21]; rfl
  have k32 : count_cells s3.board 2 = 1 := by rw [hk3 2 (by decide), k22]; rfl
  -- place y2
  have he3 : board_ref s3.board y2 = some EMPTY := by
    rw [hc3 y2 h2b, if_neg (by omega), hc2 y2 h2b, if_neg (Ne.symm hne), hc1 y2 h2b,
      if_neg (by omega)]
    exact opening_state_empty y2 h2b
  obtain ⟨s4, r4, hs4, hc4, hk4, hrs4, hcur4⟩ := place_piece_quiet hs3 h2b he3
    (by rw [hcur3, k32]; decide)
  rw [hcur3] at hc4 hk4
  rw [hcur3, e21] at hcur4
  rw [hrs3] at hrs4
  have k41 : count_cells s4.board 1 = 2 := by rw [hk4 1 (by decide), k31]; rfl
  have k42 : count_cells s4.board 2 = 2 := by rw [hk4 2 (by decide), k32]; rfl
  -- place 2, which closes the mill 0-1-2
  have he4 : board_ref s4.board 2 = some EMPTY := by
    rw [hc4 2 (by decide), if_neg (by omega), hc3 2 (by decide), if_neg (by decide),
      hc2 2 (by decide), if_neg (by omega), hc1 2 (by decide), if_neg (by decide)]
    exact opening_state_empty 2 (by decide)
  obtain ⟨s5, r5, hs5, hc5, hk5⟩ := place_piece_play hs4 (show 2 < 24 by decide) he4
  rw [hcur4] at hc5 hk5
  have k51 : count_cells s5.board 1 = 3 := by rw [hk5 1 (by decide), k41]; rfl
  have k52 : count_cells s5.board 2 = 2 := by rw [hk5 2 (by decide), k42]; rfl
  have hmill : in_formed_mill s5.board s4.cur_player 2 := by
    rw [hcur4]
    refine ⟨0, by decide, by decide, ?_⟩
    intro j hj hcon
    rcases first_mill_cells j hj hcon with rfl | rfl | rfl
    · rw [hc5 0 (by decide), if_neg (by decide), hc4 0 (by decide), if_neg (by omega),
        hc3 0 (by decide), if_neg (by decide), hc2 0 (by decide), if_neg (by omega),
        hc1 0 (by decide), if_pos rfl]
    · rw [hc5 1 (by decide), if_neg (by decide), hc4 1 (by decide), if_neg (by omega),
        hc3 1 (by decide), if_pos rfl]
    · rw [hc5 2 (by decide), if_pos rfl]
  obtain ⟨hrs5, hcur5⟩ := (write_call_step hs4 (c := Call.place 2) rfl r5).1 hmill
  rw [hcur4] at hcur5
  -- remove the piece on y1
  have hown : board_ref s5.board y1 = some (other_player s5.cur_player) := by
    rw [hcur5, e12, hc5 y1 h1b, if_neg (by omega), hc4 y1 h1b, if_neg hne, hc3 y1 h1b,
      if_neg (by omega), hc2 y1 h1b, if_pos rfl]
  have hfree : ¬ in_formed_mill s5.board (other_player s5.cur_player) y1 := by
    apply no_mill_under_three
    rw [hcur5, e12, k52]
    decide
  obtain ⟨b6, n, hb6, hc6, hn, r6⟩ := (remove_piece_run hs5.1 h1b).2 ⟨hown, Or.inr hfree⟩
  have hp5 : s5.player_pieces = [3, 2] := by
    rw [consistent_pieces hs5]
    unfold PLAYER1 PLAYER2
    rw [k51, k52]
  rw [hp5, hcur5, e12] at hn
  have hn2 : n = 2 := by
    simp at hn
    exact hn.symm
  unfold quick_mill_scenario succeeds
  refine ⟨s1, r1, hrs1, s2, r2, hrs2, s3, r3, hrs3, s4, r4, hrs4, s5, r5, hrs5, hcur5,
    _, r6, ?_, rfl, ?_, ?_⟩
  · show board_ref b6 y1 = some EMPTY
    rw [board_ref_eq_cell hb6.1 (by omega), hc6 y1 (by omega), if_pos rfl]
  · show (next_player _).cur_player = PLAYER2
    refine (next_player_cur (Or.inl hcur5)).trans ?_
    show other_player s5.cur_player = PLAYER2
    rw [hcur5]
    rfl
  · show s5.player_pieces.set (other_player s5.cur_player - 1) ((n + 255) % 256) = [3, 1]
    rw [hp5, hcur5, e12, hn2]
    rfl


/-! ## Counters of three and more -/

theorem move_piece_pieces {s s2 : GameState} (hs : s.consistent) {src dest : Nat}
    (h : move_piece true s src dest = some (true, s2)) :
    s2.player_pieces = s.player_pieces := by
  obtain ⟨hsrc, hdest⟩ := move_piece_in_range hs h
  obtain ⟨hadj, hown, hemp⟩ := move_piece_true h
  obtain ⟨b2, -, -, hrun⟩ := move_piece_run hs.1 hsrc hdest hadj hown hemp
  rw [hrun] at h
  rw [← (Prod.mk.inj (Option.some.inj h)).2, finish_turn_pieces]

/-- A call that is not a removal down to two pieces keeps both counters at
three or more. -/
theorem apply_call_keeps_three {s s2 : GameState} (hs : s.consistent) {c : Call} {ok : Bool}
    (h : apply_call true s c = some (ok, s2)) (hthree : ∀ n ∈ s.player_pieces, 3 ≤ n)
    (hno : reduces_to_two s c = false) : ∀ n ∈ s2.player_pieces, 3 ≤ n := by
  cases ok with
  | false => rw [apply_call_false h]; exact hthree
  | true =>
    have hp := well_formed_player hs.1
    have hpieces := consistent_pieces hs
    have hpieces2 := consistent_pieces (apply_call_consistent hs h)
    cases c with
    | place pos =>
      have h2 : place_piece true s pos = some (true, s2) := h
      have hpos := place_piece_in_range hs h2
      have he := place_piece_true h2
      obtain ⟨s3, hrun, -, -, hcount⟩ := place_piece_play hs hpos he
      rw [hrun] at h2
      have e : s3 = s2 := (Prod.mk.inj (Option.some.inj h2)).2
      subst e
      rw [hpieces] at hthree
      rw [hpieces2]
      have c1 := hcount PLAYER1 (by decide)
      have c2 := hcount PLAYER2 (by decide)
      have t1 := hthree (count_cells s.board PLAYER1) (by simp)
      have t2 := hthree (count_cells s.board PLAYER2) (by simp)
      intro n hn
      simp only [List.mem_cons, List.mem_singleton, List.not_mem_nil, or_false] at hn
      rcases hn with rfl | rfl
      · rw [c1]; omega
      · rw [c2]; omega
    | move src dest =>
      rw [move_piece_pieces hs h]
      exact hthree
    | remove pos =>
      have h2 : remove_piece true s pos = some (true, s2) := h
      obtain ⟨-, -, href, n, hn, hset⟩ := remove_call_step hs h2
      have hno2 : ¬ (s2.player_pieces[other_player s.cur_player - 1]? = some 2) := by
        unfold reduces_to_two at hno
        simp only [href, h2, decide_eq_false_iff_not] at hno
        exact hno
      rw [hpieces] at hthree hn
      rw [hset, hpieces] at hno2
      rw [hset, hpieces]
      have t1 := hthree (count_cells s.board PLAYER1) (by simp)
      have t2 := hthree (count_cells s.board PLAYER2) (by simp)
      have l1 := count_cells_le s.board PLAYER1
      have l2 := count_cells_le s.board PLAYER2
      unfold other_player PLAYER1 PLAYER2 at *
      rcases hp with hp | hp
      · rw [hp] at hn hno2 ⊢
        simp at hn hno2 ⊢
        subst hn
        omega
      · rw [hp] at hn hno2 ⊢
        simp at hn hno2 ⊢
        subst hn
        omega

theorem run_calls_keeps_three : ∀ (calls : List Call) (s s2 : GameState), s.consistent →
    (∀ n ∈ s.player_pieces, 3 ≤ n) → run_calls true s calls = some s2 →
    no_reduction_to_two s calls = true → ∀ n ∈ s2.player_pieces, 3 ≤ n := by
  intro calls
  induction calls with
  | nil =>
    intro s s2 _ hthree h _
    rw [← Option.some.inj h]
    exact hthree
  | cons c cs ih =>
    intro s s2 hs hthree h hno
    unfold run_calls at h
    unfold no_reduction_to_two at hno
    cases hc : apply_call true s c with
    | none => simp [hc] at h
    | some r =>
      obtain ⟨ok, s1⟩ := r
      simp only [hc, Bool.and_eq_true, Bool.not_eq_true'] at h hno
      exact ih s1 s2 (apply_call_consistent hs hc)
        (apply_call_keeps_three hs hc hthree hno.1) h hno.2

/-- With both counters at three or more `get_winner` reports no winner. -/
theorem get_winner_three {s : GameState} (hl : s.player_pieces.length = 2)
    (hthree : ∀ n ∈ s.player_pieces, 3 ≤ n) : get_winner s = some EMPTY := by
  obtain ⟨cur, setup, rs, pp, b⟩ := s
  match pp, hl with
  | [a, c], _ =>
    have t1 := hthree a (by simp)
    have t2 := hthree c (by simp)
    have a2 : a ≠ 2 := by omega
    have c2 : c ≠ 2 := by omega
    simp [get_winner, a2, c2]

/-- After a successful removal that leaves the counter of the owner of the
removed piece at 2, `get_winner` returns the opponent of that player, unless
that player is player 2 and the counter of player 1 is 2 as well. -/
theorem removal_to_two_winner {s s3 : GameState} (hs : s.consistent) {pos player : Nat}
    (href : board_ref s.board pos = some player)
    (hrem : remove_piece true s pos = some (true, s3))
    (htwo : s3.player_pieces[player - 1]? = some 2) :
    ((player = PLAYER2 ∧ s3.player_pieces[0]? = some 2) → get_winner s3 = some PLAYER2) ∧
    (¬ (player = PLAYER2 ∧ s3.player_pieces[0]? = some 2) →
      get_winner s3 = some (other_player player)) := by
  have hp := well_formed_player hs.1
  obtain ⟨-, -, href2, -⟩ := remove_call_step hs hrem
  rw [href] at href2
  have hpl : player = other_player s.cur_player := Option.some.inj href2
  have hs3 := consistent_pieces (remove_piece_consistent hs hrem)
  unfold get_winner
  rw [hs3] at htwo ⊢
  unfold other_player PLAYER1 PLAYER2 at *
  rcases hp with hp | hp
  · rw [hp] at hpl
    simp at hpl
    subst hpl
    simp at htwo
    by_cases a : count_cells s3.board 1 = 2 <;> simp [a, htwo]
  · rw [hp] at hpl
    simp at hpl
    subst hpl
    simp at htwo
    simp [htwo]

/-- The same from a state with both counters at three or more: the winner is
the opponent of the player brought to two pieces. -/
theorem first_removal_to_two_winner {s s3 : GameState} (hs : s.consistent)
    (hthree : ∀ n ∈ s.player_pieces, 3 ≤ n) {pos player : Nat}
    (href : board_ref s.board pos = some player)
    (hrem : remove_piece true s pos = some (true, s3))
    (htwo : s3.player_pieces[player - 1]? = some 2) :
    get_winner s3 = some (other_player player) := by
  apply (removal_to_two_winner hs href hrem htwo).2
  rintro ⟨hpl, h0⟩
  obtain ⟨-, -, href2, n, -, hset⟩ := remove_call_step hs hrem
  rw [href] at href2
  have hopp : other_player s.cur_player = PLAYER2 := by
    rw [← Option.some.inj href2, hpl]
  rw [hset, hopp, consistent_pieces hs] at h0
  rw [consistent_pieces hs] at hthree
  have t1 := hthree (count_cells s.board PLAYER1) (by simp)
  unfold PLAYER2 at h0
  simp at h0
  omega
/-! ## Calls while a removal is owed -/

/-- C11, counterexample: in the well-formed state `milled_and_free`, where
`remove_state` is true, the placement at the empty cell 10 and the move from
cell 2 to cell 14 are both accepted. -/
theorem C11_accepted_while_owed :
    milled_and_free.well_formed ∧ milled_and_free.remove_state = true ∧
    place_piece true milled_and_free 10 = some (true,
      { cur_player := 2, setup_rounds_left := 7, remove_state := true,
        player_pieces := [4, 4], board := [0x95, 0x0A, 0x18, 0, 0, 0, 0, 0] }) ∧
    move_piece true milled_and_free 2 14 = some (true,
      { cur_player := 2, setup_rounds_left := 7, remove_state := true,
        player_pieces := [3, 4], board := [0x85, 0x0A, 0x08, 0x10, 0, 0, 0, 0] }) := by
  decide

/-- C11, amended: `place_piece` and `move_piece` do not read `remove_state`.
On a well-formed state with `remove_state` true they return false, leaving
the state unchanged, exactly when their own test fails (the cell is not
`EMPTY`; the cells are not adjacent, `src` does not hold `cur_player` or
`dest` is not `EMPTY`); a placement or move that passes the test is accepted
and `remove_state` is still true afterwards. -/
theorem C11_place_move_ignore_remove_state (s : GameState) (pos src dest : Nat)
    (hs : s.well_formed) (hpos : pos < BOARD_SIZE) (hsrc : src < BOARD_SIZE)
    (hdest : dest < BOARD_SIZE) (howed : s.remove_state = true) :
    (board_ref s.board pos ≠ some EMPTY → place_piece true s pos = some (false, s)) ∧
    (board_ref s.board pos = some EMPTY →
      ∃ s2, place_piece true s pos = some (true, s2) ∧ s2.remove_state = true) ∧
    (¬ (are_adjacent src dest = some true ∧ board_ref s.board src = some s.cur_player ∧
        board_ref s.board dest = some EMPTY) →
      move_piece true s src dest = some (false, s)) ∧
    ((are_adjacent src dest = some true ∧ board_ref s.board src = some s.cur_player ∧
        board_ref s.board dest = some EMPTY) →
      ∃ s2, move_piece true s src dest = some (true, s2) ∧ s2.remove_state = true) := by
  unfold BOARD_SIZE at *
  have hb : s.board.typed := hs.1.2.2.2.2
  have hvalid := is_valid_move_eq (s := s) hb.1 hsrc hdest
  refine ⟨?_, ?_, ?_, ?_⟩
  · intro he
    rw [board_ref_eq_cell hb.1 (by omega)] at he
    have hne : cell s.board pos ≠ EMPTY := fun h => he (by rw [h])
    simp [place_piece, is_valid_place, board_ref_eq_cell hb.1 (show pos < 32 by omega), hne]
  · intro he
    obtain ⟨b2, n, -, -, -, hrun⟩ := place_piece_run hs hpos he
    refine ⟨_, hrun, ?_⟩
    rw [finish_turn_remove_state]
    split
    · rfl
    · exact howed
  · intro hv
    rw [decide_eq_false hv] at hvalid
    simp [move_piece, hvalid]
  · intro hv
    obtain ⟨b2, -, -, hrun⟩ := move_piece_run hs hsrc hdest hv.1 hv.2.1 hv.2.2
    refine ⟨_, hrun, ?_⟩
    rw [finish_turn_remove_state]
    split
    · rfl
    · exact howed

/-- C11, witness: the state of the counterexample with the placement at 10
and the move from 2 to 14. -/
theorem C11_place_move_ignore_remove_state_witness :
    (board_ref milled_and_free.board 10 ≠ some EMPTY →
      place_piece true milled_and_free 10 = some (false, milled_and_free)) ∧
    (board_ref milled_and_free.board 10 = some EMPTY →
      ∃ s2, place_piece true milled_and_free 10 = some (true, s2) ∧ s2.remove_state = true) ∧
    (¬ (are_adjacent 2 14 = some true ∧
        board_ref milled_and_free.board 2 = some milled_and_free.cur_player ∧
        board_ref milled_and_free.board 14 = some EMPTY) →
      move_piece true milled_and_free 2 14 = some (false, milled_and_free)) ∧
    ((are_adjacent 2 14 = some true ∧
        board_ref milled_and_free.board 2 = some milled_and_free.cur_player ∧
        board_ref milled_and_free.board 14 = some EMPTY) →
      ∃ s2, move_piece true milled_and_free 2 14 = some (true, s2) ∧ s2.remove_state = true) :=
  C11_place_move_ignore_remove_state milled_and_free 10 2 14 (by decide) (by decide)
    (by decide) (by decide) (by decide)

/-! ## The winner -/

/-- C12: on a state with the two counters `n0` (player 1) and `n1` (player 2),
`get_winner` returns `PLAYER2` when `n0 = 2`, otherwise `PLAYER1` when
`n1 = 2`, otherwise `EMPTY`; so it reports a winner exactly when some counter
is 2, the opponent of the reported winner has the counter 2, and it reports
none when both counters exceed 2. -/
theorem C12_get_winner (s : GameState) (n0 n1 : Nat)
    (h0 : s.player_pieces[0]? = some n0) (h1 : s.player_pieces[1]? = some n1) :
    get_winner s = some (if n0 = 2 then PLAYER2 else if n1 = 2 then PLAYER1 else EMPTY) ∧
    (get_winner s ≠ some EMPTY ↔ (n0 = 2 ∨ n1 = 2)) ∧
    (get_winner s = some PLAYER1 → n1 = 2) ∧
    (get_winner s = some PLAYER2 → n0 = 2) ∧
    (2 < n0 → 2 < n1 → get_winner s = some EMPTY) := by
  have hw : get_winner s
      = some (if n0 = 2 then PLAYER2 else if n1 = 2 then PLAYER1 else EMPTY) := by
    unfold get_winner
    by_cases a : n0 = 2
    · simp [h0, a]
    · by_cases b : n1 = 2
      · simp [h0, h1, a, b]
      · simp [h0, h1, a, b]
  rw [hw]
  unfold PLAYER1 PLAYER2 EMPTY
  refine ⟨rfl, ?_, ?_, ?_, ?_⟩
  · by_cases a : n0 = 2 <;> by_cases b : n1 = 2 <;> simp [a, b]
  · by_cases a : n0 = 2 <;> by_cases b : n1 = 2 <;> simp [a, b]
  · by_cases a : n0 = 2 <;> by_cases b : n1 = 2 <;> simp [a, b]
  · intro a b
    have a2 : n0 ≠ 2 := by omega
    have b2 : n1 ≠ 2 := by omega
    simp [a2, b2]

/-- C12, witness: player 2 is down to two pieces and player 1 has three. -/
theorem C12_get_winner_witness :
    get_winner two_against_two_late
      = some (if 3 = 2 then PLAYER2 else if 2 = 2 then PLAYER1 else EMPTY) ∧
    (get_winner two_against_two_late ≠ some EMPTY ↔ (3 = 2 ∨ 2 = 2)) ∧
    (get_winner two_against_two_late = some PLAYER1 → 2 = 2) ∧
    (get_winner two_against_two_late = some PLAYER2 → 3 = 2) ∧
    (2 < 3 → 2 < 2 → get_winner two_against_two_late = some EMPTY) :=
  C12_get_winner two_against_two_late 3 2 (by decide) (by decide)

/-- C13, counterexample: after the three placements at 0, 3 and 1 no piece has
been removed, player 1 has two pieces and `get_winner` returns `PLAYER2`.
And after a sequence that leaves player 1 with two pieces and player 2 with
three, the removal of the piece on cell 9 reduces the counter of player 2 to
2 and `get_winner` returns `PLAYER2`, not the opponent of player 2. -/
theorem C13_winner_without_removal :
    run_calls true opening_state [.place 0, .place 3, .place 1] = some after_three_places ∧
    get_winner after_three_places = some PLAYER2 ∧
    run_calls true opening_state
      [.place 0, .place 3, .place 1, .place 4, .move 1 2, .place 9] = some two_against_three ∧
    two_against_three.player_pieces = [2, 3] ∧
    remove_piece true two_against_three 9 = some (true, two_against_two) ∧
    two_against_two.player_pieces = [2, 2] ∧
    get_winner two_against_two = some PLAYER2 := by
  decide

/-- C13, amended: along every sequence of calls from the state of a new game,
from a point at which both counters are at least 3, `get_winner` returns
`EMPTY` at every later point before a successful removal has left the counter
of the owner of the removed piece at exactly 2, and immediately after the
first such removal it returns the opponent of that player.  At any point of
any sequence, immediately after such a removal `get_winner` returns the
opponent of that player, except when that player is player 2 and the counter
of player 1 is 2 as well, where it returns `PLAYER2`. -/
theorem C13_get_winner_along_play (pre post : List Call) (s1 s2 : GameState)
    (hpre : run_calls true opening_state pre = some s1)
    (hthree : ∀ n ∈ s1.player_pieces, 3 ≤ n)
    (hpost : run_calls true s1 post = some s2)
    (hno : no_reduction_to_two s1 post = true) :
    get_winner s2 = some EMPTY ∧
    (∀ pos player s3, board_ref s2.board pos = some player →
      remove_piece true s2 pos = some (true, s3) →
      s3.player_pieces[player - 1]? = some 2 →
      get_winner s3 = some (other_player player)) ∧
    (∀ calls s pos player s3, run_calls true opening_state calls = some s →
      board_ref s.board pos = some player →
      remove_piece true s pos = some (true, s3) →
      s3.player_pieces[player - 1]? = some 2 →
      ((player = PLAYER2 ∧ s3.player_pieces[0]? = some 2) →
        get_winner s3 = some PLAYER2) ∧
      (¬ (player = PLAYER2 ∧ s3.player_pieces[0]? = some 2) →
        get_winner s3 = some (other_player player))) := by
  have hs1 := reached_consistent hpre
  have hs2 := run_calls_consistent post s1 s2 hs1 hpost
  have hthree2 := run_calls_keeps_three post s1 s2 hs1 hthree hpost hno
  refine ⟨get_winner_three hs2.1.1.2.2.1 hthree2, ?_, ?_⟩
  · intro pos player s3 href hrem htwo
    exact first_removal_to_two_winner hs2 hthree2 href hrem htwo
  · intro calls s pos player s3 hrun href hrem htwo
    exact removal_to_two_winner (reached_consistent hrun) href hrem htwo

/-- C13, witness: after six placements both players have three pieces; player
1 then closes the mill 0-1-2, no piece has been removed and `get_winner`
returns `EMPTY`. -/
theorem C13_get_winner_along_play_witness :
    get_winner four_against_three = some EMPTY ∧
    (∀ pos player s3, board_ref four_against_three.board pos = some player →
      remove_piece true four_against_three pos = some (true, s3) →
      s3.player_pieces[player - 1]? = some 2 →
      get_winner s3 = some (other_player player)) ∧
    (∀ calls s pos player s3, run_calls true opening_state calls = some s →
      board_ref s.board pos = some player →
      remove_piece true s pos = some (true, s3) →
      s3.player_pieces[player - 1]? = some 2 →
      ((player = PLAYER2 ∧ s3.player_pieces[0]? = some 2) →
        get_winner s3 = some PLAYER2) ∧
      (¬ (player = PLAYER2 ∧ s3.player_pieces[0]? = some 2) →
        get_winner s3 = some (other_player player))) :=
  C13_get_winner_along_play
    [.place 0, .place 3, .place 1, .place 4, .place 9, .place 10] [.place 2]
    three_against_three four_against_three (by decide) (by decide) (by decide) (by decide)

/-! ## A new game -/

/-- C14: after `init_game_state`, whatever the state held before, `cur_player`
is `PLAYER1`, `setup_rounds_left` is 11, `remove_state` is false, both
counters are 0, `board_ref` returns `EMPTY` for every position 0..23 and
`get_winner` returns `EMPTY`. -/
theorem C14_init_game_state (s0 : GameState) :
    (init_game_state s0).cur_player = PLAYER1 ∧
    (init_game_state s0).setup_rounds_left = 11 ∧
    (init_game_state s0).remove_state = false ∧
    (init_game_state s0).player_pieces[0]? = some 0 ∧
    (init_game_state s0).player_pieces[1]? = some 0 ∧
    (∀ i, i < BOARD_SIZE → board_ref (init_game_state s0).board i = some EMPTY) ∧
    get_winner (init_game_state s0) = some EMPTY := by
  have hp0 : (init_game_state s0).player_pieces[0]? = some 0 := by
    simp [init_game_state, NUM_PLAYERS, List.replicate]
  have hp1 : (init_game_state s0).player_pieces[1]? = some 0 := by
    simp [init_game_state, NUM_PLAYERS, List.replicate]
  refine ⟨rfl, rfl, rfl, hp0, hp1, ?_, ?_⟩
  · intro i hi
    unfold BOARD_SIZE at hi
    have hq : (init_game_state s0).board[i / 4]? = some 0 := by
      have h8 : i / 4 < MASK_SIZE := by unfold MASK_SIZE; omega
      have hlt : i / 4 < (List.replicate MASK_SIZE 0).length := by
        rw [List.length_replicate]; exact h8
      show (List.replicate MASK_SIZE 0 ++ s0.board.drop MASK_SIZE)[i / 4]? = some 0
      rw [List.getElem?_append_left hlt, List.getElem?_replicate_of_lt h8]
    simp [board_ref, hq, EMPTY]
  · simp [get_winner, hp0, hp1, EMPTY]

/-! ## Invariants of play -/

/-- With `HAVE_X86_ASM`, in every state that a sequence of `place_piece`,
`move_piece` and `remove_piece` calls, successful or failed, reaches from the
state of a new game, the counter of each player is the number of positions 0..23 whose cell
holds that player, as a natural number, so without wrap-around. -/
theorem piece_count_invariant_x86 (calls : List Call) (s : GameState) (p : Nat)
    (h : run_calls true opening_state calls = some s) (hp : p = PLAYER1 ∨ p = PLAYER2) :
    s.player_pieces[p - 1]? = some (count_cells s.board p) := by
  rw [consistent_pieces (reached_consistent h)]
  rcases hp with rfl | rfl <;> rfl

/-- With `HAVE_X86_ASM`, five placements, one of them refused, and a
removal. -/
theorem piece_count_invariant_x86_witness :
    after_quick_removal.player_pieces[PLAYER2 - 1]?
      = some (count_cells after_quick_removal.board PLAYER2) :=
  piece_count_invariant_x86
    [.place 0, .place 0, .place 3, .place 1, .place 4, .place 2, .remove 3]
    after_quick_removal PLAYER2 (by decide) (by decide)

/-- C15, failing input: without `HAVE_X86_ASM`, the placements at 0, 3 and 2
of a new game all succeed and leave the counters 2 and 1 and the board byte
0x90, on which one cell holds player 1: the placement at 3 has emptied cell
0.  The counter of player 1 is 2, the number of its cells is 1. -/
theorem C15_portable_counter_exceeds_cells :
    place_piece false opening_state 0 = some (true,
      { cur_player := 2, setup_rounds_left := 11, remove_state := false,
        player_pieces := [1, 0], board := [0x01, 0, 0, 0, 0, 0, 0, 0] }) ∧
    place_piece false
      { cur_player := 2, setup_rounds_left := 11, remove_state := false,
        player_pieces := [1, 0], board := [0x01, 0, 0, 0, 0, 0, 0, 0] } 3 = some (true,
      { cur_player := 1, setup_rounds_left := 11, remove_state := false,
        player_pieces := [1, 1], board := [0x80, 0, 0, 0, 0, 0, 0, 0] }) ∧
    place_piece false
      { cur_player := 1, setup_rounds_left := 11, remove_state := false,
        player_pieces := [1, 1], board := [0x80, 0, 0, 0, 0, 0, 0, 0] } 2
      = some (true, portable_three_places) ∧
    run_calls false opening_state [.place 0, .place 3, .place 2] = some portable_three_places ∧
    portable_three_places.player_pieces[PLAYER1 - 1]? = some 2 ∧
    count_cells portable_three_places.board PLAYER1 = 1 := by
  decide

/-- C16, counterexample: after the five placements at 0, 3, 1, 4 and 2 player 1
owes a removal; the placement at cell 9 that follows is accepted and forms no
mill, and `remove_state` is still true after it. -/
theorem C16_owed_after_plain_placement :
    run_calls true opening_state [.place 0, .place 3, .place 1, .place 4, .place 2]
      = some after_quick_mill ∧
    place_piece true after_quick_mill 9 = some (true, after_second_place) ∧
    ¬ in_formed_mill after_second_place.board after_quick_mill.cur_player 9 ∧
    after_second_place.remove_state = true := by
  decide

/-- C16, amended: along every sequence of calls from the state of a new game,
`remove_state` is true exactly when some successful placement or move has
formed a mill and no successful removal has followed it (`run_owed` tracks
this); and a successful placement or move that forms no mill leaves
`remove_state` as it was, so false when no removal was owed. -/
theorem C16_pending_removal_invariant (calls : List Call) (s : GameState) (owed : Bool)
    (h : run_owed true opening_state false calls = some (s, owed)) :
    s.remove_state = owed ∧
    ∀ c pos s2, c.target = some pos → apply_call true s c = some (true, s2) →
      ¬ in_formed_mill s2.board s.cur_player pos → s2.remove_state = s.remove_state := by
  obtain ⟨hs, ho⟩ := run_owed_state calls opening_state s false owed
    opening_state_consistent rfl h
  refine ⟨ho, fun c pos s2 ht hc hm => ?_⟩
  exact ((write_call_step hs ht hc).2 hm).1

/-- C16, witness: the five placements that close the mill 0-1-2. -/
theorem C16_pending_removal_invariant_witness :
    after_quick_mill.remove_state = true ∧
    ∀ c pos s2, c.target = some pos → apply_call true after_quick_mill c = some (true, s2) →
      ¬ in_formed_mill s2.board after_quick_mill.cur_player pos →
      s2.remove_state = after_quick_mill.remove_state :=
  C16_pending_removal_invariant [.place 0, .place 3, .place 1, .place 4, .place 2]
    after_quick_mill true (by decide)

/-- C17: in every state that a sequence of calls reaches from the state of a
new game, `cur_player` is `PLAYER1` or `PLAYER2`; a failed call and a
placement or move that forms a mill leave `cur_player` unchanged, and every
other successful call, a placement or move without a mill or a removal,
changes it to the other player. -/
theorem C17_turn_invariant (calls : List Call) (s s2 : GameState) (c : Call) (ok : Bool)
    (h : run_calls true opening_state calls = some s)
    (hc : apply_call true s c = some (ok, s2)) :
    (s.cur_player = PLAYER1 ∨ s.cur_player = PLAYER2) ∧
    (ok = false → s2.cur_player = s.cur_player) ∧
    (ok = true → ∀ pos, c.target = some pos →
      in_formed_mill s2.board s.cur_player pos → s2.cur_player = s.cur_player) ∧
    (ok = true →
      (c.target = none ∨
        ∃ pos, c.target = some pos ∧ ¬ in_formed_mill s2.board s.cur_player pos) →
      s2.cur_player = other_player s.cur_player) := by
  have hs := reached_consistent h
  refine ⟨well_formed_player hs.1, ?_, ?_, ?_⟩
  · intro hok
    rw [hok] at hc
    rw [apply_call_false hc]
  · intro hok pos ht hm
    rw [hok] at hc
    exact ((write_call_step hs ht hc).1 hm).2
  · intro hok hcase
    rw [hok] at hc
    rcases hcase with ht | ⟨pos, ht, hm⟩
    · cases c with
      | place p => cases ht
      | move a b => cases ht
      | remove p => exact (remove_call_step hs hc).2.1
    · exact ((write_call_step hs ht hc).2 hm).2

/-- C17, witness: after four placements player 1 closes the mill 0-1-2. -/
theorem C17_turn_invariant_witness :
    (two_in_a_row.cur_player = PLAYER1 ∨ two_in_a_row.cur_player = PLAYER2) ∧
    (true = false → after_quick_mill.cur_player = two_in_a_row.cur_player) ∧
    (true = true → ∀ pos, (Call.place 2).target = some pos →
      in_formed_mill after_quick_mill.board two_in_a_row.cur_player pos →
      after_quick_mill.cur_player = two_in_a_row.cur_player) ∧
    (true = true →
      ((Call.place 2).target = none ∨
        ∃ pos, (Call.place 2).target = some pos ∧
          ¬ in_formed_mill after_quick_mill.board two_in_a_row.cur_player pos) →
      after_quick_mill.cur_player = other_player two_in_a_row.cur_player) :=
  C17_turn_invariant [.place 0, .place 3, .place 1, .place 4] two_in_a_row after_quick_mill
    (.place 2) true (by decide) (by decide)

/-- C18: every sequence of calls with positions below 24 runs from the state
of a new game, and in the state it reaches `board_ref` returns `EMPTY`,
`PLAYER1` or `PLAYER2` for every position 0..23 and the two padding bytes of
the packed board are zero. -/
theorem C18_cell_value_invariant (calls : List Call) (hr : ∀ c, c ∈ calls → c.in_range) :
    ∃ s, run_calls true opening_state calls = some s ∧
      (∀ i, i < BOARD_SIZE →
        board_ref s.board i = some EMPTY ∨ board_ref s.board i = some PLAYER1 ∨
        board_ref s.board i = some PLAYER2) ∧
      s.board[6]? = some 0 ∧ s.board[7]? = some 0 := by
  obtain ⟨s, h⟩ := run_calls_defined calls opening_state opening_state_consistent hr
  have hs := reached_consistent h
  have hb : s.board.typed := hs.1.1.2.2.2.2
  have hbyte : ∀ k, 6 ≤ k → k < 8 → s.board[k]? = some 0 := by
    intro k h6 h8
    have hlen : k < s.board.length := by rw [hb.1]; exact h8
    have hq := quad_cell_rebuild (s.board.getD k 0) (typed_byte_lt hb k)
    have hc : ∀ j, j < 4 → quad_cell (s.board.getD k 0) j = 0 := by
      intro j hj
      have := hs.2.1 (4 * k + j) (by omega) (by omega)
      unfold cell at this
      rwa [show (4 * k + j) / 4 = k by omega, show (4 * k + j) % 4 = j by omega] at this
    rw [hc 0 (by decide), hc 1 (by decide), hc 2 (by decide), hc 3 (by decide)] at hq
    rw [List.getElem?_eq_getElem hlen]
    simp [List.getElem?_eq_getElem hlen] at hq
    rw [hq]
  exact ⟨s, h, hs.1.2.2, hbyte 6 (by decide) (by decide), hbyte 7 (by decide) (by decide)⟩

/-- C18, witness: five placements, a removal and a move on the board. -/
theorem C18_cell_value_invariant_witness :
    ∃ s, run_calls true opening_state
        [.place 0, .place 3, .place 1, .place 4, .place 2, .remove 3, .move 4 5] = some s ∧
      (∀ i, i < BOARD_SIZE →
        board_ref s.board i = some EMPTY ∨ board_ref s.board i = some PLAYER1 ∨
        board_ref s.board i = some PLAYER2) ∧
      s.board[6]? = some 0 ∧ s.board[7]? = some 0 :=
  C18_cell_value_invariant
    [.place 0, .place 3, .place 1, .place 4, .place 2, .remove 3, .move 4 5] (by decide)

/-! ## The scenario of a quick mill -/

/-- With `HAVE_X86_ASM`, from the state `init_game_state` leaves, for distinct
positions `y1` and `y2` in 3..23, the calls place 0, place `y1`, place 1, place `y2` and
place 2 all succeed; `remove_state` is false after each of the first four and
true after the fifth, with `cur_player = PLAYER1`; then `remove_piece` at
`y1` succeeds and leaves cell `y1` `EMPTY`, `remove_state` false,
`cur_player = PLAYER2` and the counters 3 and 1. -/
theorem quick_mill_scenario_x86 (s0 : GameState) (y1 y2 : Nat)
    (hp : s0.player_pieces.length = NUM_PLAYERS) (hb : s0.board.length = MASK_SIZE)
    (h1 : 3 ≤ y1) (h1b : y1 < BOARD_SIZE) (h2 : 3 ≤ y2) (h2b : y2 < BOARD_SIZE)
    (hne : y1 ≠ y2) :
    succeeds (place_piece true (init_game_state s0) 0) (fun s1 => s1.remove_state = false ∧
    succeeds (place_piece true s1 y1) (fun s2 => s2.remove_state = false ∧
    succeeds (place_piece true s2 1) (fun s3 => s3.remove_state = false ∧
    succeeds (place_piece true s3 y2) (fun s4 => s4.remove_state = false ∧
    succeeds (place_piece true s4 2) (fun s5 => s5.remove_state = true ∧
      s5.cur_player = PLAYER1 ∧
    succeeds (remove_piece true s5 y1) (fun s6 => board_ref s6.board y1 = some EMPTY ∧
      s6.remove_state = false ∧ s6.cur_player = PLAYER2 ∧
      s6.player_pieces = [3, 1])))))) := by
  rw [init_game_state_eq hp hb]
  exact quick_mill_scenario_all y1 y2 h1b h2b h1 h2 hne

/-- With `HAVE_X86_ASM`, a state with earlier contents is initialised and
player 2 answers at 3 and 4. -/
theorem quick_mill_scenario_x86_witness :
    succeeds (place_piece true (init_game_state used_state) 0) (fun s1 =>
      s1.remove_state = false ∧
    succeeds (place_piece true s1 3) (fun s2 => s2.remove_state = false ∧
    succeeds (place_piece true s2 1) (fun s3 => s3.remove_state = false ∧
    succeeds (place_piece true s3 4) (fun s4 => s4.remove_state = false ∧
    succeeds (place_piece true s4 2) (fun s5 => s5.remove_state = true ∧
      s5.cur_player = PLAYER1 ∧
    succeeds (remove_piece true s5 3) (fun s6 => board_ref s6.board 3 = some EMPTY ∧
      s6.remove_state = false ∧ s6.cur_player = PLAYER2 ∧
      s6.player_pieces = [3, 1])))))) :=
  quick_mill_scenario_x86 used_state 3 4 (by decide) (by decide) (by decide) (by decide)
    (by decide) (by decide) (by decide)

/-- C19, failing input: without `HAVE_X86_ASM`, with `y1 = 3` and `y2 = 4`,
the five placements at 0, 3, 1, 4 and 2 from the state `init_game_state`
leaves all succeed, but the placement at 3 empties cell 0, so the fifth
closes no mill: `remove_state` is false and `cur_player` is `PLAYER2` after
it, and `remove_piece` at 3 returns false. -/
theorem C19_portable_scenario_misses_mill :
    init_game_state used_state = opening_state ∧
    place_piece false opening_state 0 = some (true,
      { cur_player := 2, setup_rounds_left := 11, remove_state := false,
        player_pieces := [1, 0], board := [0x01, 0, 0, 0, 0, 0, 0, 0] }) ∧
    place_piece false
      { cur_player := 2, setup_rounds_left := 11, remove_state := false,
        player_pieces := [1, 0], board := [0x01, 0, 0, 0, 0, 0, 0, 0] } 3 = some (true,
      { cur_player := 1, setup_rounds_left := 11, remove_state := false,
        player_pieces := [1, 1], board := [0x80, 0, 0, 0, 0, 0, 0, 0] }) ∧
    place_piece false
      { cur_player := 1, setup_rounds_left := 11, remove_state := false,
        player_pieces := [1, 1], board := [0x80, 0, 0, 0, 0, 0, 0, 0] } 1 = some (true,
      { cur_player := 2, setup_rounds_left := 11, remove_state := false,
        player_pieces := [2, 1], board := [0x84, 0, 0, 0, 0, 0, 0, 0] }) ∧
    place_piece false
      { cur_player := 2, setup_rounds_left := 11, remove_state := false,
        player_pieces := [2, 1], board := [0x84, 0, 0, 0, 0, 0, 0, 0] } 4 = some (true,
      { cur_player := 1, setup_rounds_left := 11, remove_state := false,
        player_pieces := [2, 2], board := [0x84, 0x02, 0, 0, 0, 0, 0, 0] }) ∧
    place_piece false
      { cur_player := 1, setup_rounds_left := 11, remove_state := false,
        player_pieces := [2, 2], board := [0x84, 0x02, 0, 0, 0, 0, 0, 0] } 2
      = some (true, portable_five_places) ∧
    portable_five_places.remove_state = false ∧
    portable_five_places.cur_player = PLAYER2 ∧
    board_ref portable_five_places.board 0 = some EMPTY ∧
    remove_piece false portable_five_places 3 = some (false, portable_five_places) := by
  decide

/-! ## Reading a cell after writing it -/

/-- With `HAVE_X86_ASM`, `board_ref` on the board that `set_board_pos` returns
gives the written value at the written index, whatever the cell held. -/
theorem set_board_pos_x86_get {b : Board} (hb : b.typed) {index value : Nat}
    (hi : index < BOARD_SIZE)
    (hv : value = EMPTY ∨ value = PLAYER1 ∨ value = PLAYER2) :
    ∃ b2, set_board_pos true b index value = some b2 ∧ board_ref b2 index = some value := by
  unfold BOARD_SIZE at hi
  have hv4 : value < 4 := by
    unfold EMPTY PLAYER1 PLAYER2 at hv
    omega
  obtain ⟨b2, hset, hb2, hcells⟩ := set_board_pos_cells hb (show index < 32 by omega) hv4
  refine ⟨b2, hset, ?_⟩
  rw [board_ref_eq_cell hb2.1 (by omega), hcells index (by omega), if_pos rfl]

/-- C20, failing input: without `HAVE_X86_ASM`, on a board whose cell 1 holds
`PLAYER2`, `set_board_pos` with index 1 and value `PLAYER1` returns a board on
which `board_ref` gives 3 at index 1; and on a board whose cell 1 holds
`PLAYER1`, writing `EMPTY` at index 1 leaves `PLAYER1` there. -/
theorem C20_portable_set_keeps_old_bits :
    board_ref [0x08, 0, 0, 0, 0, 0, 0, 0] 1 = some PLAYER2 ∧
    set_board_pos false [0x08, 0, 0, 0, 0, 0, 0, 0] 1 PLAYER1
      = some [0x0C, 0, 0, 0, 0, 0, 0, 0] ∧
    board_ref [0x0C, 0, 0, 0, 0, 0, 0, 0] 1 = some 3 ∧
    set_board_pos false [0x04, 0, 0, 0, 0, 0, 0, 0] 1 EMPTY
      = some [0x04, 0, 0, 0, 0, 0, 0, 0] ∧
    board_ref [0x04, 0, 0, 0, 0, 0, 0, 0] 1 = some PLAYER1 := by
  decide


/-! ## The tables of `tables.h` -/

set_option maxRecDepth 100000 in
theorem mill_contains_diagram : ∀ m, m < 20 → ∀ j, j < 32 →
    mill_contains m j = decide (j ∈ diagram_lines.getD m []) := by
  decide

set_option maxRecDepth 100000 in
theorem diagram_lines_lt : ∀ m, m < 20 → ∀ j ∈ diagram_lines.getD m [], j < 24 := by
  decide

/-- With `HAVE_X86_ASM`, `set_board_pos` leaves every other cell as it was. -/
theorem set_board_pos_x86_frame {b : Board} (hb : b.typed) {index value : Nat}
    (hi : index < BOARD_SIZE)
    (hv : value = EMPTY ∨ value = PLAYER1 ∨ value = PLAYER2) :
    ∃ b2, set_board_pos true b index value = some b2 ∧
      ∀ j, j < BOARD_SIZE → j ≠ index → board_ref b2 j = board_ref b j := by
  unfold BOARD_SIZE at hi
  have hv4 : value < 4 := by
    unfold EMPTY PLAYER1 PLAYER2 at hv
    omega
  obtain ⟨b2, hset, hb2, hcells⟩ := set_board_pos_cells hb (show index < 32 by omega) hv4
  refine ⟨b2, hset, ?_⟩
  intro j hj hne
  unfold BOARD_SIZE at hj
  rw [board_ref_eq_cell hb2.1 (by omega), board_ref_eq_cell hb.1 (by omega),
    hcells j (by omega), if_neg hne]

/-- The mask-and-shift of `board_ref` on one byte is a shift and a mask with
3. -/
theorem quad_cell_shift (q k : Nat) (hk : k < 4) :
    quad_cell q k = (q >>> (2 * k)) &&& 3 := by
  unfold quad_cell
  rw [show ∀ n, n < 4 → (3 <<< (n * 2)) % 256 = 3 <<< (n * 2) by decide, Nat.mul_comm 2 k]
  · apply Nat.eq_of_testBit_eq
    intro i
    simp [Nat.testBit_shiftRight, Nat.testBit_and, Nat.testBit_shiftLeft]
  · exact hk

set_option maxRecDepth 100000 in
theorem are_adjacent_symm : ∀ a, a < 24 → ∀ b, b < 24 → are_adjacent a b = are_adjacent b a := by
  decide

set_option maxRecDepth 100000 in
theorem are_adjacent_canonical : ∀ a, a < 24 → ∀ b, b < 24 →
    are_adjacent a b = some (decide ([a, b] ∈ adjacent_places_canonical ∨
      [b, a] ∈ adjacent_places_canonical)) := by
  decide

set_option maxRecDepth 100000 in
theorem adjacent_row_shape : ∀ pos, pos < 24 →
    (adjacent_row pos).length = 4 ∧
    (∀ e ∈ adjacent_row pos, e < 24 ∨ e = 99) ∧
    2 ≤ ((adjacent_row pos).filter (fun e => decide (e < 24))).length ∧
    ((adjacent_row pos).filter (fun e => decide (e < 24))).length ≤ 4 ∧
    ((adjacent_row pos).filter (fun e => decide (e < 24))).Nodup ∧
    pos ∉ (adjacent_row pos).filter (fun e => decide (e < 24)) := by
  decide

set_option maxRecDepth 100000 in
theorem mill_masks_cells : ∀ m, m < 20 → ∀ j, j < 32 →
    board_ref (mill_masks.getD m []) j =
      some (if j ∈ diagram_lines.getD m [] then 3 else 0) := by
  decide

set_option maxRecDepth 100000 in
theorem mill_masks_shape : ∀ m, m < 20 →
    Board.typed (mill_masks.getD m []) ∧
    (mill_masks.getD m []).getD 6 0 = 0 ∧ (mill_masks.getD m []).getD 7 0 = 0 ∧
    (diagram_lines.getD m []).length = 3 ∧ (diagram_lines.getD m []).Nodup := by
  decide

set_option maxRecDepth 100000 in
theorem diagram_lines_distinct : ∀ m1, m1 < 20 → ∀ m2, m2 < 20 →
    m1 = m2 ∨ ∃ j ∈ diagram_lines.getD m1 [], j ∉ diagram_lines.getD m2 [] := by
  decide

/-! ## The board accessors and the tables -/

/-- C21, failing input: without `HAVE_X86_ASM`, on a board whose cell 2 holds
`PLAYER1`, `set_board_pos` with index 1 and value `PLAYER2` empties cell 2; and
on a board whose cell 0 holds `PLAYER1`, `set_board_pos` with index 2 empties
cell 0. -/
theorem C21_portable_set_clears_other_cell :
    board_ref [0x10, 0, 0, 0, 0, 0, 0, 0] 2 = some PLAYER1 ∧
    set_board_pos false [0x10, 0, 0, 0, 0, 0, 0, 0] 1 PLAYER2
      = some [0x08, 0, 0, 0, 0, 0, 0, 0] ∧
    board_ref [0x08, 0, 0, 0, 0, 0, 0, 0] 2 = some EMPTY ∧
    board_ref [0x01, 0, 0, 0, 0, 0, 0, 0] 0 = some PLAYER1 ∧
    set_board_pos false [0x01, 0, 0, 0, 0, 0, 0, 0] 2 PLAYER2
      = some [0x20, 0, 0, 0, 0, 0, 0, 0] ∧
    board_ref [0x20, 0, 0, 0, 0, 0, 0, 0] 0 = some EMPTY := by
  decide

/-- C22: adjacency is symmetric.  For all positions `a, b < 24`,
`are_adjacent a b` and `are_adjacent b a` return the same answer, and the
call returns. -/
theorem C22_adjacency_symmetric (a b : Nat) (ha : a < BOARD_SIZE) (hb : b < BOARD_SIZE) :
    are_adjacent a b = are_adjacent b a ∧
    (are_adjacent a b = some true ∨ are_adjacent a b = some false) :=
  ⟨are_adjacent_symm a ha b hb, are_adjacent_defined a ha b hb⟩

/-- C22, witness: the positions 0 and 9 are adjacent in both directions. -/
theorem C22_adjacency_symmetric_witness :
    are_adjacent 0 9 = are_adjacent 9 0 ∧
    (are_adjacent 0 9 = some true ∨ are_adjacent 0 9 = some false) :=
  C22_adjacency_symmetric 0 9 (by decide) (by decide)

/-- C23: the table `mill_masks` has 20 entries.  Entry `m` is an 8-byte mask in
which `board_ref` gives 3 (both bits set) at the three distinct positions below
24 of line `m` of the board diagram and 0 at every other cell, the two padding
bytes being zero; the 20 lines are pairwise distinct as sets of positions, and
so are the masks. -/
theorem C23_mill_masks_table :
    mill_masks.length = TOTAL_MILLS ∧ diagram_lines.length = TOTAL_MILLS ∧
    (∀ m, m < TOTAL_MILLS →
      Board.typed (mill_masks.getD m []) ∧
      (diagram_lines.getD m []).length = 3 ∧ (diagram_lines.getD m []).Nodup ∧
      (∀ j ∈ diagram_lines.getD m [], j < BOARD_SIZE) ∧
      (∀ j, j < 32 → board_ref (mill_masks.getD m []) j =
        some (if j ∈ diagram_lines.getD m [] then 3 else 0)) ∧
      (mill_masks.getD m []).getD 6 0 = 0 ∧ (mill_masks.getD m []).getD 7 0 = 0) ∧
    (∀ m1, m1 < TOTAL_MILLS → ∀ m2, m2 < TOTAL_MILLS → m1 ≠ m2 →
      (∃ j, j < BOARD_SIZE ∧ j ∈ diagram_lines.getD m1 [] ∧ j ∉ diagram_lines.getD m2 []) ∧
      mill_masks.getD m1 [] ≠ mill_masks.getD m2 []) := by
  refine ⟨rfl, rfl, ?_, ?_⟩
  · intro m hm
    obtain ⟨h1, h2, h3, h4, h5⟩ := mill_masks_shape m hm
    exact ⟨h1, h4, h5, diagram_lines_lt m hm, mill_masks_cells m hm, h2, h3⟩
  · intro m1 hm1 m2 hm2 hne
    obtain ⟨j, hin, hout⟩ := (diagram_lines_distinct m1 hm1 m2 hm2).resolve_left hne
    have hj : j < 24 := diagram_lines_lt m1 hm1 j hin
    refine ⟨⟨j, hj, hin, hout⟩, ?_⟩
    intro heq
    have e1 := mill_masks_cells m1 hm1 j (by omega)
    have e2 := mill_masks_cells m2 hm2 j (by omega)
    rw [heq, e2, if_pos hin, if_neg hout] at e1
    exact absurd (Option.some.inj e1) (by decide)

/-- C24: the reverse index.  For `pos < 24` the three entries
`mill_from_pos[3 * pos .. 3 * pos + 2]` are mill numbers below 20, and a mill
`m < 20` occurs among them if and only if the mask of mill `m` covers `pos`. -/
theorem C24_mill_from_pos_reverse_index (pos m : Nat) (hpos : pos < BOARD_SIZE)
    (hm : m < TOTAL_MILLS) :
    ∃ m0 m1 m2, mill_from_pos[pos * 3 + 0]? = some m0 ∧ mill_from_pos[pos * 3 + 1]? = some m1 ∧
      mill_from_pos[pos * 3 + 2]? = some m2 ∧
      m0 < TOTAL_MILLS ∧ m1 < TOTAL_MILLS ∧ m2 < TOTAL_MILLS ∧
      ((m = m0 ∨ m = m1 ∨ m = m2) ↔ mill_contains m pos = true) := by
  obtain ⟨e0, l0⟩ := mill_from_pos_lookup pos hpos 0 (by decide)
  obtain ⟨e1, l1⟩ := mill_from_pos_lookup pos hpos 1 (by decide)
  obtain ⟨e2, l2⟩ := mill_from_pos_lookup pos hpos 2 (by decide)
  refine ⟨_, _, _, e0, e1, e2, l0, l1, l2, ?_⟩
  rw [mill_from_pos_complete pos hpos m hm]
  simp only [Bool.or_eq_true, decide_eq_true_eq, or_assoc]

/-- C24, witness: position 2 lies in the mills 0, 1 and 14, and mill 14 is
among its three entries. -/
theorem C24_mill_from_pos_reverse_index_witness :
    ∃ m0 m1 m2, mill_from_pos[2 * 3 + 0]? = some m0 ∧ mill_from_pos[2 * 3 + 1]? = some m1 ∧
      mill_from_pos[2 * 3 + 2]? = some m2 ∧
      m0 < TOTAL_MILLS ∧ m1 < TOTAL_MILLS ∧ m2 < TOTAL_MILLS ∧
      ((14 = m0 ∨ 14 = m1 ∨ 14 = m2) ↔ mill_contains 14 2 = true) :=
  C24_mill_from_pos_reverse_index 2 14 (by decide) (by decide)

/-- C25: the masked mill test against the triple of positions.  For every
8-byte board whose cells 0..23 hold `EMPTY`, `PLAYER1` or `PLAYER2`, every
player `p` and every mill `m < 20`, entry `m` of the mill masks of `p` exists
and the byte-wise test `(board AND mask) = mask` holds if and only if the
three cells of line `m` of the diagram all hold `p`. -/
theorem C25_masked_mill_test (b : Board) (p m : Nat) (hb : b.typed)
    (hc : ∀ i, i < BOARD_SIZE →
      board_ref b i = some EMPTY ∨ board_ref b i = some PLAYER1 ∨ board_ref b i = some PLAYER2)
    (hp : p = PLAYER1 ∨ p = PLAYER2) (hm : m < TOTAL_MILLS) :
    mill_table PLAYER1 = p1_mill_masks ∧ mill_table PLAYER2 = p2_mill_masks ∧
    ∃ mask, (mill_table p)[m]? = some mask ∧
      (simd_and b mask = mask ↔ ∀ j ∈ diagram_lines.getD m [], board_ref b j = some p) := by
  have hcell : ∀ i, i < 24 → cell b i < 3 := by
    intro i hi
    have h := hc i hi
    rw [board_ref_eq_cell hb.1 (by omega)] at h
    unfold EMPTY PLAYER1 PLAYER2 at h
    rcases h with h | h | h <;> · have := Option.some.inj h; omega
  obtain ⟨hget, -, -⟩ := mill_table_spec hp hm
  refine ⟨rfl, rfl, _, hget, ?_⟩
  rw [mill_test_iff hb hcell hp hm]
  unfold mill_formed_by BOARD_SIZE
  constructor
  · intro h j hj
    have hj24 := diagram_lines_lt m hm j hj
    exact h j hj24 (by rw [mill_contains_diagram m hm j (by omega)]; exact decide_eq_true hj)
  · intro h j hj hcon
    rw [mill_contains_diagram m hm j (by omega)] at hcon
    exact h j (of_decide_eq_true hcon)

/-- C25, witness: on the board with player 1 on cells 0, 1 and 2 and player 2 on
cells 3 and 4, the test for player 1 and mill 0 agrees with the cells 0, 1 and
2. -/
theorem C25_masked_mill_test_witness :
    mill_table PLAYER1 = p1_mill_masks ∧ mill_table PLAYER2 = p2_mill_masks ∧
    ∃ mask, (mill_table PLAYER1)[0]? = some mask ∧
      (simd_and after_quick_mill.board mask = mask ↔
        ∀ j ∈ diagram_lines.getD 0 [], board_ref after_quick_mill.board j = some PLAYER1) :=
  C25_masked_mill_test after_quick_mill.board PLAYER1 0 (by decide) (by decide)
    (Or.inl rfl) (by decide)

/-- C26: the shape of the adjacency table.  For `pos < 24` the four slots
`adjacent_places[4 * pos .. 4 * pos + 3]` exist and each holds a position below
24 or the sentinel 99; the positions below 24 among them are between 2 and 4
in number, pairwise distinct and different from `pos`; and 99 is not a board
index. -/
theorem C26_adjacent_places_shape (pos : Nat) (hpos : pos < BOARD_SIZE) :
    (adjacent_row pos).length = 4 ∧
    (∀ e ∈ adjacent_row pos, e < BOARD_SIZE ∨ e = 99) ∧
    2 ≤ ((adjacent_row pos).filter (fun e => decide (e < BOARD_SIZE))).length ∧
    ((adjacent_row pos).filter (fun e => decide (e < BOARD_SIZE))).length ≤ 4 ∧
    ((adjacent_row pos).filter (fun e => decide (e < BOARD_SIZE))).Nodup ∧
    pos ∉ (adjacent_row pos).filter (fun e => decide (e < BOARD_SIZE)) ∧
    ¬ (99 < BOARD_SIZE) :=
  have h := adjacent_row_shape pos hpos
  ⟨h.1, h.2.1, h.2.2.1, h.2.2.2.1, h.2.2.2.2.1, h.2.2.2.2.2, by decide⟩

/-- C26, witness: the row of position 0 holds 1, 3, 9 and the sentinel. -/
theorem C26_adjacent_places_shape_witness :
    (adjacent_row 0).length = 4 ∧
    (∀ e ∈ adjacent_row 0, e < BOARD_SIZE ∨ e = 99) ∧
    2 ≤ ((adjacent_row 0).filter (fun e => decide (e < BOARD_SIZE))).length ∧
    ((adjacent_row 0).filter (fun e => decide (e < BOARD_SIZE))).length ≤ 4 ∧
    ((adjacent_row 0).filter (fun e => decide (e < BOARD_SIZE))).Nodup ∧
    0 ∉ (adjacent_row 0).filter (fun e => decide (e < BOARD_SIZE)) ∧
    ¬ (99 < BOARD_SIZE) :=
  C26_adjacent_places_shape 0 (by decide)

/-- C27: the fast adjacency table against the canonical list.  The list
`adjacent_places_canonical` has 40 pairs, and for all positions `a, b < 24`,
`are_adjacent a b` returns true if and only if the pair `a, b` or the pair
`b, a` is in the list, and false otherwise. -/
theorem C27_adjacent_places_canonical (a b : Nat) (ha : a < BOARD_SIZE) (hb : b < BOARD_SIZE) :
    adjacent_places_canonical.length = 40 ∧
    are_adjacent a b = some (decide ([a, b] ∈ adjacent_places_canonical ∨
      [b, a] ∈ adjacent_places_canonical)) :=
  ⟨rfl, are_adjacent_canonical a ha b hb⟩

/-- C27, witness: the list holds the pair 9, 0 and `are_adjacent 0 9` is
true. -/
theorem C27_adjacent_places_canonical_witness :
    adjacent_places_canonical.length = 40 ∧
    are_adjacent 0 9 = some (decide ([0, 9] ∈ adjacent_places_canonical ∨
      [9, 0] ∈ adjacent_places_canonical)) :=
  C27_adjacent_places_canonical 0 9 (by decide) (by decide)

/-- C28: `is_mill_formed` against its reference definition.  On a well-formed
state and for `pos < 24`, `is_mill_formed` returns true if and only if cell
`pos` holds `cur_player` and some mill that contains `pos` has all its cells
equal to `cur_player`; it returns false when cell `pos` is `EMPTY` or holds
the opponent.  The function returns a flag only, the state is its argument. -/
theorem C28_is_mill_formed_reference (s : GameState) (pos : Nat) (hs : s.well_formed)
    (hpos : pos < BOARD_SIZE) :
    is_mill_formed s pos = some (decide (board_ref s.board pos = some s.cur_player ∧
      in_formed_mill s.board s.cur_player pos)) ∧
    (board_ref s.board pos = some EMPTY ∨
      board_ref s.board pos = some (other_player s.cur_player) →
        is_mill_formed s pos = some false) := by
  have hp := well_formed_player hs
  have h := is_mill_formed_eq hs.1.2.2.2.2 (well_formed_cells hs) hp hpos
  refine ⟨h, ?_⟩
  intro hc
  rw [h]
  obtain ⟨-, hne, hne0⟩ := other_player_spec hp
  have hnot : ¬ (board_ref s.board pos = some s.cur_player ∧
      in_formed_mill s.board s.cur_player pos) := by
    rintro ⟨hown, -⟩
    rw [hown] at hc
    rcases hc with hc | hc
    · have := Option.some.inj hc
      unfold EMPTY at this
      rcases hp with hp | hp <;> omega
    · exact hne (Option.some.inj hc).symm
  rw [decide_eq_false hnot]

/-- C28, witness: after player 1 has closed the mill 0-1-2, `is_mill_formed`
is true at cell 2. -/
theorem C28_is_mill_formed_reference_witness :
    is_mill_formed after_quick_mill 2 =
      some (decide (board_ref after_quick_mill.board 2 = some after_quick_mill.cur_player ∧
        in_formed_mill after_quick_mill.board after_quick_mill.cur_player 2)) ∧
    (board_ref after_quick_mill.board 2 = some EMPTY ∨
      board_ref after_quick_mill.board 2 = some (other_player after_quick_mill.cur_player) →
        is_mill_formed after_quick_mill 2 = some false) :=
  C28_is_mill_formed_reference after_quick_mill 2 (by decide) (by decide)

/-- C29, counterexample: in the well-formed state `both_at_two` player 1 is
the current player and both counters are 2; the removal of the piece of
player 2 on cell 3 is allowed and succeeds, yet `get_winner` reports
`PLAYER2`, not the current player. -/
theorem C29_winner_is_the_opponent :
    both_at_two.well_formed ∧ both_at_two.cur_player = PLAYER1 ∧
    both_at_two.player_pieces[other_player both_at_two.cur_player - 1]? = some 2 ∧
    board_ref both_at_two.board 3 = some (other_player both_at_two.cur_player) ∧
    ¬ in_formed_mill both_at_two.board (other_player both_at_two.cur_player) 3 ∧
    get_winner both_at_two = some PLAYER2 ∧
    remove_piece true both_at_two 3 = some (true, after_floor_removal) ∧
    after_floor_removal.player_pieces[other_player both_at_two.cur_player - 1]? = some 1 := by
  decide

/-- C29, amended: no floor on piece counts.  On a well-formed state in which
the opponent has exactly 2 pieces, `get_winner` reports the current player,
unless the current player is player 1 and has exactly 2 pieces too, when it
reports `PLAYER2`; and for `pos < 24` holding a piece of the opponent that the
mill-immunity rule allows to remove, `remove_piece` still returns true and
the counter of the opponent becomes 1. -/
theorem C29_no_floor_on_pieces (s : GameState) (pos : Nat) (hs : s.well_formed)
    (hpos : pos < BOARD_SIZE)
    (htwo : s.player_pieces[other_player s.cur_player - 1]? = some 2)
    (hopp : board_ref s.board pos = some (other_player s.cur_player))
    (hrule : ¬ in_formed_mill s.board (other_player s.cur_player) pos ∨
      ∀ j, j < BOARD_SIZE → board_ref s.board j = some (other_player s.cur_player) →
        in_formed_mill s.board (other_player s.cur_player) j) :
    get_winner s = some (if s.cur_player = PLAYER1 ∧ s.player_pieces[0]? = some 2
      then PLAYER2 else s.cur_player) ∧
    ∃ s2, remove_piece true s pos = some (true, s2) ∧
      s2.player_pieces[other_player s.cur_player - 1]? = some 1 := by
  have hp := well_formed_player hs
  obtain ⟨n0, h0⟩ := well_formed_pieces hs (Or.inl rfl : (1 : Nat) = 1 ∨ (1 : Nat) = 2)
  have hl : s.player_pieces.length = 2 := hs.1.2.2.1
  constructor
  · unfold get_winner
    rcases hp with hcur | hcur
    · have h1 : s.player_pieces[1]? = some 2 := by
        rw [hcur] at htwo; exact htwo
      by_cases a : n0 = 2
      · simp [h0, a, hcur, PLAYER1, PLAYER2]
      · simp [h0, h1, a, hcur, PLAYER1, PLAYER2]
    · have h2 : s.player_pieces[0]? = some 2 := by
        rw [hcur] at htwo; exact htwo
      simp [h2, hcur, PLAYER1, PLAYER2]
  · obtain ⟨-, hyes⟩ := remove_piece_run hs hpos
    obtain ⟨b2, n, -, -, hn, hrun⟩ := hyes ⟨hopp, hrule.symm⟩
    rw [htwo] at hn
    have hn2 : n = 2 := (Option.some.inj hn).symm
    subst hn2
    refine ⟨_, hrun, ?_⟩
    have hlen : other_player s.cur_player - 1 < s.player_pieces.length := by
      obtain ⟨hop, -, -⟩ := other_player_spec hp
      omega
    show (s.player_pieces.set (other_player s.cur_player - 1) ((2 + 255) % 256))[
      other_player s.cur_player - 1]? = some 1
    simp [List.getElem?_set_self hlen]

/-- C29, witness: player 2 has two pieces, on cells 3 and 4, and player 1 has
closed a mill; the removal of the piece on cell 3 succeeds and leaves player 2
with one piece. -/
theorem C29_no_floor_on_pieces_witness :
    get_winner after_quick_mill = some (if after_quick_mill.cur_player = PLAYER1 ∧
        after_quick_mill.player_pieces[0]? = some 2
      then PLAYER2 else after_quick_mill.cur_player) ∧
    ∃ s2, remove_piece true after_quick_mill 3 = some (true, s2) ∧
      s2.player_pieces[other_player after_quick_mill.cur_player - 1]? = some 1 :=
  C29_no_floor_on_pieces after_quick_mill 3 (by decide) (by decide) (by decide) (by decide)
    (by decide)

/-- C30: the packed layout.  On a board of 8 bytes and for `index < 24`,
`board_ref` returns the byte `index / 4` shifted right by `2 * (index % 4)`
and masked with 3: four cells per byte, the lowest-numbered position in the
least significant bits.  The result is below 4.  The function returns a value
only, the board is its argument. -/
theorem C30_packed_layout (b : Board) (index : Nat) (hl : b.length = MASK_SIZE)
    (hi : index < BOARD_SIZE) :
    ∃ q, b[index / 4]? = some q ∧
      board_ref b index = some ((q >>> (2 * (index % 4))) &&& 3) ∧
      (q >>> (2 * (index % 4))) &&& 3 < 4 := by
  unfold BOARD_SIZE at hi
  have hlen : index / 4 < b.length := by rw [hl]; unfold MASK_SIZE; omega
  have hk : index % 4 < 4 := Nat.mod_lt _ (by decide)
  refine ⟨b[index / 4], List.getElem?_eq_getElem hlen, ?_, ?_⟩
  · rw [board_ref_eq_cell hl (by omega)]
    unfold cell
    rw [quad_cell_shift _ _ hk, List.getD_eq_getElem _ _ hlen]
  · exact Nat.lt_of_le_of_lt Nat.and_le_right (by decide)

/-- C30, witness: in the byte 0x95 the cells 0, 1, 2 and 3 are 1, 1, 1 and
2; index 3 reads the two most significant bits. -/
theorem C30_packed_layout_witness :
    ∃ q, after_quick_mill.board[3 / 4]? = some q ∧
      board_ref after_quick_mill.board 3 = some ((q >>> (2 * (3 % 4))) &&& 3) ∧
      (q >>> (2 * (3 % 4))) &&& 3 < 4 :=
  C30_packed_layout after_quick_mill.board 3 (by decide) (by decide)

/-! ## Adjacency and the sentinel -/

set_option maxRecDepth 100000 in
theorem are_adjacent_off_board : ∀ a, a < 24 → ∀ b, b < 256 →
    are_adjacent a b = some true → b < 24 ∨ b = 99 := by
  decide

/-! ## The field `setup_rounds_left` -/

theorem finish_turn_with_setup (s : GameState) (n : Nat) (mill : Bool) :
    finish_turn (s.with_setup n) mill = (finish_turn s mill).with_setup n := by
  cases mill <;> rfl

theorem bump_pieces_with_setup (s : GameState) (n player delta : Nat) :
    bump_pieces (s.with_setup n) player delta
      = (bump_pieces s player delta).map (fun t => t.with_setup n) := by
  unfold bump_pieces
  by_cases hp : player = 0
  · simp [hp]
  · rw [if_neg hp, if_neg hp]
    show (s.player_pieces[player - 1]? >>= fun k => _) = _
    cases s.player_pieces[player - 1]? <;> rfl

theorem place_piece_with_setup (asm : Bool) (s : GameState) (n pos : Nat) :
    place_piece asm (s.with_setup n) pos
      = (place_piece asm s pos).map (result_with_setup n) := by
  unfold place_piece
  rw [show is_valid_place (s.with_setup n) pos = is_valid_place s pos from rfl]
  cases is_valid_place s pos with
  | none => rfl
  | some ok =>
    cases ok with
    | false => rfl
    | true =>
      show (set_board_pos asm s.board pos s.cur_player >>= fun board =>
          bump_pieces (GameState.with_setup { s with board := board } n) s.cur_player 1 >>=
          fun st => is_mill_formed st pos >>= fun mill => pure (true, finish_turn st mill))
        = Option.map (result_with_setup n)
          (set_board_pos asm s.board pos s.cur_player >>= fun board =>
            bump_pieces { s with board := board } s.cur_player 1 >>=
            fun st => is_mill_formed st pos >>= fun mill => pure (true, finish_turn st mill))
      cases hset : set_board_pos asm s.board pos s.cur_player with
      | none => simp [hset]
      | some board =>
        simp only [hset, Option.bind_eq_bind, Option.some_bind, bump_pieces_with_setup]
        cases hbump : bump_pieces { s with board := board } s.cur_player 1 with
        | none => simp [hbump]
        | some st =>
          simp only [hbump, Option.map_some', Option.some_bind, Option.bind_eq_bind]
          rw [show is_mill_formed (st.with_setup n) pos = is_mill_formed st pos from rfl]
          cases hmill : is_mill_formed st pos with
          | none => simp [hmill]
          | some mill =>
            simp [hmill, finish_turn_with_setup, result_with_setup]

theorem move_piece_with_setup (asm : Bool) (s : GameState) (n src dest : Nat) :
    move_piece asm (s.with_setup n) src dest
      = (move_piece asm s src dest).map (result_with_setup n) := by
  unfold move_piece
  rw [show is_valid_move (s.with_setup n) src dest = is_valid_move s src dest from rfl]
  cases is_valid_move s src dest with
  | none => rfl
  | some ok =>
    cases ok with
    | false => rfl
    | true =>
      show (set_board_pos asm s.board src EMPTY >>= fun board =>
          set_board_pos asm board dest s.cur_player >>= fun board =>
          is_mill_formed (GameState.with_setup { s with board := board } n) dest >>=
          fun mill => pure (true,
            finish_turn (GameState.with_setup { s with board := board } n) mill))
        = Option.map (result_with_setup n)
          (set_board_pos asm s.board src EMPTY >>= fun board =>
            set_board_pos asm board dest s.cur_player >>= fun board =>
            is_mill_formed { s with board := board } dest >>=
            fun mill => pure (true, finish_turn { s with board := board } mill))
      cases hset : set_board_pos asm s.board src EMPTY with
      | none => simp [hset]
      | some b1 =>
        simp only [hset, Option.bind_eq_bind, Option.some_bind]
        cases hset2 : set_board_pos asm b1 dest s.cur_player with
        | none => simp [hset2]
        | some b2 =>
          simp only [hset2, Option.some_bind]
          rw [show is_mill_formed (GameState.with_setup { s with board := b2 } n) dest
            = is_mill_formed { s with board := b2 } dest from rfl]
          cases hmill : is_mill_formed { s with board := b2 } dest with
          | none => simp [hmill]
          | some mill =>
            simp [hmill, finish_turn_with_setup, result_with_setup]

theorem remove_piece_with_setup (asm : Bool) (s : GameState) (n pos : Nat) :
    remove_piece asm (s.with_setup n) pos
      = (remove_piece asm s pos).map (result_with_setup n) := by
  unfold remove_piece
  rw [show is_valid_remove (s.with_setup n) pos = is_valid_remove s pos from rfl]
  cases is_valid_remove s pos with
  | none => rfl
  | some ok =>
    cases ok with
    | false => rfl
    | true =>
      show (board_ref s.board pos >>= fun player =>
          set_board_pos asm s.board pos EMPTY >>= fun board =>
          bump_pieces (GameState.with_setup { s with board := board } n) player 255 >>=
          fun st => pure (true, next_player { st with remove_state := false }))
        = Option.map (result_with_setup n)
          (board_ref s.board pos >>= fun player =>
            set_board_pos asm s.board pos EMPTY >>= fun board =>
            bump_pieces { s with board := board } player 255 >>=
            fun st => pure (true, next_player { st with remove_state := false }))
      cases href : board_ref s.board pos with
      | none => simp [href]
      | some player =>
        simp only [href, Option.bind_eq_bind, Option.some_bind]
        cases hset : set_board_pos asm s.board pos EMPTY with
        | none => simp [hset]
        | some board =>
          simp only [hset, Option.some_bind, bump_pieces_with_setup]
          cases hbump : bump_pieces { s with board := board } player 255 with
          | none => simp [hbump]
          | some st =>
            simp only [hbump, Option.map_some', Option.some_bind, Option.pure_def]
            rfl

/-- A state that a mutator returns carries the `setup_rounds_left` of a
result that does not depend on it. -/
theorem setup_of_with_setup {r : Option (Bool × GameState)} {s s2 : GameState} {ok : Bool}
    (h : r = some (ok, s2))
    (hmap : r = (r.map (result_with_setup s.setup_rounds_left))) :
    s2.setup_rounds_left = s.setup_rounds_left := by
  rw [h] at hmap
  have := (Prod.mk.inj (Option.some.inj hmap)).2
  rw [this]
  rfl

/-! ## The lookups of the rule functions -/

/-- On a well-formed state `place_piece` returns, with either body of
`set_board_pos`. -/
theorem place_piece_defined (asm : Bool) {s : GameState} (hs : s.well_formed) {pos : Nat}
    (hpos : pos < 24) : ∃ r, place_piece asm s pos = some r := by
  have hp := well_formed_player hs
  have hb : s.board.typed := hs.1.2.2.2.2
  by_cases he : board_ref s.board pos = some EMPTY
  · obtain ⟨b2, hset, hl2⟩ := set_board_pos_defined asm hb.1 (show pos < 32 by omega) s.cur_player
    obtain ⟨n, hn⟩ := well_formed_pieces hs hp
    have hp0 : s.cur_player ≠ 0 := by omega
    obtain ⟨r, hr⟩ := is_mill_formed_defined
      (s := { s with board := b2,
                     player_pieces := s.player_pieces.set (s.cur_player - 1) ((n + 1) % 256) })
      hl2 hp hpos
    exact ⟨(true, finish_turn
      { s with board := b2,
               player_pieces := s.player_pieces.set (s.cur_player - 1) ((n + 1) % 256) } r),
      by simp [place_piece, is_valid_place, he, hset, bump_pieces, hp0, hn, hr]⟩
  · refine ⟨(false, s), ?_⟩
    rw [board_ref_eq_cell hb.1 (by omega)] at he
    have hne : cell s.board pos ≠ EMPTY := fun h => he (by rw [h])
    simp [place_piece, is_valid_place, board_ref_eq_cell hb.1 (show pos < 32 by omega), hne]

/-- On a well-formed state `remove_piece` returns, with either body of
`set_board_pos`. -/
theorem remove_piece_defined (asm : Bool) {s : GameState} (hs : s.well_formed) {pos : Nat}
    (hpos : pos < 24) : ∃ r, remove_piece asm s pos = some r := by
  have hp := well_formed_player hs
  have hb : s.board.typed := hs.1.2.2.2.2
  have hvalid := is_valid_remove_eq hb (well_formed_cells hs) hp hpos
  obtain ⟨hop, -, hne0⟩ := other_player_spec hp
  by_cases hv : board_ref s.board pos = some (other_player s.cur_player) ∧
      ((∀ j, j < BOARD_SIZE → board_ref s.board j = some (other_player s.cur_player) →
          in_formed_mill s.board (other_player s.cur_player) j) ∨
        ¬ in_formed_mill s.board (other_player s.cur_player) pos)
  · rw [decide_eq_true hv] at hvalid
    obtain ⟨b2, hset, -⟩ := set_board_pos_defined asm hb.1 (show pos < 32 by omega) EMPTY
    obtain ⟨n, hn⟩ := well_formed_pieces hs hop
    exact ⟨(true, next_player
      { s with board := b2,
               player_pieces :=
                 s.player_pieces.set (other_player s.cur_player - 1) ((n + 255) % 256),
               remove_state := false }),
      by simp [remove_piece, hvalid, hv.1, hset, bump_pieces, hne0, hn]⟩
  · exact ⟨(false, s), (remove_piece_run hs hpos).1 hv asm⟩

/-! ## Mills and adjacency -/

set_option maxRecDepth 100000 in
theorem mill_line_adjacent : ∀ m, m < 20 →
    (∀ j, j < 24 → (mill_contains m j = true ↔
      j = (diagram_lines.getD m []).getD 0 0 ∨ j = (diagram_lines.getD m []).getD 1 0 ∨
      j = (diagram_lines.getD m []).getD 2 0)) ∧
    (diagram_lines.getD m []).getD 0 0 < 24 ∧ (diagram_lines.getD m []).getD 1 0 < 24 ∧
    (diagram_lines.getD m []).getD 2 0 < 24 ∧
    (diagram_lines.getD m []).getD 0 0 ≠ (diagram_lines.getD m []).getD 1 0 ∧
    (diagram_lines.getD m []).getD 1 0 ≠ (diagram_lines.getD m []).getD 2 0 ∧
    (diagram_lines.getD m []).getD 0 0 ≠ (diagram_lines.getD m []).getD 2 0 ∧
    are_adjacent ((diagram_lines.getD m []).getD 0 0) ((diagram_lines.getD m []).getD 1 0)
      = some true ∧
    are_adjacent ((diagram_lines.getD m []).getD 1 0) ((diagram_lines.getD m []).getD 2 0)
      = some true := by
  decide

set_option maxRecDepth 100000 in
theorem adjacent_pair_mill : ∀ a, a < 24 → ∀ b, b < 24 →
    are_adjacent a b ≠ some true ∨
    ∃ m, m < 20 ∧
      (List.range 20).filter (fun k => mill_contains k a && mill_contains k b) = [m] := by
  decide

/-! ## The masks of the players -/

set_option maxRecDepth 100000 in
theorem player_mill_masks_bytes : ∀ m, m < 20 →
    (mill_masks.getD m []).length = 8 ∧ (p1_mill_masks.getD m []).length = 8 ∧
    (p2_mill_masks.getD m []).length = 8 ∧
    ∀ k, k < 8 →
      (p1_mill_masks.getD m []).getD k 0 = (mill_masks.getD m []).getD k 0 &&& p1_mask.getD k 0 ∧
      (p2_mill_masks.getD m []).getD k 0 = (mill_masks.getD m []).getD k 0 &&& p2_mask.getD k 0 := by
  decide

set_option maxRecDepth 100000 in
theorem mill_from_pos_entries : ∀ e ∈ mill_from_pos, e < 20 := by
  decide

/-! ## The two bodies of `set_board_pos`, the sentinel, and what remains -/

/-- For the first cell of a byte the two bodies of `set_board_pos` agree: the
`switch` has the case 0. -/
theorem set_board_pos_portable_first_cell (b : Board) (index value : Nat)
    (h : index % 4 = 0) :
    set_board_pos false b index value = set_board_pos true b index value := by
  unfold set_board_pos
  rw [h]
  rfl

/-- C31, failing input: on the board whose cell 1 holds `PLAYER2`, with index
1 and value `PLAYER1`, the portable body returns the byte 0x0C and the body
with `HAVE_X86_ASM` the byte 0x04; the masks are 0xCF and 0xF3.  On the board
whose cell 0 holds `PLAYER1`, with index 2 and value `PLAYER2`, the portable
body returns 0x20 and the other 0x21. -/
theorem C31_portable_differs_from_rolb :
    clear_mask false 2 = 0xCF ∧ clear_mask true 2 = 0xF3 ∧
    set_board_pos false [0x08, 0, 0, 0, 0, 0, 0, 0] 1 PLAYER1
      = some [0x0C, 0, 0, 0, 0, 0, 0, 0] ∧
    set_board_pos true [0x08, 0, 0, 0, 0, 0, 0, 0] 1 PLAYER1
      = some [0x04, 0, 0, 0, 0, 0, 0, 0] ∧
    clear_mask false 4 = 0xFC ∧ clear_mask true 4 = 0xCF ∧
    set_board_pos false [0x01, 0, 0, 0, 0, 0, 0, 0] 2 PLAYER2
      = some [0x20, 0, 0, 0, 0, 0, 0, 0] ∧
    set_board_pos true [0x01, 0, 0, 0, 0, 0, 0, 0] 2 PLAYER2
      = some [0x21, 0, 0, 0, 0, 0, 0, 0] := by
  decide

/-- C33: a removal is always possible.  On a well-formed state in which the
opponent has a piece on the board there is a position below 24 for which
`is_valid_remove` returns true, and `remove_piece` succeeds there. -/
theorem C33_removal_always_possible (s : GameState) (hs : s.well_formed)
    (hpiece : ∃ j, j < BOARD_SIZE ∧ board_ref s.board j = some (other_player s.cur_player)) :
    ∃ pos, pos < BOARD_SIZE ∧ is_valid_remove s pos = some true ∧
      ∃ s2, remove_piece true s pos = some (true, s2) := by
  have hp := well_formed_player hs
  have hb : s.board.typed := hs.1.2.2.2.2
  have key : ∃ pos, pos < BOARD_SIZE ∧
      (board_ref s.board pos = some (other_player s.cur_player) ∧
        ((∀ j, j < BOARD_SIZE → board_ref s.board j = some (other_player s.cur_player) →
            in_formed_mill s.board (other_player s.cur_player) j) ∨
          ¬ in_formed_mill s.board (other_player s.cur_player) pos)) := by
    obtain ⟨j, hj, hjo⟩ := hpiece
    by_cases hall : ∀ j, j < BOARD_SIZE → board_ref s.board j = some (other_player s.cur_player) →
        in_formed_mill s.board (other_player s.cur_player) j
    · exact ⟨j, hj, hjo, Or.inl hall⟩
    · push_neg at hall
      obtain ⟨k, hk, hko, hnot⟩ := hall
      exact ⟨k, hk, hko, Or.inr hnot⟩
  obtain ⟨pos, hpos, hv⟩ := key
  have hvalid := is_valid_remove_eq hb (well_formed_cells hs) hp hpos
  rw [decide_eq_true hv] at hvalid
  obtain ⟨b2, n, -, -, -, hrun⟩ := (remove_piece_run hs hpos).2 hv
  exact ⟨pos, hpos, hvalid, _, hrun⟩

/-- C33, witness: player 1 has closed the mill 0-1-2 and player 2 has pieces
on cells 3 and 4. -/
theorem C33_removal_always_possible_witness :
    ∃ pos, pos < BOARD_SIZE ∧ is_valid_remove after_quick_mill pos = some true ∧
      ∃ s2, remove_piece true after_quick_mill pos = some (true, s2) :=
  C33_removal_always_possible after_quick_mill (by decide) ⟨3, by decide, by decide⟩

/-- C34: no mutator touches the setup counter.  For every state, every value
`n` and all arguments, with either body of `set_board_pos`: `next_player`,
`place_piece`, `move_piece` and `remove_piece` on the state with `n` in
`setup_rounds_left` give the result they give on the state itself, with `n`
in `setup_rounds_left`; so the returned flag does not depend on the counter,
and the state they return has the counter of the state they were given. -/
theorem C34_setup_counter_untouched (asm : Bool) (s : GameState) (n pos src dest : Nat) :
    (next_player (s.with_setup n) = (next_player s).with_setup n ∧
      (next_player s).setup_rounds_left = s.setup_rounds_left) ∧
    (place_piece asm (s.with_setup n) pos
        = (place_piece asm s pos).map (result_with_setup n) ∧
      ∀ ok s2, place_piece asm s pos = some (ok, s2) →
        s2.setup_rounds_left = s.setup_rounds_left) ∧
    (move_piece asm (s.with_setup n) src dest
        = (move_piece asm s src dest).map (result_with_setup n) ∧
      ∀ ok s2, move_piece asm s src dest = some (ok, s2) →
        s2.setup_rounds_left = s.setup_rounds_left) ∧
    (remove_piece asm (s.with_setup n) pos
        = (remove_piece asm s pos).map (result_with_setup n) ∧
      ∀ ok s2, remove_piece asm s pos = some (ok, s2) →
        s2.setup_rounds_left = s.setup_rounds_left) := by
  refine ⟨⟨rfl, rfl⟩, ⟨place_piece_with_setup asm s n pos, ?_⟩,
    ⟨move_piece_with_setup asm s n src dest, ?_⟩, ⟨remove_piece_with_setup asm s n pos, ?_⟩⟩
  · intro ok s2 h
    exact setup_of_with_setup h (place_piece_with_setup asm s s.setup_rounds_left pos)
  · intro ok s2 h
    exact setup_of_with_setup h (move_piece_with_setup asm s s.setup_rounds_left src dest)
  · intro ok s2 h
    exact setup_of_with_setup h (remove_piece_with_setup asm s s.setup_rounds_left pos)

/-- C35: mills are connected lines of the adjacency graph.  Each of the 20
mills covers exactly three distinct positions `a`, `b`, `c` below 24 with
`are_adjacent a b` and `are_adjacent b c`; and for every pair of adjacent
positions there is exactly one mill that covers both. -/
theorem C35_mills_are_adjacent_lines :
    (∀ m, m < TOTAL_MILLS → ∃ a b c, a < BOARD_SIZE ∧ b < BOARD_SIZE ∧ c < BOARD_SIZE ∧
      a ≠ b ∧ b ≠ c ∧ a ≠ c ∧
      (∀ j, j < BOARD_SIZE → (mill_contains m j = true ↔ j = a ∨ j = b ∨ j = c)) ∧
      are_adjacent a b = some true ∧ are_adjacent b c = some true) ∧
    (∀ a, a < BOARD_SIZE → ∀ b, b < BOARD_SIZE → are_adjacent a b = some true →
      ∃ m, m < TOTAL_MILLS ∧ (mill_contains m a = true ∧ mill_contains m b = true) ∧
        ∀ m2, m2 < TOTAL_MILLS → mill_contains m2 a = true → mill_contains m2 b = true →
          m2 = m) := by
  constructor
  · intro m hm
    obtain ⟨h1, h2, h3, h4, h5, h6, h7, h8, h9⟩ := mill_line_adjacent m hm
    exact ⟨_, _, _, h2, h3, h4, h5, h6, h7, h1, h8, h9⟩
  · intro a ha b hb hadj
    obtain ⟨m, hm, hf⟩ := (adjacent_pair_mill a ha b hb).resolve_left (fun h => h hadj)
    have hmem : ∀ k, (k < 20 ∧ mill_contains k a = true ∧ mill_contains k b = true) ↔ k = m := by
      intro k
      have : k ∈ (List.range 20).filter (fun k => mill_contains k a && mill_contains k b) ↔
          k ∈ List.range 20 ∧ (mill_contains k a && mill_contains k b) = true :=
        List.mem_filter
      rw [hf] at this
      simp only [List.mem_singleton, List.mem_range, Bool.and_eq_true] at this
      exact this.symm
    refine ⟨m, hm, ((hmem m).mpr rfl).2, ?_⟩
    intro m2 hm2 h1 h2
    exact (hmem m2).mp ⟨hm2, h1, h2⟩

/-- C36: `next_player` and `get_opponent`.  On a state whose `cur_player` is
`PLAYER1` or `PLAYER2`, `next_player` sets `cur_player` to the result of
`get_opponent` on the state before the call and changes no other field, two
calls of `next_player` restore the state, and `get_opponent` returns neither
`EMPTY` nor the current player. -/
theorem C36_next_player_get_opponent (s : GameState)
    (hp : s.cur_player = PLAYER1 ∨ s.cur_player = PLAYER2) :
    next_player s = { s with cur_player := get_opponent s } ∧
    next_player (next_player s) = s ∧
    get_opponent s ≠ EMPTY ∧ get_opponent s ≠ s.cur_player := by
  obtain ⟨cur, setup, rs, pp, b⟩ := s
  simp only at hp
  rcases hp with h | h <;> subst h <;>
    simp [next_player, get_opponent, PLAYER1, PLAYER2, EMPTY, NUM_PLAYERS]

/-- C36, witness: the state of a new game, player 1 to move. -/
theorem C36_next_player_get_opponent_witness :
    next_player opening_state = { opening_state with cur_player := get_opponent opening_state } ∧
    next_player (next_player opening_state) = opening_state ∧
    get_opponent opening_state ≠ EMPTY ∧
    get_opponent opening_state ≠ opening_state.cur_player :=
  C36_next_player_get_opponent opening_state (Or.inl rfl)

/-- C37: the mill masks of the players are derived from the neutral ones.
The mask `p1_mask` is 0x55 and `p2_mask` is 0xAA in the six bytes of the 24
cells, both are zero in the two padding bytes, and for every mill `m < 20`
and every byte `k < 8`, byte `k` of entry `m` of `p1_mill_masks` is byte `k`
of entry `m` of `mill_masks` AND byte `k` of `p1_mask`, and likewise for
`p2_mill_masks` and `p2_mask`. -/
theorem C37_player_mill_masks_derived :
    p1_mask = [0x55, 0x55, 0x55, 0x55, 0x55, 0x55, 0, 0] ∧
    p2_mask = [0xAA, 0xAA, 0xAA, 0xAA, 0xAA, 0xAA, 0, 0] ∧
    (∀ i, i < BOARD_SIZE → board_ref p1_mask i = some 1 ∧ board_ref p2_mask i = some 2) ∧
    mill_masks.length = TOTAL_MILLS ∧ p1_mill_masks.length = TOTAL_MILLS ∧
    p2_mill_masks.length = TOTAL_MILLS ∧
    ∀ m, m < TOTAL_MILLS →
      (mill_masks.getD m []).length = MASK_SIZE ∧ (p1_mill_masks.getD m []).length = MASK_SIZE ∧
      (p2_mill_masks.getD m []).length = MASK_SIZE ∧
      ∀ k, k < MASK_SIZE →
        (p1_mill_masks.getD m []).getD k 0
          = (mill_masks.getD m []).getD k 0 &&& p1_mask.getD k 0 ∧
        (p2_mill_masks.getD m []).getD k 0
          = (mill_masks.getD m []).getD k 0 &&& p2_mask.getD k 0 := by
  refine ⟨rfl, rfl, by decide, rfl, rfl, rfl, player_mill_masks_bytes⟩

/-- C38: the table lookups are in bounds.  Every entry of `mill_from_pos` is
below 20; on a well-formed state and for `pos < 24`, each index
`pos * 3 + i` with `i < 3` is inside `mill_from_pos` and the mill number found
there is inside the mill masks of the current player, `cur_player` selects a
slot of each of the four choice arrays that is not the `NULL` slot,
`cur_player - 1` and the index of the opponent are inside `player_pieces`, and
`is_mill_formed`, `is_valid_remove`, `place_piece` and `remove_piece`
return. -/
theorem C38_table_lookups_in_bounds (s : GameState) (pos : Nat) (hs : s.well_formed)
    (hpos : pos < BOARD_SIZE) :
    mill_from_pos.length = BOARD_SIZE * 3 ∧ (∀ e ∈ mill_from_pos, e < TOTAL_MILLS) ∧
    (∃ t, (plyr_mill_choices[s.cur_player]?).join = some t ∧ t.length = TOTAL_MILLS ∧
      ∀ i, i < 3 → ∃ m mask, mill_from_pos[pos * 3 + i]? = some m ∧ m < TOTAL_MILLS ∧
        t[m]? = some mask) ∧
    (∃ t, (opp_plyr_mill_choices[s.cur_player]?).join = some t ∧ t.length = TOTAL_MILLS) ∧
    (∃ k, (plyr_mask_choices[s.cur_player]?).join = some k) ∧
    (∃ k, (opp_plyr_mask_choices[s.cur_player]?).join = some k) ∧
    (0 < s.cur_player ∧ s.cur_player - 1 < s.player_pieces.length) ∧
    (0 < other_player s.cur_player ∧ other_player s.cur_player - 1 < s.player_pieces.length) ∧
    (∃ r, is_mill_formed s pos = some r) ∧ (∃ r, is_valid_remove s pos = some r) ∧
    (∀ asm, ∃ r, place_piece asm s pos = some r) ∧
    (∀ asm, ∃ r, remove_piece asm s pos = some r) := by
  have hp := well_formed_player hs
  have hb : s.board.typed := hs.1.2.2.2.2
  have hl : s.player_pieces.length = 2 := hs.1.2.2.1
  obtain ⟨hch, hoch, hm, ⟨om, hom, -, -⟩⟩ := choices_spec hp
  obtain ⟨hop, -, -⟩ := other_player_spec hp
  have hlen : ∀ p, p = 1 ∨ p = 2 → (mill_table p).length = TOTAL_MILLS := by
    intro p h
    rcases h with rfl | rfl <;> rfl
  refine ⟨rfl, mill_from_pos_entries, ⟨_, hch, hlen _ hp, ?_⟩, ⟨_, hoch, hlen _ hop⟩, hm,
    ⟨om, hom⟩, ⟨by omega, by omega⟩, ⟨by omega, by omega⟩,
    is_mill_formed_defined hb.1 hp hpos,
    ⟨_, is_valid_remove_eq hb (well_formed_cells hs) hp hpos⟩,
    fun asm => place_piece_defined asm hs hpos, fun asm => remove_piece_defined asm hs hpos⟩
  intro i hi
  obtain ⟨e1, e2⟩ := mill_from_pos_lookup pos hpos i hi
  obtain ⟨e3, -, -⟩ := mill_table_spec hp e2
  exact ⟨_, _, e1, e2, e3⟩

/-- C38, witness: after player 1 has closed the mill 0-1-2, at cell 3. -/
theorem C38_table_lookups_in_bounds_witness :
    mill_from_pos.length = BOARD_SIZE * 3 ∧ (∀ e ∈ mill_from_pos, e < TOTAL_MILLS) ∧
    (∃ t, (plyr_mill_choices[after_quick_mill.cur_player]?).join = some t ∧
      t.length = TOTAL_MILLS ∧
      ∀ i, i < 3 → ∃ m mask, mill_from_pos[3 * 3 + i]? = some m ∧ m < TOTAL_MILLS ∧
        t[m]? = some mask) ∧
    (∃ t, (opp_plyr_mill_choices[after_quick_mill.cur_player]?).join = some t ∧
      t.length = TOTAL_MILLS) ∧
    (∃ k, (plyr_mask_choices[after_quick_mill.cur_player]?).join = some k) ∧
    (∃ k, (opp_plyr_mask_choices[after_quick_mill.cur_player]?).join = some k) ∧
    (0 < after_quick_mill.cur_player ∧
      after_quick_mill.cur_player - 1 < after_quick_mill.player_pieces.length) ∧
    (0 < other_player after_quick_mill.cur_player ∧
      other_player after_quick_mill.cur_player - 1 < after_quick_mill.player_pieces.length) ∧
    (∃ r, is_mill_formed after_quick_mill 3 = some r) ∧
    (∃ r, is_valid_remove after_quick_mill 3 = some r) ∧
    (∀ asm, ∃ r, place_piece asm after_quick_mill 3 = some r) ∧
    (∀ asm, ∃ r, remove_piece asm after_quick_mill 3 = some r) :=
  C38_table_lookups_in_bounds after_quick_mill 3 (by decide) (by decide)
end Morris
